import Mathlib

/-!
# Apophenia: the probit and rank-exponential models

A shallow embedding of `lib/model/apop_rank_exponential.c` and
`lib/model/apop_probit.c`.  The definitions are generic in the type `α` of the
C `double` values.  With `α` a field they are exact arithmetic: they evaluate
over `ℚ` and are reasoned about over `ℝ`.  The definitions of the
rank-exponential model ask their arithmetic of `α` by operation, so they also
run on the type `double` of the IEEE 754 binary64 values, defined below with
its rounded operations.  Functions of the C mathematics library and of the
GSL (`log`, `gsl_cdf_gaussian_P`, `gsl_ran_gaussian_pdf`) are parameters of
the definitions that call them.
-/

namespace Apophenia

/-! ## GSL vectors and matrices -/

/-- A `gsl_vector`: its length and its cells.  Only the cells below `size`
belong to the vector. -/
structure gsl_vector (α : Type) where
  size : Nat
  data : Nat → α

/-- A `gsl_matrix`: `size1` rows, `size2` columns, cell `data i j` at row `i`
and column `j`. -/
structure gsl_matrix (α : Type) where
  size1 : Nat
  size2 : Nat
  data : Nat → Nat → α

/-- The C call `gsl_vector_get(v, i)`. -/
def gsl_vector_get {α : Type} (v : gsl_vector α) (i : Nat) : α :=
  v.data i

/-- The C call `gsl_vector_set(v, i, x)`: cell `i` becomes `x`, the other
cells and the length are kept. -/
def gsl_vector_set {α : Type} (v : gsl_vector α) (i : Nat) (x : α) : gsl_vector α :=
  { v with data := Function.update v.data i x }

/-- The C call `gsl_matrix_get(m, i, j)`. -/
def gsl_matrix_get {α : Type} (m : gsl_matrix α) (i j : Nat) : α :=
  m.data i j

/-- The C call `gsl_matrix_column(m, j)`: the view of column `j`. -/
def gsl_matrix_column {α : Type} (m : gsl_matrix α) (j : Nat) : gsl_vector α :=
  ⟨m.size1, fun i => m.data i j⟩

/-- The C call `gsl_vector_alloc(n)`.  C leaves the cells unspecified; here
they are zero, and every caller below writes a cell before reading it. -/
def gsl_vector_alloc {α : Type} [Zero α] (n : Nat) : gsl_vector α :=
  ⟨n, fun _ => 0⟩

/-- Modelled from the spec: `apop_sum` of apophenia's `stats.c`, which is not
among the sources; the spec's `columnsum_k` is the sum of the cells of the
column it is applied to. -/
def apop_sum {α : Type} [Zero α] [Add α] (v : gsl_vector α) : α :=
  (List.range v.size).foldl (fun s i => s + gsl_vector_get v i) 0

/-! ## The capability inventory and the estimate -/

/-- The `apop_inventory` flags, in their declared order. -/
structure apop_inventory where
  parameters : Bool
  covariance : Bool
  confidence : Bool
  predicted : Bool
  residuals : Bool
  log_likelihood : Bool
  names : Bool
deriving DecidableEq, Repr

/-- Modelled from the spec: `apop_inventory_filter` of apophenia's
`inventory.c`, which is not among the sources; the spec gives it as the
field-wise `request ∧ support`. -/
def apop_inventory_filter (uses filter : apop_inventory) : apop_inventory :=
  { parameters := uses.parameters && filter.parameters
    covariance := uses.covariance && filter.covariance
    confidence := uses.confidence && filter.confidence
    predicted := uses.predicted && filter.predicted
    residuals := uses.residuals && filter.residuals
    log_likelihood := uses.log_likelihood && filter.log_likelihood
    names := uses.names && filter.names }

/-- The fields of an `apop_estimate` that the two models touch.  A field that
C leaves unwritten is `none`. -/
structure apop_estimate (α κ : Type) where
  parameters : gsl_vector α
  uses : apop_inventory
  log_likelihood : Option α
  covariance : Option κ

/-- Modelled from the spec: `apop_estimate_alloc(data_size, param_size, names,
uses)` of apophenia's `estimate.c`, which is not among the sources: a fresh
estimate with a parameter vector of `param_size` cells that records the
inventory it is given. -/
def apop_estimate_alloc {α κ : Type} [Zero α] (_data_size param_size : Nat)
    (uses : apop_inventory) : apop_estimate α κ :=
  { parameters := gsl_vector_alloc param_size
    uses := uses
    log_likelihood := none
    covariance := none }

/-! ## The rank-exponential model (`apop_rank_exponential.c`) -/

/-- The initialiser of `apop_exponential_rank.inventory_filter`. -/
def apop_exponential_rank_inventory_filter : apop_inventory :=
  { parameters := true
    covariance := true
    confidence := true
    predicted := false
    residuals := false
    log_likelihood := true
    names := false }

/-- The C function `rank_exponential_log_likelihood(beta, d)`; `log` is the C
library's logarithm. -/
def rank_exponential_log_likelihood {α : Type} [Zero α] [Add α] [Sub α] [Neg α] [Mul α]
    [Div α] [NatCast α] (log : α → α)
    (beta : gsl_vector α) (d : gsl_matrix α) : α :=
  let bb := gsl_vector_get beta 0
  let ln_c := log bb
  (List.range d.size2).foldl
    (fun llikelihood (k : Nat) =>
      let p := -ln_c - (k : α) / bb
      (List.range d.size1).foldl
        (fun llikelihood i => llikelihood + gsl_matrix_get d i k * p) llikelihood)
    0

/-- The C function `rank_exponential_dlog_likelihood(beta, d, gradient)`: the
returned vector is `gradient` after the call. -/
def rank_exponential_dlog_likelihood {α : Type} [Field α] (log : α → α)
    (beta : gsl_vector α) (d : gsl_matrix α) (gradient : gsl_vector α) : gsl_vector α :=
  let bb := gsl_vector_get beta 0
  let one_over_ln_c := 1 / log bb
  let d_likelihood := (List.range d.size2).foldl
    (fun d_likelihood (k : Nat) =>
      let p := (one_over_ln_c - ((k + 1 : Nat) : α)) / bb
      (List.range d.size1).foldl
        (fun d_likelihood i => d_likelihood + gsl_matrix_get d i k * p) d_likelihood)
    0
  gsl_vector_set gradient 0 d_likelihood

/-- The loop of `exponential_rank_estimate` over the columns: the pair
`(numerator, grand_total)` it leaves. -/
def exponential_rank_estimate_loop {α : Type} [Zero α] [Add α] [Mul α] [NatCast α]
    (data : gsl_matrix α) : α × α :=
  (List.range data.size2).foldl
    (fun acc (i : Nat) =>
      let v := gsl_matrix_column data i
      let colsum := apop_sum v
      (acc.1 + colsum * (i : α), acc.2 + colsum))
    (0, 0)

/-- The C function `exponential_rank_estimate(data, uses, parameters)`.  The
estimate is allocated with the caller's `*uses` before the filter is applied
to `uses`; the result is the estimate together with the caller's inventory
after the call.  `var_covar` stands for `apop_numerical_var_covar_matrix`
(not among the sources), taken to fill the covariance field only. -/
def exponential_rank_estimate {α κ π : Type} [Zero α] [Add α] [Sub α] [Neg α] [Mul α]
    [Div α] [NatCast α] (log : α → α)
    (var_covar : gsl_vector α → gsl_matrix α → κ)
    (data : gsl_matrix α) (uses : apop_inventory) (_parameters : π) :
    apop_estimate α κ × apop_inventory :=
  let est : apop_estimate α κ := apop_estimate_alloc data.size1 1 uses
  let uses := apop_inventory_filter uses apop_exponential_rank_inventory_filter
  let nt := exponential_rank_estimate_loop data
  let numerator := nt.1
  let grand_total := nt.2
  let est := { est with parameters := gsl_vector_set est.parameters 0 (numerator / grand_total) }
  let est := if est.uses.log_likelihood
    then { est with log_likelihood := some (rank_exponential_log_likelihood log est.parameters data) }
    else est
  let est := if est.uses.covariance
    then { est with covariance := some (var_covar est.parameters data) }
    else est
  (est, uses)

/-- The value of GSL's macro `GSL_DBL_EPSILON` (`gsl_machine.h`). -/
def GSL_DBL_EPSILON {α : Type} [Field α] : α :=
  22204460492503131 / 10 ^ 32

/-- What a call of a constraint function leaves: the returned penalty and the
two vectors it was handed. -/
structure constraint_result (α : Type) where
  penalty : α
  beta : gsl_vector α
  returned_beta : gsl_vector α

/-- The C function `beta_greater_than_x_constraint(beta, d, returned_beta)`. -/
def beta_greater_than_x_constraint {α : Type} [LinearOrderedField α]
    (beta : gsl_vector α) (returned_beta : gsl_vector α) : constraint_result α :=
  let limit : α := 0
  let tolerance : α := 10 ^ 10 * GSL_DBL_EPSILON
  let mu := gsl_vector_get beta 0
  if mu > limit then
    ⟨0, beta, returned_beta⟩
  else
    ⟨limit - mu, beta, gsl_vector_set returned_beta 0 (limit + tolerance)⟩

/-! ## The probit model (`apop_probit.c`) -/

/-- The C call `gsl_matrix_submatrix(m, i, j, n1, n2)`: the view of `n1` rows
and `n2` columns whose upper-left cell is `(i, j)`.  The GSL calls its error
handler, which aborts, when the row index `i` or the column index `j` is out
of range (`i >= size1`, `j >= size2`), when a dimension of the view is zero,
or when the view overflows the matrix; that is `none`.  In `dot` the width is
`data->size2 - 1`, which wraps round in C when the data has no column; the
call is then rejected for its column index 1, and so it is here, where the
subtraction stops at zero. -/
def gsl_matrix_submatrix {α : Type} (m : gsl_matrix α) (i j n1 n2 : Nat) :
    Option (gsl_matrix α) :=
  if i < m.size1 ∧ j < m.size2 ∧ 0 < n1 ∧ 0 < n2 ∧ i + n1 ≤ m.size1 ∧ j + n2 ≤ m.size2 then
    some ⟨n1, n2, fun a b => m.data (i + a) (j + b)⟩
  else
    none

/-- The C call `gsl_blas_dgemv(CblasNoTrans, alpha, A, x, beta, y)`: the cells
of `y` become `alpha * (A x) + beta * y`.  The GSL calls its error handler,
which aborts, when the lengths do not conform; that is `none`. -/
def gsl_blas_dgemv {α : Type} [Field α] (alpha : α) (A : gsl_matrix α) (x : gsl_vector α)
    (beta : α) (y : gsl_vector α) : Option (gsl_vector α) :=
  if A.size2 = x.size ∧ A.size1 = y.size then
    some ⟨y.size, fun i =>
      if i < y.size then
        alpha * (∑ j in Finset.range A.size2, A.data i j * x.data j) + beta * y.data i
      else
        y.data i⟩
  else
    none

/-- The two file-scope variables of `apop_probit.c`: the cached vector
`beta_dot_x` (`none` for `NULL`) and the flag `beta_dot_x_is_current`. -/
structure probit_cache (α : Type) where
  beta_dot_x : Option (gsl_vector α)
  beta_dot_x_is_current : Bool

/-- The C function `dot(beta, data)`: the cache after the call, or `none` when
a GSL call aborts. -/
def dot {α : Type} [Field α] (beta : gsl_vector α) (data : gsl_matrix α)
    (s : probit_cache α) : Option (probit_cache α) := do
  let p ← gsl_matrix_submatrix data 0 1 data.size1 (data.size2 - 1)
  let s1 : probit_cache α :=
    match s.beta_dot_x with
    | some b => if data.size1 ≠ b.size then { s with beta_dot_x := none } else s
    | none => s
  let s2 : probit_cache α :=
    match s1.beta_dot_x with
    | none => { s1 with beta_dot_x := some (gsl_vector_alloc data.size1) }
    | some _ => s1
  let y ← s2.beta_dot_x
  let y ← gsl_blas_dgemv 1 p beta 0 y
  pure { s2 with beta_dot_x := some y }

/-- The C function `probit_log_likelihood(beta, d)`: the returned value and
the cache after the call.  `log` is the C library's logarithm and
`gsl_cdf_gaussian_P` the GSL function of that name. -/
def probit_log_likelihood {α : Type} [Field α] [DecidableEq α] (log : α → α)
    (gsl_cdf_gaussian_P : α → α → α) (beta : gsl_vector α) (d : gsl_matrix α)
    (s : probit_cache α) : Option (α × probit_cache α) := do
  let s ← dot beta d s
  let beta_dot_x ← s.beta_dot_x
  let total_prob := (List.range d.size1).foldl
    (fun total_prob i =>
      let n := gsl_cdf_gaussian_P (gsl_vector_get beta_dot_x i) 1
      if gsl_matrix_get d i 0 = 0 then total_prob + log n
      else total_prob + log (1 - n))
    0
  pure (total_prob, s)

/-- The C function `probit_dlog_likelihood(beta, d, gradient)`: the gradient
vector and the cache after the call.  The cached vector is read and then
freed, so a call that finds it `NULL` after the optional `dot` is `none`. -/
def probit_dlog_likelihood {α : Type} [Field α] [DecidableEq α]
    (gsl_ran_gaussian_pdf gsl_cdf_gaussian_P : α → α → α) (beta : gsl_vector α)
    (d : gsl_matrix α) (gradient : gsl_vector α) (s : probit_cache α) :
    Option (gsl_vector α × probit_cache α) := do
  let s ← if !s.beta_dot_x_is_current then dot beta d s else pure s
  let beta_dot_x ← s.beta_dot_x
  let gradient := (List.range beta.size).foldl
    (fun gradient j =>
      let beta_term_sum := (List.range d.size1).foldl
        (fun beta_term_sum i =>
          let one_term := gsl_matrix_get d i (j + 1)
            * gsl_ran_gaussian_pdf (gsl_vector_get beta_dot_x i) 1
          let one_term :=
            if gsl_matrix_get d i 0 = 0 then
              one_term / gsl_cdf_gaussian_P (gsl_vector_get beta_dot_x i) 1
            else
              one_term / (gsl_cdf_gaussian_P (gsl_vector_get beta_dot_x i) 1 - 1)
          beta_term_sum + one_term)
        0
      gsl_vector_set gradient j beta_term_sum)
    gradient
  pure (gradient, { s with beta_dot_x := none })

/-- The C function `probit_fdf(beta, d, f, df)`: the value stored in `*f`, the
vector `df` and the cache after the call. -/
def probit_fdf {α : Type} [Field α] [DecidableEq α] (log : α → α)
    (gsl_ran_gaussian_pdf gsl_cdf_gaussian_P : α → α → α) (beta : gsl_vector α)
    (d : gsl_matrix α) (df : gsl_vector α) (s : probit_cache α) :
    Option (α × gsl_vector α × probit_cache α) := do
  let (f, s) ← probit_log_likelihood log gsl_cdf_gaussian_P beta d s
  let s := { s with beta_dot_x_is_current := true }
  let (df, s) ← probit_dlog_likelihood gsl_ran_gaussian_pdf gsl_cdf_gaussian_P beta d df s
  let s := { s with beta_dot_x_is_current := false }
  pure (f, df, s)

/-! ## Quantities the claims speak of -/

/-- The grand total of a data matrix: the sum of all its cells, by columns. -/
def grand_total {α : Type} [Field α] (d : gsl_matrix α) : α :=
  ∑ k in Finset.range d.size2, ∑ i in Finset.range d.size1, d.data i k

/-- The rank-weighted total of a data matrix: column `k` counts `k` times. -/
def rank_total {α : Type} [Field α] (d : gsl_matrix α) : α :=
  ∑ k in Finset.range d.size2, (k : α) * ∑ i in Finset.range d.size1, d.data i k

/-- The shapes on which `dot` runs through: the data has a row, `beta` has a
cell, and the data has one column more than `beta` has cells (so at least
two). -/
def shapes_conform {α : Type} (beta : gsl_vector α) (d : gsl_matrix α) : Prop :=
  0 < d.size1 ∧ 0 < beta.size ∧ beta.size + 1 = d.size2

/-- The linear predictor of row `i`: the covariates of the row (columns 1 and
up) times the parameters. -/
def linear_predictor {α : Type} [Field α] (beta : gsl_vector α) (d : gsl_matrix α)
    (i : Nat) : α :=
  ∑ j in Finset.range (d.size2 - 1), d.data i (j + 1) * beta.data j

/-- The vector that `dot` hands to `gsl_blas_dgemv`: the cached one when it
has one cell per row, a fresh one otherwise. -/
def dot_buffer {α : Type} [Field α] (d : gsl_matrix α) (s : probit_cache α) : gsl_vector α :=
  match s.beta_dot_x with
  | some b => if d.size1 ≠ b.size then gsl_vector_alloc d.size1 else b
  | none => gsl_vector_alloc d.size1

/-- The cache that `dot` leaves when the shapes conform: a vector of one cell
per row holding the linear predictors. -/
def dot_result {α : Type} [Field α] (beta : gsl_vector α) (d : gsl_matrix α)
    (y : gsl_vector α) : gsl_vector α :=
  ⟨y.size, fun i =>
    if i < y.size then
      1 * (∑ j in Finset.range (d.size2 - 1), d.data (0 + i) (1 + j) * beta.data j)
        + 0 * y.data i
    else
      y.data i⟩

/-- The contribution of row `i` to the probit log-likelihood when the linear
predictor of the row is `eta`. -/
def probit_row_term {α : Type} [Field α] [DecidableEq α] (log : α → α)
    (gsl_cdf_gaussian_P : α → α → α) (d : gsl_matrix α) (eta : α) (i : Nat) : α :=
  if d.data i 0 = 0 then log (gsl_cdf_gaussian_P eta 1)
  else log (1 - gsl_cdf_gaussian_P eta 1)

/-- The contribution of row `i` to component `j` of the probit gradient when
the linear predictor of the row is `eta`. -/
def probit_gradient_term {α : Type} [Field α] [DecidableEq α]
    (gsl_ran_gaussian_pdf gsl_cdf_gaussian_P : α → α → α) (d : gsl_matrix α) (eta : α)
    (i j : Nat) : α :=
  if d.data i 0 = 0 then
    d.data i (j + 1) * gsl_ran_gaussian_pdf eta 1 / gsl_cdf_gaussian_P eta 1
  else
    d.data i (j + 1) * gsl_ran_gaussian_pdf eta 1 / (gsl_cdf_gaussian_P eta 1 - 1)

/-- The gradient vector that the probit model writes into `gradient` for the
parameters `beta`: component `j` below the length of `beta` is the sum of the
row terms, the other cells are kept. -/
def probit_gradient {α : Type} [Field α] [DecidableEq α]
    (gsl_ran_gaussian_pdf gsl_cdf_gaussian_P : α → α → α) (beta : gsl_vector α)
    (d : gsl_matrix α) (gradient : gsl_vector α) : gsl_vector α :=
  ⟨gradient.size, fun j =>
    if j < beta.size then
      ∑ i in Finset.range d.size1,
        probit_gradient_term gsl_ran_gaussian_pdf gsl_cdf_gaussian_P d
          (linear_predictor beta d i) i j
    else gradient.data j⟩

/-! ## The model descriptors (`model.h`) -/

/-- The functions of the two source files that a descriptor or a constraint
set can point to: a C function pointer is read as the name of its function. -/
inductive model_function where
  | exponential_rank_estimate
  | rank_exponential_log_likelihood
  | rank_exponential_dlog_likelihood
  | beta_greater_than_x_constraint
  | rank_exponential_rng
  | probit_estimate
  | probit_log_likelihood
  | probit_dlog_likelihood
  | probit_fdf
deriving DecidableEq, Repr

/-- The C struct `apop_constraint`: the count and the array of 100 function
pointers (`none` for `NULL`). -/
structure apop_constraint where
  count : Int
  constraint : List (Option model_function)
deriving DecidableEq, Repr

/-- The C struct `apop_model` (`none` for a `NULL` function pointer). -/
structure apop_model where
  name : String
  parameter_ct : Int
  inventory_filter : apop_inventory
  estimate : Option model_function
  log_likelihood : Option model_function
  dlog_likelihood : Option model_function
  fdf : Option model_function
  constraint : apop_constraint
  rng : Option model_function
deriving DecidableEq, Repr

/-- The descriptor `apop_exponential_rank` as its initialiser gives it; the
99 constraint entries the initialiser leaves out are `NULL`. -/
def apop_exponential_rank : apop_model :=
  { name := "Exponential, rank data"
    parameter_ct := 1
    inventory_filter := apop_exponential_rank_inventory_filter
    estimate := some model_function.exponential_rank_estimate
    log_likelihood := some model_function.rank_exponential_log_likelihood
    dlog_likelihood := some model_function.rank_exponential_dlog_likelihood
    fdf := none
    constraint :=
      { count := 1
        constraint :=
          some model_function.beta_greater_than_x_constraint :: List.replicate 99 none }
    rng := some model_function.rank_exponential_rng }

/-- The descriptor `apop_probit` as its initialiser gives it.  The two
trailing `NULL`s of the initialiser fill `constraint.count` and
`constraint.constraint[0]`; what it leaves out (the other constraint entries
and `rng`) is zero. -/
def apop_probit : apop_model :=
  { name := "Probit"
    parameter_ct := -1
    inventory_filter :=
      { parameters := true
        covariance := true
        confidence := true
        predicted := false
        residuals := false
        log_likelihood := true
        names := true }
    estimate := some model_function.probit_estimate
    log_likelihood := some model_function.probit_log_likelihood
    dlog_likelihood := some model_function.probit_dlog_likelihood
    fdf := some model_function.probit_fdf
    constraint := { count := 0, constraint := List.replicate 100 none }
    rng := none }

/-- The C function `probit_estimate(data, uses, parameters)`: the returned
estimate and the caller's inventory after the call.
`apop_maximum_likelihood` (not among the sources) is handed the data, the
pointer to the filtered inventory, the descriptor and the estimation
parameters, and gives the estimate and what it leaves in the inventory. -/
def probit_estimate {α ρ π : Type}
    (apop_maximum_likelihood :
      gsl_matrix α → apop_inventory → apop_model → π → ρ × apop_inventory)
    (data : gsl_matrix α) (uses : apop_inventory) (parameters : π) : ρ × apop_inventory :=
  let uses := apop_inventory_filter uses apop_probit.inventory_filter
  apop_maximum_likelihood data uses apop_probit parameters

/-! ## Instrumented variants -/

/-- The function `rank_exponential_log_likelihood` with the domain of every
operation checked: `none` when `log` is handed a number that is not strictly
positive or a division has the divisor zero, the returned value otherwise. -/
def rank_exponential_log_likelihood_checked {α : Type} [LinearOrderedField α]
    (log : α → α) (beta : gsl_vector α) (d : gsl_matrix α) : Option α :=
  let bb := gsl_vector_get beta 0
  if 0 < bb then
    let ln_c := log bb
    (List.range d.size2).foldl
      (fun acc (k : Nat) =>
        acc.bind fun llikelihood =>
          if bb ≠ 0 then
            let p := -ln_c - (k : α) / bb
            some ((List.range d.size1).foldl
              (fun llikelihood i => llikelihood + gsl_matrix_get d i k * p) llikelihood)
          else none)
      (some 0)
  else none

/-- The function `exponential_rank_estimate` with its division recorded: the
result of the function and the list of the pairs (dividend, divisor) of the
divisions it performs. -/
def exponential_rank_estimate_traced {α κ π : Type} [Field α] (log : α → α)
    (var_covar : gsl_vector α → gsl_matrix α → κ)
    (data : gsl_matrix α) (uses : apop_inventory) (_parameters : π) :
    (apop_estimate α κ × apop_inventory) × List (α × α) :=
  let est : apop_estimate α κ := apop_estimate_alloc data.size1 1 uses
  let uses := apop_inventory_filter uses apop_exponential_rank_inventory_filter
  let nt := exponential_rank_estimate_loop data
  let numerator := nt.1
  let grand_total := nt.2
  let divisions := [(numerator, grand_total)]
  let est := { est with parameters := gsl_vector_set est.parameters 0 (numerator / grand_total) }
  let est := if est.uses.log_likelihood
    then { est with log_likelihood := some (rank_exponential_log_likelihood log est.parameters data) }
    else est
  let est := if est.uses.covariance
    then { est with covariance := some (var_covar est.parameters data) }
    else est
  ((est, uses), divisions)

/-- The function `dot` with its calls of `gsl_vector_free` and
`gsl_vector_alloc` counted: the cache after the call, the number of frees and
the number of allocations. -/
def dot_counted {α : Type} [Field α] (beta : gsl_vector α) (data : gsl_matrix α)
    (s : probit_cache α) : Option (probit_cache α × Nat × Nat) := do
  let p ← gsl_matrix_submatrix data 0 1 data.size1 (data.size2 - 1)
  let (s1, frees) : probit_cache α × Nat :=
    match s.beta_dot_x with
    | some b => if data.size1 ≠ b.size then ({ s with beta_dot_x := none }, 1) else (s, 0)
    | none => (s, 0)
  let (s2, allocs) : probit_cache α × Nat :=
    match s1.beta_dot_x with
    | none => ({ s1 with beta_dot_x := some (gsl_vector_alloc data.size1) }, 1)
    | some _ => (s1, 0)
  let y ← s2.beta_dot_x
  let y ← gsl_blas_dgemv 1 p beta 0 y
  pure ({ s2 with beta_dot_x := some y }, frees, allocs)

/-- The function `probit_dlog_likelihood` with its calls of `dot` counted:
the gradient vector, the cache after the call and the number of calls of
`dot`. -/
def probit_dlog_likelihood_counted {α : Type} [Field α] [DecidableEq α]
    (gsl_ran_gaussian_pdf gsl_cdf_gaussian_P : α → α → α) (beta : gsl_vector α)
    (d : gsl_matrix α) (gradient : gsl_vector α) (s : probit_cache α) :
    Option (gsl_vector α × probit_cache α × Nat) := do
  let (s, dots) ←
    if !s.beta_dot_x_is_current then (dot beta d s).map fun t => (t, 1) else pure (s, 0)
  let beta_dot_x ← s.beta_dot_x
  let gradient := (List.range beta.size).foldl
    (fun gradient j =>
      let beta_term_sum := (List.range d.size1).foldl
        (fun beta_term_sum i =>
          let one_term := gsl_matrix_get d i (j + 1)
            * gsl_ran_gaussian_pdf (gsl_vector_get beta_dot_x i) 1
          let one_term :=
            if gsl_matrix_get d i 0 = 0 then
              one_term / gsl_cdf_gaussian_P (gsl_vector_get beta_dot_x i) 1
            else
              one_term / (gsl_cdf_gaussian_P (gsl_vector_get beta_dot_x i) 1 - 1)
          beta_term_sum + one_term)
        0
      gsl_vector_set gradient j beta_term_sum)
    gradient
  pure (gradient, { s with beta_dot_x := none }, dots)

/-- The function `probit_fdf` with the calls of `dot` of its gradient part
counted: the value, the gradient, the cache after the call and the number of
calls of `dot` that its call of `probit_dlog_likelihood` makes. -/
def probit_fdf_counted {α : Type} [Field α] [DecidableEq α] (log : α → α)
    (gsl_ran_gaussian_pdf gsl_cdf_gaussian_P : α → α → α) (beta : gsl_vector α)
    (d : gsl_matrix α) (df : gsl_vector α) (s : probit_cache α) :
    Option (α × gsl_vector α × probit_cache α × Nat) := do
  let (f, s) ← probit_log_likelihood log gsl_cdf_gaussian_P beta d s
  let s := { s with beta_dot_x_is_current := true }
  let (df, s, dots) ←
    probit_dlog_likelihood_counted gsl_ran_gaussian_pdf gsl_cdf_gaussian_P beta d df s
  let s := { s with beta_dot_x_is_current := false }
  pure (f, df, s, dots)

/-- A call of one of the three probit functions that the descriptor exposes,
with its arguments. -/
inductive probit_call (α : Type) where
  | log_likelihood (beta : gsl_vector α) (d : gsl_matrix α)
  | dlog_likelihood (beta : gsl_vector α) (d : gsl_matrix α) (gradient : gsl_vector α)
  | fdf (beta : gsl_vector α) (d : gsl_matrix α) (df : gsl_vector α)

/-- The cache that a call leaves, `none` when a GSL call aborts. -/
def run_probit_call {α : Type} [Field α] [DecidableEq α] (log : α → α)
    (gsl_ran_gaussian_pdf gsl_cdf_gaussian_P : α → α → α) :
    probit_call α → probit_cache α → Option (probit_cache α)
  | probit_call.log_likelihood beta d, s =>
    (probit_log_likelihood log gsl_cdf_gaussian_P beta d s).map Prod.snd
  | probit_call.dlog_likelihood beta d gradient, s =>
    (probit_dlog_likelihood gsl_ran_gaussian_pdf gsl_cdf_gaussian_P beta d gradient s).map
      Prod.snd
  | probit_call.fdf beta d df, s =>
    (probit_fdf log gsl_ran_gaussian_pdf gsl_cdf_gaussian_P beta d df s).map fun r => r.2.2

/-- The cache that a sequence of calls leaves, one after the other. -/
def run_probit_calls {α : Type} [Field α] [DecidableEq α] (log : α → α)
    (gsl_ran_gaussian_pdf gsl_cdf_gaussian_P : α → α → α) :
    List (probit_call α) → probit_cache α → Option (probit_cache α)
  | [], s => some s
  | c :: cs, s =>
    (run_probit_call log gsl_ran_gaussian_pdf gsl_cdf_gaussian_P c s).bind
      (run_probit_calls log gsl_ran_gaussian_pdf gsl_cdf_gaussian_P cs)

/-- An access that the probit functions make themselves, with the dimensions
of what is accessed at that moment: a read `gsl_matrix_get(data, i, j)` of a
data matrix of `size1` rows and `size2` columns, a read
`gsl_vector_get(beta_dot_x, i)` of a cached vector of `size` cells, or a write
`gsl_vector_set(gradient, j, _)` of a gradient vector of `size` cells. -/
inductive probit_access where
  | matrix (i j size1 size2 : Nat)
  | cache (i size : Nat)
  | gradient (j size : Nat)
deriving DecidableEq, Repr

/-- Whether an access is in bounds: each index is below the dimension it
runs over. -/
def access_in_bounds : probit_access → Bool
  | probit_access.matrix i j size1 size2 => decide (i < size1) && decide (j < size2)
  | probit_access.cache i size => decide (i < size)
  | probit_access.gradient j size => decide (j < size)

/-- The function `probit_log_likelihood` with its accesses recorded: the
result of the function and the list of its accesses, in their order.  A read
of a cached vector that is `NULL` is `none`, as in `probit_log_likelihood`. -/
def probit_log_likelihood_traced {α : Type} [Field α] [DecidableEq α] (log : α → α)
    (gsl_cdf_gaussian_P : α → α → α) (beta : gsl_vector α) (d : gsl_matrix α)
    (s : probit_cache α) : Option ((α × probit_cache α) × List probit_access) := do
  let s ← dot beta d s
  let beta_dot_x ← s.beta_dot_x
  let r := (List.range d.size1).foldl
    (fun (acc : α × List probit_access) i =>
      let n := gsl_cdf_gaussian_P (gsl_vector_get beta_dot_x i) 1
      (if gsl_matrix_get d i 0 = 0 then acc.1 + log n else acc.1 + log (1 - n),
        acc.2 ++ [probit_access.cache i beta_dot_x.size,
          probit_access.matrix i 0 d.size1 d.size2]))
    (0, [])
  pure ((r.1, s), r.2)

/-- The function `probit_dlog_likelihood` with its accesses recorded: the
result of the function and the list of its accesses, in their order. -/
def probit_dlog_likelihood_traced {α : Type} [Field α] [DecidableEq α]
    (gsl_ran_gaussian_pdf gsl_cdf_gaussian_P : α → α → α) (beta : gsl_vector α)
    (d : gsl_matrix α) (gradient : gsl_vector α) (s : probit_cache α) :
    Option ((gsl_vector α × probit_cache α) × List probit_access) := do
  let s ← if !s.beta_dot_x_is_current then dot beta d s else pure s
  let beta_dot_x ← s.beta_dot_x
  let r := (List.range beta.size).foldl
    (fun (acc : gsl_vector α × List probit_access) j =>
      let inner := (List.range d.size1).foldl
        (fun (acc2 : α × List probit_access) i =>
          let one_term := gsl_matrix_get d i (j + 1)
            * gsl_ran_gaussian_pdf (gsl_vector_get beta_dot_x i) 1
          let one_term :=
            if gsl_matrix_get d i 0 = 0 then
              one_term / gsl_cdf_gaussian_P (gsl_vector_get beta_dot_x i) 1
            else
              one_term / (gsl_cdf_gaussian_P (gsl_vector_get beta_dot_x i) 1 - 1)
          (acc2.1 + one_term,
            acc2.2 ++ [probit_access.matrix i (j + 1) d.size1 d.size2,
              probit_access.cache i beta_dot_x.size,
              probit_access.matrix i 0 d.size1 d.size2,
              probit_access.cache i beta_dot_x.size]))
        (0, acc.2)
      (gsl_vector_set acc.1 j inner.1, inner.2 ++ [probit_access.gradient j acc.1.size]))
    (gradient, [])
  pure ((r.1, { s with beta_dot_x := none }), r.2)

/-- The function `probit_fdf` with its accesses recorded: the result of the
function and the list of its accesses, those of its call of
`probit_log_likelihood` and then those of its call of
`probit_dlog_likelihood`. -/
def probit_fdf_traced {α : Type} [Field α] [DecidableEq α] (log : α → α)
    (gsl_ran_gaussian_pdf gsl_cdf_gaussian_P : α → α → α) (beta : gsl_vector α)
    (d : gsl_matrix α) (df : gsl_vector α) (s : probit_cache α) :
    Option ((α × gsl_vector α × probit_cache α) × List probit_access) := do
  let ((f, s), l1) ← probit_log_likelihood_traced log gsl_cdf_gaussian_P beta d s
  let s := { s with beta_dot_x_is_current := true }
  let ((df, s), l2) ←
    probit_dlog_likelihood_traced gsl_ran_gaussian_pdf gsl_cdf_gaussian_P beta d df s
  let s := { s with beta_dot_x_is_current := false }
  pure ((f, df, s), l1 ++ l2)

/-- Whether `dot` on `data` finds a cached vector it can reuse: one that is
present and has one cell per row. -/
def cache_fits {α : Type} (data : gsl_matrix α) (s : probit_cache α) : Bool :=
  match s.beta_dot_x with
  | some b => decide (b.size = data.size1)
  | none => false

/-- Whether `dot` on `data` finds a cached vector it has to free: one that is
present and has not one cell per row. -/
def cache_stale {α : Type} (data : gsl_matrix α) (s : probit_cache α) : Bool :=
  match s.beta_dot_x with
  | some b => decide (b.size ≠ data.size1)
  | none => false

/-- The function `rank_exponential_dlog_likelihood` with its divisions
recorded: the gradient after the call and the list of the pairs (dividend,
divisor) of the divisions it performs, in their order. -/
def rank_exponential_dlog_likelihood_traced {α : Type} [Field α] (log : α → α)
    (beta : gsl_vector α) (d : gsl_matrix α) (gradient : gsl_vector α) :
    gsl_vector α × List (α × α) :=
  let bb := gsl_vector_get beta 0
  let one_over_ln_c := 1 / log bb
  let r := (List.range d.size2).foldl
    (fun (acc : α × List (α × α)) (k : Nat) =>
      let p := (one_over_ln_c - ((k + 1 : Nat) : α)) / bb
      ((List.range d.size1).foldl
          (fun d_likelihood i => d_likelihood + gsl_matrix_get d i k * p) acc.1,
        acc.2 ++ [(one_over_ln_c - ((k + 1 : Nat) : α), bb)]))
    (0, [(1, log bb)])
  (gsl_vector_set gradient 0 r.1, r.2)

/-- The data matrix with every cell multiplied by `c`. -/
def scale_matrix {α : Type} [Mul α] (c : α) (d : gsl_matrix α) : gsl_matrix α :=
  ⟨d.size1, d.size2, fun i j => c * d.data i j⟩

/-- The data matrix with every outcome in column 0 flipped (0 to 1 and 1 to
0) and the covariates as they are. -/
def flip_outcomes {α : Type} [Field α] (d : gsl_matrix α) : gsl_matrix α :=
  ⟨d.size1, d.size2, fun i j => if j = 0 then 1 - d.data i 0 else d.data i j⟩

/-- The vector with every cell negated. -/
def gsl_vector_neg {α : Type} [Field α] (v : gsl_vector α) : gsl_vector α :=
  ⟨v.size, fun i => -v.data i⟩

/-- The data matrix with its rows permuted: row `i` of the result is row
`σ i` of `d`. -/
def permute_rows {α : Type} (d : gsl_matrix α) (σ : Equiv.Perm (Fin d.size1)) :
    gsl_matrix α :=
  ⟨d.size1, d.size2, fun i j => if h : i < d.size1 then d.data (σ ⟨i, h⟩) j else d.data i j⟩

/-! ## C doubles (IEEE 754 binary64)

The type `double` holds the values of a C `double` and the operations below
are those of IEEE 754 in the default rounding mode (to nearest, ties to
even), each result rounded to `double` (as a C compiler does them on x86-64).
The definitions of the rank-exponential model above ask their arithmetic of
`α` by operation, so they run on `double` as they are. -/

/-- The integer nearest to `p / q`, the even one of the two at a tie. -/
def round_half_even (p q : Nat) : Nat :=
  let n := p / q
  let r := p % q
  if 2 * r < q then n
  else if q < 2 * r then n + 1
  else if n % 2 = 0 then n
  else n + 1

/-- A C `double`: a finite value is a sign and a magnitude counted in units of
`2^-1074` (the least positive `double`), so the value of `finite s m` is
`(-1)^s * m * 2^-1074`; the largest finite magnitude is
`(2^53 - 1) * 2^2045` units.  Both zeros are there.  The payload of a NaN is
not kept. -/
inductive double where
  | finite (negative : Bool) (units : Nat)
  | infinity (negative : Bool)
  | nan
deriving DecidableEq, Repr

/-- The number of halvings that take `n` below 2, at most `fuel` of them. -/
def floor_log2_fuel : Nat → Nat → Nat
  | 0, _ => 0
  | fuel + 1, n => if n < 2 then 0 else floor_log2_fuel fuel (n / 2) + 1

/-- The exponent `e` with `2^e <= n < 2^(e+1)` for `n >= 1` (and 0 for
`n = 0`): the binary logarithm of `n` rounded down. -/
def floor_log2 (n : Nat) : Nat :=
  floor_log2_fuel n n

/-- The magnitude `p / q`, in units of `2^-1074`, rounded to the nearest
magnitude that a `double` can hold: below `2^53` units the magnitudes of the
`double`s are one unit apart, and from `2^e` units to `2^(e+1)` units, for
`e >= 53`, they are `2^(e-52)` units apart. -/
def double.round_units (p q : Nat) : Nat :=
  let shift := floor_log2 (p / q) - 52
  round_half_even p (q * 2 ^ shift) * 2 ^ shift

/-- The `double` of the given sign nearest to the magnitude `p / q` units: a
magnitude that rounds to `2^1024` (`2^2098` units) or more overflows to an
infinity. -/
def double.round (negative : Bool) (p q : Nat) : double :=
  let m := double.round_units p q
  if m < 2 ^ 2098 then double.finite negative m else double.infinity negative

/-- The C expression `x + y` on `double`s. -/
def double.add : double → double → double
  | double.finite s a, double.finite t b =>
    if s = t then double.round s (a + b) 1
    else if b < a then double.round s (a - b) 1
    else if a < b then double.round t (b - a) 1
    else double.finite false 0
  | double.finite _ _, double.infinity t => double.infinity t
  | double.infinity s, double.finite _ _ => double.infinity s
  | double.infinity s, double.infinity t => if s = t then double.infinity s else double.nan
  | _, _ => double.nan

/-- The C expression `-x` on a `double`. -/
def double.neg : double → double
  | double.finite s a => double.finite (!s) a
  | double.infinity s => double.infinity (!s)
  | double.nan => double.nan

/-- The C expression `x * y` on `double`s. -/
def double.mul : double → double → double
  | double.finite s a, double.finite t b => double.round (s != t) (a * b) (2 ^ 1074)
  | double.finite s a, double.infinity t =>
    if a = 0 then double.nan else double.infinity (s != t)
  | double.infinity s, double.finite t b =>
    if b = 0 then double.nan else double.infinity (s != t)
  | double.infinity s, double.infinity t => double.infinity (s != t)
  | _, _ => double.nan

/-- The C expression `x / y` on `double`s. -/
def double.div : double → double → double
  | double.finite s a, double.finite t b =>
    if b = 0 then (if a = 0 then double.nan else double.infinity (s != t))
    else double.round (s != t) (a * 2 ^ 1074) b
  | double.finite s _, double.infinity t => double.finite (s != t) 0
  | double.infinity s, double.finite t _ => double.infinity (s != t)
  | _, _ => double.nan

/-- The conversion of a non-negative C integer to `double`. -/
def double.of_nat (n : Nat) : double :=
  double.round false (n * 2 ^ 1074) 1

/-- The `double` nearest to the fraction `p / q`: what a C compiler makes of a
decimal literal, `double.of_quotient 1 10` for `0.1`. -/
def double.of_quotient (p q : Nat) : double :=
  double.round false (p * 2 ^ 1074) q

/-- The C expression `x < y` on `double`s: false when either is a NaN, and the
two zeros are equal. -/
def double.lt : double → double → Bool
  | double.finite s a, double.finite t b =>
    if s then (if t then decide (b < a) else decide (0 < a ∨ 0 < b))
    else (if t then false else decide (a < b))
  | double.finite _ _, double.infinity t => !t
  | double.infinity s, double.finite _ _ => s
  | double.infinity s, double.infinity t => s && !t
  | _, _ => false

instance : Zero double := ⟨double.finite false 0⟩

instance : One double := ⟨double.of_nat 1⟩

instance : NatCast double := ⟨double.of_nat⟩

instance : Add double := ⟨double.add⟩

instance : Neg double := ⟨double.neg⟩

instance : Sub double := ⟨fun x y => double.add x (double.neg y)⟩

instance : Mul double := ⟨double.mul⟩

instance : Div double := ⟨double.div⟩

/-! ## Concrete inputs -/

/-- The matrix whose rows are the given lists (cells outside them are zero). -/
def matrix_of_rows {α : Type} [Zero α] (rows : List (List α)) : gsl_matrix α :=
  ⟨rows.length, (rows.headD []).length, fun i j => (rows.getD i []).getD j 0⟩

/-- The vector whose cells are the given list. -/
def vector_of_list {α : Type} [Zero α] (cells : List α) : gsl_vector α :=
  ⟨cells.length, fun i => cells.getD i 0⟩

/-- A data set of two rows and three rank columns with column sums 10, 5, 2. -/
def rank_data_10_5_2 (α : Type) [Field α] : gsl_matrix α :=
  matrix_of_rows [[4, 5, 0], [6, 0, 2]]

/-- A data set of one row and one rank column holding the weight 1. -/
def rank_data_single (α : Type) [Field α] : gsl_matrix α :=
  matrix_of_rows [[1]]

/-- A data set of two rows whose weight all sits in rank column 0. -/
def rank_data_first_only (α : Type) [Field α] : gsl_matrix α :=
  matrix_of_rows [[3, 0], [2, 0]]

/-- A data set of one row with the weight 1 in each of the rank columns 0
and 1. -/
def rank_data_1_1 (α : Type) [Field α] : gsl_matrix α :=
  matrix_of_rows [[1, 1]]

/-- A data set of one row and one rank column holding the weight 0. -/
def rank_data_zero (α : Type) [Field α] : gsl_matrix α :=
  matrix_of_rows [[0]]

/-- The data set `rank_data_10_5_2` with its two rows merged by addition. -/
def rank_data_merged (α : Type) [Field α] : gsl_matrix α :=
  matrix_of_rows [[10, 5, 2]]

/-- The inventory that requests every output. -/
def inventory_all : apop_inventory :=
  ⟨true, true, true, true, true, true, true⟩

/-- A probit data set of two rows: the outcome in column 0, two covariates. -/
def probit_data (α : Type) [Field α] : gsl_matrix α :=
  matrix_of_rows [[0, 1, 2], [1, 3, 4]]

/-- A parameter vector for `probit_data`. -/
def probit_beta (α : Type) [Field α] : gsl_vector α :=
  vector_of_list [1, 1]

/-- The permutation that swaps the two rows of `probit_data`. -/
def probit_data_swap (α : Type) [Field α] : Equiv.Perm (Fin (probit_data α).size1) :=
  Equiv.swap ⟨0, Nat.zero_lt_succ 1⟩ ⟨1, Nat.lt_succ_self 1⟩

/-- A probit data set of one row and one column: an outcome and no covariate. -/
def probit_data_one_column (α : Type) [Field α] : gsl_matrix α :=
  matrix_of_rows [[0]]

/-- The parameter vector of no cell, the length that `probit_data_one_column`
asks for. -/
def probit_beta_empty (α : Type) [Field α] : gsl_vector α :=
  vector_of_list []

/-- A probit data set of no row and two columns. -/
def probit_data_no_rows (α : Type) [Field α] : gsl_matrix α :=
  ⟨0, 2, fun _ _ => 0⟩

/-- A parameter vector of one cell, the length that `probit_data_no_rows`
asks for. -/
def probit_beta_one (α : Type) [Field α] : gsl_vector α :=
  vector_of_list [1]

/-- The cache as the program starts: no vector, flag down. -/
def probit_cache_empty (α : Type) : probit_cache α :=
  ⟨none, false⟩

/-- A cache left by a data set of three rows, flag down. -/
def probit_cache_stale (α : Type) [Field α] : probit_cache α :=
  ⟨some (vector_of_list [5, 5, 5]), false⟩

/-- The values of C's `log` that the C standard fixes exactly: `log(1)` is
`+0`.  Elsewhere the value is the library's choice of rounding; it is not
needed below and is a NaN here. -/
def double.log (x : double) : double :=
  if x = 1 then 0 else double.nan

/-- An inventory that requests the parameters and nothing else. -/
def inventory_parameters : apop_inventory :=
  ⟨true, false, false, false, false, false, false⟩

/-- The one-row data `[[0, 0, 0, 0.1]]` in `double`s: four rank columns, all
the weight in the last. -/
def rank_data_tenth_last : gsl_matrix double :=
  matrix_of_rows [[0, 0, 0, double.of_quotient 1 10]]

/-- The one-row data `[[2^1023, 2^1023]]` in `double`s (`2^1023` is `2^2097`
units of `2^-1074`). -/
def rank_data_huge : gsl_matrix double :=
  matrix_of_rows [[double.finite false (2 ^ 2097), double.finite false (2 ^ 2097)]]

/-- The one-row data `[[0, 1, 1]]` in `double`s. -/
def rank_data_0_1_1 : gsl_matrix double :=
  matrix_of_rows [[0, 1, 1]]

/-- The data `[[1, 0.1], [0, 0.2], [0, 0.3]]` in `double`s. -/
def rank_data_tenths : gsl_matrix double :=
  matrix_of_rows [[1, double.of_quotient 1 10], [0, double.of_quotient 2 10],
    [0, double.of_quotient 3 10]]

/-- The rows of `rank_data_tenths` in the reverse order:
`[[0, 0.3], [0, 0.2], [1, 0.1]]`. -/
def rank_data_tenths_reversed : gsl_matrix double :=
  matrix_of_rows [[0, double.of_quotient 3 10], [0, double.of_quotient 2 10],
    [1, double.of_quotient 1 10]]

/-! ## Loops as sums -/

theorem foldl_add_range {α : Type} [AddCommMonoid α] (f : Nat → α) (n : Nat) (a : α) :
    (List.range n).foldl (fun s i => s + f i) a = a + ∑ i in Finset.range n, f i := by
  induction n with
  | zero => simp
  | succ n ih =>
    rw [List.range_succ, List.foldl_append, ih, Finset.sum_range_succ]
    simp [add_assoc]

theorem foldl_nested_range {α : Type} [AddCommMonoid α] (f : Nat → Nat → α) (m n : Nat) (a : α) :
    (List.range n).foldl (fun s k => (List.range m).foldl (fun s i => s + f i k) s) a
      = a + ∑ k in Finset.range n, ∑ i in Finset.range m, f i k := by
  induction n with
  | zero => simp
  | succ n ih =>
    rw [List.range_succ, List.foldl_append, ih, Finset.sum_range_succ]
    simp [foldl_add_range, add_assoc]

theorem foldl_pair_range {α : Type} [AddCommMonoid α] (f g : Nat → α) (n : Nat) (a b : α) :
    (List.range n).foldl (fun (acc : α × α) i => (acc.1 + f i, acc.2 + g i)) (a, b)
      = (a + ∑ i in Finset.range n, f i, b + ∑ i in Finset.range n, g i) := by
  induction n with
  | zero => simp
  | succ n ih =>
    rw [List.range_succ, List.foldl_append, ih, Finset.sum_range_succ, Finset.sum_range_succ]
    simp [add_assoc]

theorem apop_sum_eq {α : Type} [Field α] (v : gsl_vector α) :
    apop_sum v = ∑ i in Finset.range v.size, v.data i := by
  unfold apop_sum gsl_vector_get
  rw [foldl_add_range, zero_add]

theorem exponential_rank_estimate_loop_eq {α : Type} [Field α] (data : gsl_matrix α) :
    exponential_rank_estimate_loop data
      = (∑ k in Finset.range data.size2, (k : α) * ∑ i in Finset.range data.size1, data.data i k,
         ∑ k in Finset.range data.size2, ∑ i in Finset.range data.size1, data.data i k) := by
  unfold exponential_rank_estimate_loop
  have h := foldl_pair_range
    (fun k : Nat => apop_sum (gsl_matrix_column data k) * (k : α))
    (fun k : Nat => apop_sum (gsl_matrix_column data k)) data.size2 0 0
  simp only [zero_add] at h
  rw [h]
  simp only [apop_sum_eq, gsl_matrix_column, mul_comm]

theorem exponential_rank_estimate_parameter {α κ π : Type} [Field α] (log : α → α)
    (var_covar : gsl_vector α → gsl_matrix α → κ) (data : gsl_matrix α)
    (uses : apop_inventory) (parameters : π) :
    gsl_vector_get (exponential_rank_estimate log var_covar data uses parameters).1.parameters 0
      = (exponential_rank_estimate_loop data).1 / (exponential_rank_estimate_loop data).2 := by
  unfold exponential_rank_estimate
  by_cases h1 : uses.log_likelihood <;> by_cases h2 : uses.covariance <;>
    simp [apop_estimate_alloc, gsl_vector_set, gsl_vector_get, h1, h2]

theorem rank_exponential_log_likelihood_eq {α : Type} [Field α] (log : α → α)
    (beta : gsl_vector α) (d : gsl_matrix α) :
    rank_exponential_log_likelihood log beta d
      = ∑ k in Finset.range d.size2, ∑ i in Finset.range d.size1,
          d.data i k * (-log (beta.data 0) - (k : α) / beta.data 0) := by
  have h := foldl_nested_range
    (fun i k : Nat => d.data i k * (-log (beta.data 0) - (k : α) / beta.data 0))
    d.size1 d.size2 0
  rw [zero_add] at h
  exact h

theorem rank_exponential_log_likelihood_closed {α : Type} [Field α] (log : α → α)
    (beta : gsl_vector α) (d : gsl_matrix α) :
    rank_exponential_log_likelihood log beta d
      = -log (beta.data 0) * grand_total d - rank_total d / beta.data 0 := by
  rw [rank_exponential_log_likelihood_eq, grand_total, rank_total, Finset.mul_sum,
    Finset.sum_div, ← Finset.sum_sub_distrib]
  refine Finset.sum_congr rfl fun k _ => ?_
  rw [← Finset.sum_mul]
  ring

theorem exponential_rank_estimate_parameter_closed {α κ π : Type} [Field α] (log : α → α)
    (var_covar : gsl_vector α → gsl_matrix α → κ) (data : gsl_matrix α)
    (uses : apop_inventory) (parameters : π) :
    (exponential_rank_estimate log var_covar data uses parameters).1.parameters.data 0
      = rank_total data / grand_total data := by
  have h := exponential_rank_estimate_parameter log var_covar data uses parameters
  rw [exponential_rank_estimate_loop_eq] at h
  exact h

theorem rank_exponential_dlog_likelihood_eq {α : Type} [Field α] (log : α → α)
    (beta : gsl_vector α) (d : gsl_matrix α) (gradient : gsl_vector α) :
    (rank_exponential_dlog_likelihood log beta d gradient).data 0
      = ∑ k in Finset.range d.size2, ∑ i in Finset.range d.size1,
          d.data i k * ((1 / log (beta.data 0) - ((k + 1 : Nat) : α)) / beta.data 0) := by
  have h := foldl_nested_range
    (fun i k : Nat =>
      d.data i k * ((1 / log (beta.data 0) - ((k + 1 : Nat) : α)) / beta.data 0))
    d.size1 d.size2 0
  rw [zero_add] at h
  simp only [rank_exponential_dlog_likelihood, gsl_vector_set, gsl_vector_get, gsl_matrix_get,
    Function.update_same]
  exact h

/-! ## The probit cache -/

theorem gsl_matrix_submatrix_covariates {α : Type} (d : gsl_matrix α) (h1 : 0 < d.size1)
    (h2 : 2 ≤ d.size2) :
    gsl_matrix_submatrix d 0 1 d.size1 (d.size2 - 1)
      = some ⟨d.size1, d.size2 - 1, fun a b => d.data (0 + a) (1 + b)⟩ := by
  unfold gsl_matrix_submatrix
  rw [if_pos]
  refine ⟨h1, ?_, h1, ?_, ?_, ?_⟩ <;> omega

theorem gsl_matrix_submatrix_rejected {α : Type} (d : gsl_matrix α)
    (h : d.size1 = 0 ∨ d.size2 ≤ 1) :
    gsl_matrix_submatrix d 0 1 d.size1 (d.size2 - 1) = none := by
  unfold gsl_matrix_submatrix
  rw [if_neg]
  omega

theorem dot_result_data {α : Type} [Field α] (beta : gsl_vector α) (d : gsl_matrix α)
    (y : gsl_vector α) (i : Nat) (hi : i < y.size) :
    (dot_result beta d y).data i = linear_predictor beta d i := by
  simp only [dot_result, if_pos hi, linear_predictor, one_mul, zero_mul, add_zero, zero_add]
  refine Finset.sum_congr rfl fun j _ => ?_
  rw [add_comm 1 j]

theorem dot_buffer_size {α : Type} [Field α] (d : gsl_matrix α) (s : probit_cache α) :
    (dot_buffer d s).size = d.size1 := by
  unfold dot_buffer
  cases hb : s.beta_dot_x with
  | none => rfl
  | some b =>
    by_cases hsz : d.size1 = b.size
    · simp [hsz]
    · simp [hsz, gsl_vector_alloc]

theorem dot_eq_some {α : Type} [Field α] (beta : gsl_vector α) (d : gsl_matrix α)
    (s : probit_cache α) (h : shapes_conform beta d) :
    dot beta d s
      = some ⟨some (dot_result beta d (dot_buffer d s)), s.beta_dot_x_is_current⟩ := by
  obtain ⟨hrows, hbeta, hlen⟩ := h
  have h1 : 2 ≤ d.size2 := by omega
  have h2 : d.size2 - 1 = beta.size := by omega
  unfold dot
  rw [gsl_matrix_submatrix_covariates d hrows h1]
  rcases s with ⟨_ | b, flag⟩
  · simp [dot_buffer, gsl_blas_dgemv, gsl_vector_alloc, dot_result, h2]
  · by_cases hsz : d.size1 = b.size
    · simp [dot_buffer, gsl_blas_dgemv, dot_result, h2, hsz]
    · simp [dot_buffer, gsl_blas_dgemv, gsl_vector_alloc, dot_result, h2, hsz]

theorem dot_eq_none {α : Type} [Field α] (beta : gsl_vector α) (d : gsl_matrix α)
    (s : probit_cache α) (h : ¬ shapes_conform beta d) : dot beta d s = none := by
  unfold dot
  by_cases h0 : d.size1 = 0 ∨ d.size2 ≤ 1
  · rw [gsl_matrix_submatrix_rejected d h0]
    rfl
  · have hrows : 0 < d.size1 := by omega
    have h1 : 2 ≤ d.size2 := by omega
    have h2 : ¬ d.size2 - 1 = beta.size := by
      intro h3
      exact h ⟨hrows, by omega, by omega⟩
    rw [gsl_matrix_submatrix_covariates d hrows h1]
    rcases s with ⟨_ | b, flag⟩
    · simp [gsl_blas_dgemv, h2]
    · by_cases hsz : d.size1 = b.size
      · simp [gsl_blas_dgemv, h2, hsz]
      · simp [gsl_blas_dgemv, h2, hsz]

theorem foldl_gsl_vector_set {α : Type} (F : Nat → α) (n : Nat) (g : gsl_vector α) :
    (List.range n).foldl (fun g j => gsl_vector_set g j (F j)) g
      = ⟨g.size, fun j => if j < n then F j else g.data j⟩ := by
  induction n with
  | zero => simp
  | succ n ih =>
    rw [List.range_succ, List.foldl_append, ih]
    simp only [List.foldl_cons, List.foldl_nil, gsl_vector_set, gsl_vector.mk.injEq, true_and]
    funext j
    rw [Function.update_apply]
    by_cases hj : j = n
    · simp [hj]
    · have : j < n + 1 ↔ j < n := by omega
      simp [hj, this]

theorem probit_log_likelihood_loop_eq {α : Type} [Field α] [DecidableEq α] (log : α → α)
    (cdf : α → α → α) (beta : gsl_vector α) (d : gsl_matrix α) (y : gsl_vector α)
    (hy : ∀ i, i < d.size1 → y.data i = linear_predictor beta d i) :
    (List.range d.size1).foldl
      (fun total_prob i =>
        if gsl_matrix_get d i 0 = 0 then
          total_prob + log (cdf (gsl_vector_get y i) 1)
        else total_prob + log (1 - cdf (gsl_vector_get y i) 1))
      0
    = ∑ i in Finset.range d.size1,
        probit_row_term log cdf d (linear_predictor beta d i) i := by
  have h := foldl_add_range
    (fun i => probit_row_term log cdf d (linear_predictor beta d i) i) d.size1 0
  rw [zero_add] at h
  rw [← h]
  refine List.foldl_ext _ _ _ fun a i hi => ?_
  have hi2 : i < d.size1 := List.mem_range.mp hi
  simp only [probit_row_term, gsl_matrix_get, gsl_vector_get, hy i hi2]
  split <;> rfl

theorem probit_dlog_likelihood_loop_eq {α : Type} [Field α] [DecidableEq α]
    (pdf cdf : α → α → α) (beta : gsl_vector α) (d : gsl_matrix α) (gradient : gsl_vector α)
    (y : gsl_vector α) (hy : ∀ i, i < d.size1 → y.data i = linear_predictor beta d i) :
    (List.range beta.size).foldl
      (fun gradient j =>
        let beta_term_sum := (List.range d.size1).foldl
          (fun beta_term_sum i =>
            let one_term := gsl_matrix_get d i (j + 1) * pdf (gsl_vector_get y i) 1
            let one_term :=
              if gsl_matrix_get d i 0 = 0 then one_term / cdf (gsl_vector_get y i) 1
              else one_term / (cdf (gsl_vector_get y i) 1 - 1)
            beta_term_sum + one_term)
          0
        gsl_vector_set gradient j beta_term_sum)
      gradient
    = probit_gradient pdf cdf beta d gradient := by
  have h := foldl_gsl_vector_set
    (fun j => ∑ i in Finset.range d.size1,
      probit_gradient_term pdf cdf d (linear_predictor beta d i) i j) beta.size gradient
  rw [probit_gradient, ← h]
  refine List.foldl_ext _ _ _ fun g j _ => ?_
  have h2 := foldl_add_range
    (fun i => probit_gradient_term pdf cdf d (linear_predictor beta d i) i j) d.size1 0
  rw [zero_add] at h2
  simp only []
  rw [← h2]
  congr 1
  refine List.foldl_ext _ _ _ fun a i hi => ?_
  have hi2 : i < d.size1 := List.mem_range.mp hi
  simp only [probit_gradient_term, gsl_matrix_get, gsl_vector_get, hy i hi2]

theorem dot_result_predictor {α : Type} [Field α] (beta : gsl_vector α) (d : gsl_matrix α)
    (s : probit_cache α) (i : Nat) (hi : i < d.size1) :
    (dot_result beta d (dot_buffer d s)).data i = linear_predictor beta d i :=
  dot_result_data beta d (dot_buffer d s) i (by rw [dot_buffer_size]; exact hi)

theorem probit_log_likelihood_eq_some {α : Type} [Field α] [DecidableEq α] (log : α → α)
    (cdf : α → α → α) (beta : gsl_vector α) (d : gsl_matrix α) (s : probit_cache α)
    (h : shapes_conform beta d) :
    probit_log_likelihood log cdf beta d s
      = some (∑ i in Finset.range d.size1,
                probit_row_term log cdf d (linear_predictor beta d i) i,
              ⟨some (dot_result beta d (dot_buffer d s)), s.beta_dot_x_is_current⟩) := by
  unfold probit_log_likelihood
  rw [dot_eq_some beta d s h]
  simp only [Option.bind_eq_bind, Option.some_bind, Option.pure_def]
  rw [probit_log_likelihood_loop_eq log cdf beta d _ (dot_result_predictor beta d s)]

theorem probit_log_likelihood_eq_none {α : Type} [Field α] [DecidableEq α] (log : α → α)
    (cdf : α → α → α) (beta : gsl_vector α) (d : gsl_matrix α) (s : probit_cache α)
    (h : ¬ shapes_conform beta d) :
    probit_log_likelihood log cdf beta d s = none := by
  unfold probit_log_likelihood
  rw [dot_eq_none beta d s h]
  rfl

theorem probit_dlog_likelihood_eq_some {α : Type} [Field α] [DecidableEq α]
    (pdf cdf : α → α → α) (beta : gsl_vector α) (d : gsl_matrix α) (gradient : gsl_vector α)
    (s : probit_cache α) (h : shapes_conform beta d)
    (hflag : s.beta_dot_x_is_current = false) :
    probit_dlog_likelihood pdf cdf beta d gradient s
      = some (probit_gradient pdf cdf beta d gradient, ⟨none, false⟩) := by
  unfold probit_dlog_likelihood
  rw [hflag]
  simp only [Bool.not_false, if_true]
  rw [dot_eq_some beta d s h]
  simp only [Option.bind_eq_bind, Option.some_bind, Option.pure_def]
  rw [probit_dlog_likelihood_loop_eq pdf cdf beta d gradient _ (dot_result_predictor beta d s),
    hflag]

theorem probit_dlog_likelihood_eq_none {α : Type} [Field α] [DecidableEq α]
    (pdf cdf : α → α → α) (beta : gsl_vector α) (d : gsl_matrix α) (gradient : gsl_vector α)
    (s : probit_cache α) (h : ¬ shapes_conform beta d)
    (hflag : s.beta_dot_x_is_current = false) :
    probit_dlog_likelihood pdf cdf beta d gradient s = none := by
  unfold probit_dlog_likelihood
  rw [hflag]
  simp only [Bool.not_false, if_true]
  rw [dot_eq_none beta d s h]
  rfl

theorem probit_dlog_likelihood_current {α : Type} [Field α] [DecidableEq α]
    (pdf cdf : α → α → α) (beta : gsl_vector α) (d : gsl_matrix α) (gradient : gsl_vector α)
    (y : gsl_vector α) (hy : ∀ i, i < d.size1 → y.data i = linear_predictor beta d i) :
    probit_dlog_likelihood pdf cdf beta d gradient ⟨some y, true⟩
      = some (probit_gradient pdf cdf beta d gradient, ⟨none, true⟩) := by
  unfold probit_dlog_likelihood
  simp only [Bool.not_true, Bool.false_eq_true, if_false, Option.pure_def,
    Option.bind_eq_bind, Option.some_bind]
  rw [probit_dlog_likelihood_loop_eq pdf cdf beta d gradient y hy]

theorem probit_fdf_eq_some {α : Type} [Field α] [DecidableEq α] (log : α → α)
    (pdf cdf : α → α → α) (beta : gsl_vector α) (d : gsl_matrix α) (df : gsl_vector α)
    (s : probit_cache α) (h : shapes_conform beta d) :
    probit_fdf log pdf cdf beta d df s
      = some (∑ i in Finset.range d.size1,
                probit_row_term log cdf d (linear_predictor beta d i) i,
              probit_gradient pdf cdf beta d df, ⟨none, false⟩) := by
  unfold probit_fdf
  rw [probit_log_likelihood_eq_some log cdf beta d s h]
  simp only [Option.bind_eq_bind, Option.some_bind, Option.pure_def]
  rw [probit_dlog_likelihood_current pdf cdf beta d df _ (dot_result_predictor beta d s)]
  rfl

theorem probit_fdf_eq_none {α : Type} [Field α] [DecidableEq α] (log : α → α)
    (pdf cdf : α → α → α) (beta : gsl_vector α) (d : gsl_matrix α) (df : gsl_vector α)
    (s : probit_cache α) (h : ¬ shapes_conform beta d) :
    probit_fdf log pdf cdf beta d df s = none := by
  unfold probit_fdf
  rw [probit_log_likelihood_eq_none log cdf beta d s h]
  rfl

/-! ## Derivatives of the probit log-likelihood -/

theorem linear_predictor_set_self {α : Type} [Field α] (beta : gsl_vector α)
    (d : gsl_matrix α) (j i : Nat) :
    linear_predictor (gsl_vector_set beta j (beta.data j)) d i = linear_predictor beta d i := by
  simp [linear_predictor, gsl_vector_set]

theorem linear_predictor_hasDerivAt (beta : gsl_vector ℝ) (d : gsl_matrix ℝ) (j i : Nat)
    (hj : j < d.size2 - 1) (t : ℝ) :
    HasDerivAt (fun t => linear_predictor (gsl_vector_set beta j t) d i)
      (d.data i (j + 1)) t := by
  have hterm : ∀ k ∈ Finset.range (d.size2 - 1),
      HasDerivAt (fun t : ℝ => d.data i (k + 1) * Function.update beta.data j t k)
        (if k = j then d.data i (j + 1) else 0) t := by
    intro k _
    by_cases hk : k = j
    · subst hk
      simp only [Function.update_same, if_true]
      simpa using (hasDerivAt_id t).const_mul (d.data i (k + 1))
    · simp only [Function.update_noteq hk, if_neg hk]
      exact hasDerivAt_const t _
  have hsum := HasDerivAt.sum hterm
  have hval : (∑ k in Finset.range (d.size2 - 1), if k = j then d.data i (j + 1) else 0)
      = d.data i (j + 1) := by
    rw [Finset.sum_ite_eq' (Finset.range (d.size2 - 1)) j (fun _ => d.data i (j + 1))]
    simp [hj]
  rw [hval] at hsum
  simpa [linear_predictor, gsl_vector_set] using hsum

theorem probit_row_term_hasDerivAt (pdf cdf : ℝ → ℝ → ℝ) (beta : gsl_vector ℝ)
    (d : gsl_matrix ℝ) (j i : Nat) (hj : j < d.size2 - 1)
    (hderiv : ∀ x, HasDerivAt (fun x => cdf x 1) (pdf x 1) x)
    (hpos : ∀ x, 0 < cdf x 1) (hlt : ∀ x, cdf x 1 < 1) :
    HasDerivAt
      (fun t => probit_row_term Real.log cdf d
        (linear_predictor (gsl_vector_set beta j t) d i) i)
      (probit_gradient_term pdf cdf d (linear_predictor beta d i) i j) (beta.data j) := by
  have heta := linear_predictor_hasDerivAt beta d j i hj (beta.data j)
  have hcomp := HasDerivAt.comp (beta.data j)
    (hderiv (linear_predictor (gsl_vector_set beta j (beta.data j)) d i)) heta
  rw [linear_predictor_set_self] at hcomp
  have hp := hpos (linear_predictor beta d i)
  have hl := hlt (linear_predictor beta d i)
  unfold probit_row_term probit_gradient_term
  by_cases h0 : d.data i 0 = 0
  · simp only [if_pos h0]
    have hlog := hcomp.log (by
      simp only [Function.comp, linear_predictor_set_self]
      exact ne_of_gt hp)
    simp only [Function.comp, linear_predictor_set_self] at hlog
    convert hlog using 1
    ring
  · simp only [if_neg h0]
    have hsub := (hasDerivAt_const (beta.data j) (1 : ℝ)).sub hcomp
    have hlog := hsub.log (by
      simp only [Function.comp, linear_predictor_set_self, Pi.sub_apply]
      exact ne_of_gt (by linarith))
    simp only [Function.comp, linear_predictor_set_self, Pi.sub_apply] at hlog
    convert hlog using 1
    have h1 : cdf (linear_predictor beta d i) 1 - 1 ≠ 0 := ne_of_lt (by linarith)
    have h2 : 1 - cdf (linear_predictor beta d i) 1 ≠ 0 := ne_of_gt (by linarith)
    field_simp
    ring

theorem logistic_hasDerivAt (x : ℝ) :
    HasDerivAt (fun x : ℝ => 1 / (1 + Real.exp (-x)))
      (Real.exp (-x) / (1 + Real.exp (-x)) ^ 2) x := by
  have hpos : 0 < 1 + Real.exp (-x) := by positivity
  have hexp : HasDerivAt (fun x : ℝ => Real.exp (-x)) (-Real.exp (-x)) x := by
    simpa using (Real.hasDerivAt_exp (-x)).comp x (hasDerivAt_neg x)
  have hden : HasDerivAt (fun x : ℝ => 1 + Real.exp (-x)) (-Real.exp (-x)) x := by
    simpa using hexp.const_add 1
  have hinv := hden.inv (ne_of_gt hpos)
  simp only [one_div]
  convert hinv using 1
  ring

theorem logistic_pos (x : ℝ) : 0 < 1 / (1 + Real.exp (-x)) := by
  positivity

theorem logistic_lt_one (x : ℝ) : 1 / (1 + Real.exp (-x)) < 1 := by
  have h : 0 < Real.exp (-x) := Real.exp_pos _
  rw [div_lt_one (by positivity)]
  linarith

/-! ## The constraint of the rank-exponential model -/

theorem tolerance_pos {α : Type} [LinearOrderedField α] :
    (0 : α) < 10 ^ 10 * GSL_DBL_EPSILON := by
  unfold GSL_DBL_EPSILON
  positivity

theorem beta_greater_than_x_constraint_feasible {α : Type} [LinearOrderedField α]
    (beta returned_beta : gsl_vector α) (h : 0 < gsl_vector_get beta 0) :
    beta_greater_than_x_constraint beta returned_beta = ⟨0, beta, returned_beta⟩ := by
  unfold beta_greater_than_x_constraint
  simp only [gt_iff_lt, if_pos h]

theorem beta_greater_than_x_constraint_infeasible {α : Type} [LinearOrderedField α]
    (beta returned_beta : gsl_vector α) (h : gsl_vector_get beta 0 ≤ 0) :
    beta_greater_than_x_constraint beta returned_beta
      = ⟨0 - gsl_vector_get beta 0, beta,
          gsl_vector_set returned_beta 0 (0 + 10 ^ 10 * GSL_DBL_EPSILON)⟩ := by
  unfold beta_greater_than_x_constraint
  simp only [gt_iff_lt, if_neg (not_lt.mpr h)]

theorem gsl_vector_get_set_same {α : Type} (v : gsl_vector α) (i : Nat) (x : α) :
    gsl_vector_get (gsl_vector_set v i x) i = x := by
  simp [gsl_vector_get, gsl_vector_set]

theorem foldl_bind_some {β : Type} (g : β → Nat → β) (l : List Nat) (a : β) :
    l.foldl (fun (acc : Option β) k => acc.bind fun x => some (g x k)) (some a)
      = some (l.foldl g a) := by
  induction l generalizing a with
  | nil => rfl
  | cons k l ih =>
    simp only [List.foldl_cons, Option.some_bind]
    exact ih (g a k)

theorem rank_exponential_log_likelihood_checked_eq {α : Type} [LinearOrderedField α]
    (log : α → α) (beta : gsl_vector α) (d : gsl_matrix α) (h : 0 < gsl_vector_get beta 0) :
    rank_exponential_log_likelihood_checked log beta d
      = some (rank_exponential_log_likelihood log beta d) := by
  have hne : gsl_vector_get beta 0 ≠ 0 := ne_of_gt h
  unfold rank_exponential_log_likelihood_checked rank_exponential_log_likelihood
  simp only [if_pos h, if_pos hne]
  exact foldl_bind_some _ _ _

theorem rank_exponential_log_likelihood_checked_none {α : Type} [LinearOrderedField α]
    (log : α → α) (beta : gsl_vector α) (d : gsl_matrix α) (h : gsl_vector_get beta 0 ≤ 0) :
    rank_exponential_log_likelihood_checked log beta d = none := by
  unfold rank_exponential_log_likelihood_checked
  simp only [if_neg (not_lt.mpr h)]

theorem exponential_rank_estimate_uses {α κ π : Type} [Field α] (log : α → α)
    (var_covar : gsl_vector α → gsl_matrix α → κ) (data : gsl_matrix α)
    (uses : apop_inventory) (parameters : π) :
    (exponential_rank_estimate log var_covar data uses parameters).1.uses = uses
    ∧ (exponential_rank_estimate log var_covar data uses parameters).2
        = apop_inventory_filter uses apop_exponential_rank_inventory_filter := by
  unfold exponential_rank_estimate
  by_cases h1 : uses.log_likelihood <;> by_cases h2 : uses.covariance <;>
    simp [apop_estimate_alloc, h1, h2]

/-! ## Row order and the cache of `dot` -/

theorem sum_range_perm {β : Type} [AddCommMonoid β] (n : Nat) (σ : Equiv.Perm (Fin n))
    (g : Nat → β) :
    ∑ i in Finset.range n, (if h : i < n then g (σ ⟨i, h⟩) else g i)
      = ∑ i in Finset.range n, g i := by
  rw [Finset.sum_range, Finset.sum_range]
  simp only [Fin.is_lt, dite_true, Fin.eta]
  exact Equiv.sum_comp σ fun i : Fin n => g i

theorem linear_predictor_permute_rows {α : Type} [Field α] (beta : gsl_vector α)
    (d : gsl_matrix α) (σ : Equiv.Perm (Fin d.size1)) (i : Nat) (hi : i < d.size1) :
    linear_predictor beta (permute_rows d σ) i = linear_predictor beta d (σ ⟨i, hi⟩) := by
  simp [linear_predictor, permute_rows, hi]

theorem probit_row_term_permute_rows {α : Type} [Field α] [DecidableEq α] (log : α → α)
    (cdf : α → α → α) (d : gsl_matrix α) (σ : Equiv.Perm (Fin d.size1)) (eta : α) (i : Nat)
    (hi : i < d.size1) :
    probit_row_term log cdf (permute_rows d σ) eta i
      = probit_row_term log cdf d eta (σ ⟨i, hi⟩) := by
  simp [probit_row_term, permute_rows, hi]

theorem probit_log_likelihood_sum_permute_rows {α : Type} [Field α] [DecidableEq α]
    (log : α → α) (cdf : α → α → α) (beta : gsl_vector α) (d : gsl_matrix α)
    (σ : Equiv.Perm (Fin d.size1)) :
    ∑ i in Finset.range (permute_rows d σ).size1,
        probit_row_term log cdf (permute_rows d σ)
          (linear_predictor beta (permute_rows d σ) i) i
      = ∑ i in Finset.range d.size1,
          probit_row_term log cdf d (linear_predictor beta d i) i := by
  rw [← sum_range_perm d.size1 σ
    (fun i => probit_row_term log cdf d (linear_predictor beta d i) i)]
  refine Finset.sum_congr rfl fun i hi => ?_
  have hi2 : i < d.size1 := Finset.mem_range.mp hi
  rw [dif_pos hi2, linear_predictor_permute_rows beta d σ i hi2,
    probit_row_term_permute_rows log cdf d σ _ i hi2]

theorem dot_counted_fst {α : Type} [Field α] (beta : gsl_vector α) (data : gsl_matrix α)
    (s : probit_cache α) :
    Option.map Prod.fst (dot_counted beta data s) = dot beta data s := by
  unfold dot_counted dot
  cases hp : gsl_matrix_submatrix data 0 1 data.size1 (data.size2 - 1) with
  | none => rfl
  | some p =>
    rcases s with ⟨_ | b, flag⟩
    · simp only [Option.bind_eq_bind, Option.some_bind, Option.pure_def]
      cases gsl_blas_dgemv 1 p beta 0 (gsl_vector_alloc data.size1) <;> rfl
    · by_cases hsz : data.size1 = b.size
      · simp only [Option.bind_eq_bind, Option.some_bind, Option.pure_def, ne_eq, hsz,
          not_true_eq_false, if_false]
        cases gsl_blas_dgemv 1 p beta 0 b <;> rfl
      · simp only [Option.bind_eq_bind, Option.some_bind, Option.pure_def, ne_eq, hsz,
          not_false_eq_true, if_true]
        cases gsl_blas_dgemv 1 p beta 0 (gsl_vector_alloc data.size1) <;> rfl

theorem dot_counted_eq_some {α : Type} [Field α] (beta : gsl_vector α) (data : gsl_matrix α)
    (s : probit_cache α) (h : shapes_conform beta data) :
    dot_counted beta data s
      = some (⟨some (dot_result beta data (dot_buffer data s)), s.beta_dot_x_is_current⟩,
          (if cache_stale data s then 1 else 0), (if cache_fits data s then 0 else 1)) := by
  obtain ⟨hrows, hbeta, hlen⟩ := h
  have h1 : 2 ≤ data.size2 := by omega
  have h2 : data.size2 - 1 = beta.size := by omega
  unfold dot_counted
  rw [gsl_matrix_submatrix_covariates data hrows h1]
  rcases s with ⟨_ | b, flag⟩
  · simp [cache_fits, cache_stale, dot_buffer, dot_result, gsl_blas_dgemv, gsl_vector_alloc, h2]
  · by_cases hsz : data.size1 = b.size
    · simp [cache_fits, cache_stale, dot_buffer, dot_result, gsl_blas_dgemv, h2, hsz]
    · have hsz2 : ¬ b.size = data.size1 := fun h => hsz h.symm
      simp [cache_fits, cache_stale, dot_buffer, dot_result, gsl_blas_dgemv, gsl_vector_alloc,
        h2, hsz, hsz2]

theorem cache_fits_eq_false_iff {α : Type} (data : gsl_matrix α) (s : probit_cache α) :
    cache_fits data s = false
      ↔ (s.beta_dot_x = none ∨ ∃ b, s.beta_dot_x = some b ∧ b.size ≠ data.size1) := by
  rcases s with ⟨_ | b, flag⟩
  · simp [cache_fits]
  · simp [cache_fits]

/-! ## The estimate of the rank-exponential model -/

theorem exponential_rank_estimate_log_likelihood_field {α κ π : Type} [Field α]
    (log : α → α) (var_covar : gsl_vector α → gsl_matrix α → κ) (data : gsl_matrix α)
    (uses : apop_inventory) (parameters : π) :
    (exponential_rank_estimate log var_covar data uses parameters).1.log_likelihood
      = if uses.log_likelihood then
          some (rank_exponential_log_likelihood log
            (exponential_rank_estimate log var_covar data uses parameters).1.parameters data)
        else none := by
  unfold exponential_rank_estimate
  by_cases h1 : uses.log_likelihood <;> by_cases h2 : uses.covariance <;>
    simp [apop_estimate_alloc, h1, h2]

theorem rank_total_nonneg {α : Type} [LinearOrderedField α] (data : gsl_matrix α)
    (hcells : ∀ i, i < data.size1 → ∀ k, k < data.size2 → 0 ≤ data.data i k) :
    0 ≤ rank_total data := by
  unfold rank_total
  refine Finset.sum_nonneg fun k hk => ?_
  refine mul_nonneg (Nat.cast_nonneg k) (Finset.sum_nonneg fun i hi => ?_)
  exact hcells i (Finset.mem_range.mp hi) k (Finset.mem_range.mp hk)

theorem rank_total_le {α : Type} [LinearOrderedField α] (data : gsl_matrix α)
    (hcells : ∀ i, i < data.size1 → ∀ k, k < data.size2 → 0 ≤ data.data i k) :
    rank_total data ≤ ((data.size2 - 1 : Nat) : α) * grand_total data := by
  unfold rank_total grand_total
  rw [Finset.mul_sum]
  refine Finset.sum_le_sum fun k hk => ?_
  have hk2 : k < data.size2 := Finset.mem_range.mp hk
  have hcol : 0 ≤ ∑ i in Finset.range data.size1, data.data i k :=
    Finset.sum_nonneg fun i hi => hcells i (Finset.mem_range.mp hi) k hk2
  have hle : (k : α) ≤ ((data.size2 - 1 : Nat) : α) := by
    exact_mod_cast Nat.le_sub_one_of_lt hk2
  exact mul_le_mul_of_nonneg_right hle hcol

theorem rank_total_pos_iff {α : Type} [LinearOrderedField α] (data : gsl_matrix α)
    (hcells : ∀ i, i < data.size1 → ∀ k, k < data.size2 → 0 ≤ data.data i k) :
    0 < rank_total data
      ↔ ∃ k, 1 ≤ k ∧ k < data.size2 ∧ 0 < ∑ i in Finset.range data.size1, data.data i k := by
  have hcol : ∀ k, k < data.size2 → 0 ≤ ∑ i in Finset.range data.size1, data.data i k :=
    fun k hk => Finset.sum_nonneg fun i hi => hcells i (Finset.mem_range.mp hi) k hk
  unfold rank_total
  have hterm : ∀ k ∈ Finset.range data.size2,
      0 ≤ (k : α) * ∑ i in Finset.range data.size1, data.data i k :=
    fun k hk => mul_nonneg (Nat.cast_nonneg k) (hcol k (Finset.mem_range.mp hk))
  constructor
  · intro hsum
    have hex : ∃ k ∈ Finset.range data.size2,
        0 < (k : α) * ∑ i in Finset.range data.size1, data.data i k := by
      by_contra hno
      have hzero : ∀ k ∈ Finset.range data.size2,
          (k : α) * ∑ i in Finset.range data.size1, data.data i k = 0 := by
        intro k hk
        rcases (hterm k hk).lt_or_eq with h | h
        · exact absurd ⟨k, hk, h⟩ hno
        · exact h.symm
      rw [Finset.sum_eq_zero hzero] at hsum
      exact lt_irrefl 0 hsum
    obtain ⟨k, hk, hpos⟩ := hex
    have hk2 : k < data.size2 := Finset.mem_range.mp hk
    have hk0 : k ≠ 0 := by
      rintro rfl
      simp at hpos
    refine ⟨k, Nat.one_le_iff_ne_zero.mpr hk0, hk2, ?_⟩
    rcases (hcol k hk2).lt_or_eq with h | h
    · exact h
    · rw [← h, mul_zero] at hpos
      exact absurd hpos (lt_irrefl 0)
  · rintro ⟨k, hk1, hk2, hpos⟩
    refine Finset.sum_pos' hterm ⟨k, Finset.mem_range.mpr hk2, mul_pos ?_ hpos⟩
    exact_mod_cast hk1

/-! ## The cache protocol -/

theorem probit_log_likelihood_flag {α : Type} [Field α] [DecidableEq α] (log : α → α)
    (cdf : α → α → α) (beta : gsl_vector α) (d : gsl_matrix α) (s : probit_cache α)
    (r : α × probit_cache α) (h : probit_log_likelihood log cdf beta d s = some r) :
    r.2.beta_dot_x_is_current = s.beta_dot_x_is_current := by
  by_cases hshape : shapes_conform beta d
  · rw [probit_log_likelihood_eq_some log cdf beta d s hshape] at h
    rw [← Option.some.inj h]
  · rw [probit_log_likelihood_eq_none log cdf beta d s hshape] at h
    exact absurd h (by simp)

theorem probit_dlog_likelihood_cache {α : Type} [Field α] [DecidableEq α]
    (pdf cdf : α → α → α) (beta : gsl_vector α) (d : gsl_matrix α) (gradient : gsl_vector α)
    (s : probit_cache α) (hflag : s.beta_dot_x_is_current = false)
    (r : gsl_vector α × probit_cache α)
    (h : probit_dlog_likelihood pdf cdf beta d gradient s = some r) :
    r.2 = ⟨none, false⟩ := by
  by_cases hshape : shapes_conform beta d
  · rw [probit_dlog_likelihood_eq_some pdf cdf beta d gradient s hshape hflag] at h
    rw [← Option.some.inj h]
  · rw [probit_dlog_likelihood_eq_none pdf cdf beta d gradient s hshape hflag] at h
    exact absurd h (by simp)

theorem probit_fdf_cache {α : Type} [Field α] [DecidableEq α] (log : α → α)
    (pdf cdf : α → α → α) (beta : gsl_vector α) (d : gsl_matrix α) (df : gsl_vector α)
    (s : probit_cache α) (r : α × gsl_vector α × probit_cache α)
    (h : probit_fdf log pdf cdf beta d df s = some r) :
    r.2.2 = ⟨none, false⟩ := by
  by_cases hshape : shapes_conform beta d
  · rw [probit_fdf_eq_some log pdf cdf beta d df s hshape] at h
    rw [← Option.some.inj h]
  · rw [probit_fdf_eq_none log pdf cdf beta d df s hshape] at h
    exact absurd h (by simp)

theorem run_probit_call_flag {α : Type} [Field α] [DecidableEq α] (log : α → α)
    (pdf cdf : α → α → α) (c : probit_call α) (s t : probit_cache α)
    (hflag : s.beta_dot_x_is_current = false)
    (h : run_probit_call log pdf cdf c s = some t) :
    t.beta_dot_x_is_current = false := by
  cases c with
  | log_likelihood beta d =>
    simp only [run_probit_call, Option.map_eq_some'] at h
    obtain ⟨r, hr, rfl⟩ := h
    rw [probit_log_likelihood_flag log cdf beta d s r hr, hflag]
  | dlog_likelihood beta d gradient =>
    simp only [run_probit_call, Option.map_eq_some'] at h
    obtain ⟨r, hr, rfl⟩ := h
    rw [probit_dlog_likelihood_cache pdf cdf beta d gradient s hflag r hr]
  | fdf beta d df =>
    simp only [run_probit_call, Option.map_eq_some'] at h
    obtain ⟨r, hr, rfl⟩ := h
    rw [probit_fdf_cache log pdf cdf beta d df s r hr]

theorem run_probit_calls_flag {α : Type} [Field α] [DecidableEq α] (log : α → α)
    (pdf cdf : α → α → α) (calls : List (probit_call α)) (s t : probit_cache α)
    (hflag : s.beta_dot_x_is_current = false)
    (h : run_probit_calls log pdf cdf calls s = some t) :
    t.beta_dot_x_is_current = false := by
  induction calls generalizing s with
  | nil =>
    simp only [run_probit_calls, Option.some.injEq] at h
    rw [← h]
    exact hflag
  | cons c cs ih =>
    simp only [run_probit_calls, Option.bind_eq_some] at h
    obtain ⟨u, hu, hrest⟩ := h
    exact ih u (run_probit_call_flag log pdf cdf c s u hflag hu) hrest

theorem probit_dlog_likelihood_counted_eq_some {α : Type} [Field α] [DecidableEq α]
    (pdf cdf : α → α → α) (beta : gsl_vector α) (d : gsl_matrix α) (gradient : gsl_vector α)
    (s : probit_cache α) (h : shapes_conform beta d)
    (hflag : s.beta_dot_x_is_current = false) :
    probit_dlog_likelihood_counted pdf cdf beta d gradient s
      = some (probit_gradient pdf cdf beta d gradient, ⟨none, false⟩, 1) := by
  unfold probit_dlog_likelihood_counted
  rw [hflag]
  simp only [Bool.not_false, if_true]
  rw [dot_eq_some beta d s h]
  simp only [Option.map_some', Option.bind_eq_bind, Option.some_bind, Option.pure_def]
  rw [probit_dlog_likelihood_loop_eq pdf cdf beta d gradient _ (dot_result_predictor beta d s),
    hflag]

theorem probit_dlog_likelihood_counted_eq_none {α : Type} [Field α] [DecidableEq α]
    (pdf cdf : α → α → α) (beta : gsl_vector α) (d : gsl_matrix α) (gradient : gsl_vector α)
    (s : probit_cache α) (h : ¬ shapes_conform beta d)
    (hflag : s.beta_dot_x_is_current = false) :
    probit_dlog_likelihood_counted pdf cdf beta d gradient s = none := by
  unfold probit_dlog_likelihood_counted
  rw [hflag]
  simp only [Bool.not_false, if_true]
  rw [dot_eq_none beta d s h]
  rfl

theorem probit_dlog_likelihood_counted_current {α : Type} [Field α] [DecidableEq α]
    (pdf cdf : α → α → α) (beta : gsl_vector α) (d : gsl_matrix α) (gradient : gsl_vector α)
    (y : gsl_vector α) (hy : ∀ i, i < d.size1 → y.data i = linear_predictor beta d i) :
    probit_dlog_likelihood_counted pdf cdf beta d gradient ⟨some y, true⟩
      = some (probit_gradient pdf cdf beta d gradient, ⟨none, true⟩, 0) := by
  unfold probit_dlog_likelihood_counted
  simp only [Bool.not_true, Bool.false_eq_true, if_false, Option.pure_def,
    Option.bind_eq_bind, Option.some_bind]
  rw [probit_dlog_likelihood_loop_eq pdf cdf beta d gradient y hy]

theorem probit_fdf_counted_eq_some {α : Type} [Field α] [DecidableEq α] (log : α → α)
    (pdf cdf : α → α → α) (beta : gsl_vector α) (d : gsl_matrix α) (df : gsl_vector α)
    (s : probit_cache α) (h : shapes_conform beta d) :
    probit_fdf_counted log pdf cdf beta d df s
      = some (∑ i in Finset.range d.size1,
                probit_row_term log cdf d (linear_predictor beta d i) i,
              probit_gradient pdf cdf beta d df, ⟨none, false⟩, 0) := by
  unfold probit_fdf_counted
  rw [probit_log_likelihood_eq_some log cdf beta d s h]
  simp only [Option.bind_eq_bind, Option.some_bind, Option.pure_def]
  rw [probit_dlog_likelihood_counted_current pdf cdf beta d df _
    (dot_result_predictor beta d s)]
  rfl

theorem probit_fdf_counted_eq_none {α : Type} [Field α] [DecidableEq α] (log : α → α)
    (pdf cdf : α → α → α) (beta : gsl_vector α) (d : gsl_matrix α) (df : gsl_vector α)
    (s : probit_cache α) (h : ¬ shapes_conform beta d) :
    probit_fdf_counted log pdf cdf beta d df s = none := by
  unfold probit_fdf_counted
  rw [probit_log_likelihood_eq_none log cdf beta d s h]
  rfl

/-! ## The accesses of the probit functions -/

theorem foldl_fst {σ τ : Type} (step : σ × τ → Nat → σ × τ) (g : σ → Nat → σ)
    (h : ∀ acc k, (step acc k).1 = g acc.1 k) (l : List Nat) (a : σ × τ) :
    (l.foldl step a).1 = l.foldl g a.1 := by
  induction l generalizing a with
  | nil => rfl
  | cons k l ih =>
    rw [List.foldl_cons, List.foldl_cons, ih, h]

theorem foldl_range_induction {σ : Type} (I : Nat → σ → Prop) (step : σ → Nat → σ) (n : Nat)
    (a : σ) (h0 : I 0 a) (hstep : ∀ k s, k < n → I k s → I (k + 1) (step s k)) :
    I n ((List.range n).foldl step a) := by
  induction n with
  | zero => simpa using h0
  | succ n ih =>
    rw [List.range_succ, List.foldl_append]
    simp only [List.foldl_cons, List.foldl_nil]
    exact hstep n _ (Nat.lt_succ_self n)
      (ih fun k s hk hI => hstep k s (Nat.lt_succ_of_lt hk) hI)

theorem foldl_trace_mem {α β : Type} (g : α × List β → Nat → α) (F : Nat → List β) (n : Nat)
    (a : α) (l : List β) (x : β) :
    x ∈ ((List.range n).foldl (fun (acc : α × List β) k => (g acc k, acc.2 ++ F k)) (a, l)).2
      ↔ x ∈ l ∨ ∃ k, k < n ∧ x ∈ F k := by
  refine foldl_range_induction
    (fun m (acc : α × List β) => x ∈ acc.2 ↔ x ∈ l ∨ ∃ k, k < m ∧ x ∈ F k) _ n (a, l) ?_ ?_
  · simp
  · intro k s _ hI
    simp only [List.mem_append, hI]
    constructor
    · rintro ((h | ⟨k2, hk2, h⟩) | h)
      · exact Or.inl h
      · exact Or.inr ⟨k2, Nat.lt_succ_of_lt hk2, h⟩
      · exact Or.inr ⟨k, Nat.lt_succ_self k, h⟩
    · rintro (h | ⟨k2, hk2, h⟩)
      · exact Or.inl (Or.inl h)
      · rcases Nat.lt_succ_iff_lt_or_eq.mp hk2 with h2 | h2
        · exact Or.inl (Or.inr ⟨k2, h2, h⟩)
        · subst h2
          exact Or.inr h


theorem probit_log_likelihood_traced_loop {α : Type} [Field α] [DecidableEq α] (log : α → α)
    (cdf : α → α → α) (d : gsl_matrix α) (y : gsl_vector α) :
    ∃ l : List probit_access,
      (List.range d.size1).foldl
        (fun (acc : α × List probit_access) i =>
          let n := cdf (gsl_vector_get y i) 1
          (if gsl_matrix_get d i 0 = 0 then acc.1 + log n else acc.1 + log (1 - n),
            acc.2 ++ [probit_access.cache i y.size, probit_access.matrix i 0 d.size1 d.size2]))
        (0, [])
      = ((List.range d.size1).foldl
          (fun total_prob i =>
            if gsl_matrix_get d i 0 = 0 then
              total_prob + log (cdf (gsl_vector_get y i) 1)
            else total_prob + log (1 - cdf (gsl_vector_get y i) 1))
          0, l)
      ∧ ∀ x, x ∈ l ↔ ∃ i, i < d.size1
          ∧ (x = probit_access.cache i y.size ∨ x = probit_access.matrix i 0 d.size1 d.size2) := by
  refine ⟨_, Prod.ext (foldl_fst _ _ (fun _ _ => rfl) _ _) rfl, fun x => ?_⟩
  have h := foldl_trace_mem
    (fun (acc : α × List probit_access) i =>
      if gsl_matrix_get d i 0 = 0 then acc.1 + log (cdf (gsl_vector_get y i) 1)
      else acc.1 + log (1 - cdf (gsl_vector_get y i) 1))
    (fun i => [probit_access.cache i y.size, probit_access.matrix i 0 d.size1 d.size2])
    d.size1 0 [] x
  simpa using h

theorem probit_dlog_likelihood_traced_loop {α : Type} [Field α] [DecidableEq α]
    (pdf cdf : α → α → α) (beta : gsl_vector α) (d : gsl_matrix α) (gradient : gsl_vector α)
    (y : gsl_vector α) :
    ∃ l : List probit_access,
      (List.range beta.size).foldl
        (fun (acc : gsl_vector α × List probit_access) j =>
          let inner := (List.range d.size1).foldl
            (fun (acc2 : α × List probit_access) i =>
              let one_term := gsl_matrix_get d i (j + 1) * pdf (gsl_vector_get y i) 1
              let one_term :=
                if gsl_matrix_get d i 0 = 0 then one_term / cdf (gsl_vector_get y i) 1
                else one_term / (cdf (gsl_vector_get y i) 1 - 1)
              (acc2.1 + one_term,
                acc2.2 ++ [probit_access.matrix i (j + 1) d.size1 d.size2,
                  probit_access.cache i y.size,
                  probit_access.matrix i 0 d.size1 d.size2,
                  probit_access.cache i y.size]))
            (0, acc.2)
          (gsl_vector_set acc.1 j inner.1, inner.2 ++ [probit_access.gradient j acc.1.size]))
        (gradient, [])
      = ((List.range beta.size).foldl
          (fun gradient j =>
            let beta_term_sum := (List.range d.size1).foldl
              (fun beta_term_sum i =>
                let one_term := gsl_matrix_get d i (j + 1) * pdf (gsl_vector_get y i) 1
                let one_term :=
                  if gsl_matrix_get d i 0 = 0 then one_term / cdf (gsl_vector_get y i) 1
                  else one_term / (cdf (gsl_vector_get y i) 1 - 1)
                beta_term_sum + one_term)
              0
            gsl_vector_set gradient j beta_term_sum)
          gradient, l)
      ∧ ∀ x, x ∈ l ↔ ∃ j, j < beta.size
          ∧ ((∃ i, i < d.size1
              ∧ (x = probit_access.matrix i (j + 1) d.size1 d.size2
                ∨ x = probit_access.cache i y.size
                ∨ x = probit_access.matrix i 0 d.size1 d.size2))
            ∨ x = probit_access.gradient j gradient.size) := by
  refine ⟨_, Prod.ext (foldl_fst _ _ (fun acc j => ?_) _ _) rfl, fun x => ?_⟩
  · simp only []
    congr 1
    exact foldl_fst _ _ (fun _ _ => rfl) _ _
  · refine foldl_range_induction
      (fun m (acc : gsl_vector α × List probit_access) =>
        acc.1.size = gradient.size
        ∧ (x ∈ acc.2 ↔ ∃ j, j < m
          ∧ ((∃ i, i < d.size1
              ∧ (x = probit_access.matrix i (j + 1) d.size1 d.size2
                ∨ x = probit_access.cache i y.size
                ∨ x = probit_access.matrix i 0 d.size1 d.size2))
            ∨ x = probit_access.gradient j gradient.size))) _ beta.size (gradient, [])
      ⟨rfl, by simp⟩ (fun j acc _ hI => ?_) |>.2
    obtain ⟨hsize, hmem⟩ := hI
    refine ⟨hsize, ?_⟩
    have h := foldl_trace_mem
      (fun (acc2 : α × List probit_access) i =>
        acc2.1 + (if gsl_matrix_get d i 0 = 0 then
            gsl_matrix_get d i (j + 1) * pdf (gsl_vector_get y i) 1 / cdf (gsl_vector_get y i) 1
          else
            gsl_matrix_get d i (j + 1) * pdf (gsl_vector_get y i) 1
              / (cdf (gsl_vector_get y i) 1 - 1)))
      (fun i => [probit_access.matrix i (j + 1) d.size1 d.size2,
        probit_access.cache i y.size, probit_access.matrix i 0 d.size1 d.size2,
        probit_access.cache i y.size])
      d.size1 0 acc.2 x
    simp only [List.mem_append, List.mem_singleton, h, hmem, hsize]
    constructor
    · rintro ((⟨j2, hj2, h2⟩ | ⟨i, hi, h2⟩) | h2)
      · exact ⟨j2, Nat.lt_succ_of_lt hj2, h2⟩
      · refine ⟨j, Nat.lt_succ_self j, Or.inl ⟨i, hi, ?_⟩⟩
        simp only [List.mem_cons, List.mem_singleton, List.mem_nil_iff, or_false] at h2
        tauto
      · exact ⟨j, Nat.lt_succ_self j, Or.inr h2⟩
    · rintro ⟨j2, hj2, h2⟩
      rcases Nat.lt_succ_iff_lt_or_eq.mp hj2 with h3 | h3
      · exact Or.inl (Or.inl ⟨j2, h3, h2⟩)
      · subst h3
        rcases h2 with ⟨i, hi, h2⟩ | h2
        · refine Or.inl (Or.inr ⟨i, hi, ?_⟩)
          simp only [List.mem_cons, List.mem_singleton, List.mem_nil_iff, or_false]
          tauto
        · exact Or.inr h2

theorem probit_log_likelihood_traced_fst {α : Type} [Field α] [DecidableEq α] (log : α → α)
    (cdf : α → α → α) (beta : gsl_vector α) (d : gsl_matrix α) (s : probit_cache α) :
    Option.map Prod.fst (probit_log_likelihood_traced log cdf beta d s)
      = probit_log_likelihood log cdf beta d s := by
  unfold probit_log_likelihood_traced probit_log_likelihood
  cases dot beta d s with
  | none => rfl
  | some c =>
    cases hy : c.beta_dot_x with
    | none => simp [hy]
    | some y =>
      obtain ⟨l, hl, _⟩ := probit_log_likelihood_traced_loop log cdf d y
      simp only [Option.bind_eq_bind, Option.some_bind, hy, Option.pure_def, Option.map_some']
      rw [hl]

theorem probit_dlog_likelihood_traced_fst {α : Type} [Field α] [DecidableEq α]
    (pdf cdf : α → α → α) (beta : gsl_vector α) (d : gsl_matrix α) (gradient : gsl_vector α)
    (s : probit_cache α) :
    Option.map Prod.fst (probit_dlog_likelihood_traced pdf cdf beta d gradient s)
      = probit_dlog_likelihood pdf cdf beta d gradient s := by
  unfold probit_dlog_likelihood_traced probit_dlog_likelihood
  cases hflag : s.beta_dot_x_is_current
  · simp only [Bool.not_false, if_true]
    cases dot beta d s with
    | none => rfl
    | some c =>
      cases hy : c.beta_dot_x with
      | none => simp [hy]
      | some y =>
        obtain ⟨l, hl, _⟩ := probit_dlog_likelihood_traced_loop pdf cdf beta d gradient y
        simp only [Option.bind_eq_bind, Option.some_bind, hy, Option.pure_def, Option.map_some']
        rw [hl]
  · simp only [Bool.not_true, Bool.false_eq_true, if_false]
    cases hy : s.beta_dot_x with
    | none => simp [hy]
    | some y =>
      obtain ⟨l, hl, _⟩ := probit_dlog_likelihood_traced_loop pdf cdf beta d gradient y
      simp only [Option.bind_eq_bind, Option.some_bind, hy, Option.pure_def, Option.map_some']
      rw [hl]

theorem probit_dlog_likelihood_traced_current {α : Type} [Field α] [DecidableEq α]
    (pdf cdf : α → α → α) (beta : gsl_vector α) (d : gsl_matrix α) (gradient : gsl_vector α)
    (y : gsl_vector α) (hy : ∀ i, i < d.size1 → y.data i = linear_predictor beta d i) :
    ∃ l : List probit_access,
      probit_dlog_likelihood_traced pdf cdf beta d gradient ⟨some y, true⟩
        = some ((probit_gradient pdf cdf beta d gradient, ⟨none, true⟩), l)
      ∧ ∀ x, x ∈ l ↔ ∃ j, j < beta.size
          ∧ ((∃ i, i < d.size1
              ∧ (x = probit_access.matrix i (j + 1) d.size1 d.size2
                ∨ x = probit_access.cache i y.size
                ∨ x = probit_access.matrix i 0 d.size1 d.size2))
            ∨ x = probit_access.gradient j gradient.size) := by
  obtain ⟨l, hl, hmem⟩ := probit_dlog_likelihood_traced_loop pdf cdf beta d gradient y
  refine ⟨l, ?_, hmem⟩
  unfold probit_dlog_likelihood_traced
  simp only [Bool.not_true, Bool.false_eq_true, if_false, Option.pure_def,
    Option.bind_eq_bind, Option.some_bind]
  rw [hl, probit_dlog_likelihood_loop_eq pdf cdf beta d gradient y hy]

theorem probit_dlog_likelihood_traced_eq_some {α : Type} [Field α] [DecidableEq α]
    (pdf cdf : α → α → α) (beta : gsl_vector α) (d : gsl_matrix α) (gradient : gsl_vector α)
    (s : probit_cache α) (h : shapes_conform beta d)
    (hflag : s.beta_dot_x_is_current = false) :
    ∃ l : List probit_access,
      probit_dlog_likelihood_traced pdf cdf beta d gradient s
        = some ((probit_gradient pdf cdf beta d gradient, ⟨none, false⟩), l)
      ∧ ∀ x, x ∈ l ↔ ∃ j, j < beta.size
          ∧ ((∃ i, i < d.size1
              ∧ (x = probit_access.matrix i (j + 1) d.size1 d.size2
                ∨ x = probit_access.cache i d.size1
                ∨ x = probit_access.matrix i 0 d.size1 d.size2))
            ∨ x = probit_access.gradient j gradient.size) := by
  obtain ⟨l, hl, hmem⟩ := probit_dlog_likelihood_traced_loop pdf cdf beta d gradient
    (dot_result beta d (dot_buffer d s))
  have hsize : (dot_result beta d (dot_buffer d s)).size = d.size1 := dot_buffer_size d s
  rw [hsize] at hmem
  refine ⟨l, ?_, hmem⟩
  unfold probit_dlog_likelihood_traced
  rw [hflag]
  simp only [Bool.not_false, if_true]
  rw [dot_eq_some beta d s h]
  simp only [Option.bind_eq_bind, Option.some_bind, Option.pure_def]
  rw [hl, probit_dlog_likelihood_loop_eq pdf cdf beta d gradient _
    (dot_result_predictor beta d s), hflag]

theorem probit_dlog_likelihood_traced_eq_none {α : Type} [Field α] [DecidableEq α]
    (pdf cdf : α → α → α) (beta : gsl_vector α) (d : gsl_matrix α) (gradient : gsl_vector α)
    (s : probit_cache α) (h : ¬ shapes_conform beta d)
    (hflag : s.beta_dot_x_is_current = false) :
    probit_dlog_likelihood_traced pdf cdf beta d gradient s = none := by
  unfold probit_dlog_likelihood_traced
  rw [hflag]
  simp only [Bool.not_false, if_true]
  rw [dot_eq_none beta d s h]
  rfl

theorem probit_log_likelihood_traced_eq_some {α : Type} [Field α] [DecidableEq α]
    (log : α → α) (cdf : α → α → α) (beta : gsl_vector α) (d : gsl_matrix α)
    (s : probit_cache α) (h : shapes_conform beta d) :
    ∃ l : List probit_access,
      probit_log_likelihood_traced log cdf beta d s
        = some ((∑ i in Finset.range d.size1,
              probit_row_term log cdf d (linear_predictor beta d i) i,
            ⟨some (dot_result beta d (dot_buffer d s)), s.beta_dot_x_is_current⟩), l)
      ∧ ∀ x, x ∈ l ↔ ∃ i, i < d.size1
          ∧ (x = probit_access.cache i d.size1
            ∨ x = probit_access.matrix i 0 d.size1 d.size2) := by
  obtain ⟨l, hl, hmem⟩ := probit_log_likelihood_traced_loop log cdf d
    (dot_result beta d (dot_buffer d s))
  have hsize : (dot_result beta d (dot_buffer d s)).size = d.size1 := dot_buffer_size d s
  rw [hsize] at hmem
  refine ⟨l, ?_, hmem⟩
  unfold probit_log_likelihood_traced
  rw [dot_eq_some beta d s h]
  simp only [Option.bind_eq_bind, Option.some_bind, Option.pure_def]
  rw [hl, probit_log_likelihood_loop_eq log cdf beta d _ (dot_result_predictor beta d s)]

theorem probit_log_likelihood_traced_eq_none {α : Type} [Field α] [DecidableEq α]
    (log : α → α) (cdf : α → α → α) (beta : gsl_vector α) (d : gsl_matrix α)
    (s : probit_cache α) (h : ¬ shapes_conform beta d) :
    probit_log_likelihood_traced log cdf beta d s = none := by
  unfold probit_log_likelihood_traced
  rw [dot_eq_none beta d s h]
  rfl

theorem probit_fdf_traced_fst {α : Type} [Field α] [DecidableEq α] (log : α → α)
    (pdf cdf : α → α → α) (beta : gsl_vector α) (d : gsl_matrix α) (df : gsl_vector α)
    (s : probit_cache α) :
    Option.map Prod.fst (probit_fdf_traced log pdf cdf beta d df s)
      = probit_fdf log pdf cdf beta d df s := by
  unfold probit_fdf_traced probit_fdf
  rw [← probit_log_likelihood_traced_fst log cdf beta d s]
  cases probit_log_likelihood_traced log cdf beta d s with
  | none => rfl
  | some r1 =>
    obtain ⟨⟨f, s1⟩, l1⟩ := r1
    simp only [Option.bind_eq_bind, Option.some_bind, Option.map_some', Option.pure_def]
    rw [← probit_dlog_likelihood_traced_fst pdf cdf beta d df
      { s1 with beta_dot_x_is_current := true }]
    cases probit_dlog_likelihood_traced pdf cdf beta d df
        { s1 with beta_dot_x_is_current := true } with
    | none => rfl
    | some r2 =>
      obtain ⟨⟨g, s2⟩, l2⟩ := r2
      rfl

theorem probit_fdf_traced_eq_some {α : Type} [Field α] [DecidableEq α] (log : α → α)
    (pdf cdf : α → α → α) (beta : gsl_vector α) (d : gsl_matrix α) (df : gsl_vector α)
    (s : probit_cache α) (h : shapes_conform beta d) :
    ∃ l : List probit_access,
      probit_fdf_traced log pdf cdf beta d df s
        = some ((∑ i in Finset.range d.size1,
              probit_row_term log cdf d (linear_predictor beta d i) i,
            probit_gradient pdf cdf beta d df, ⟨none, false⟩), l)
      ∧ ∀ x, x ∈ l ↔
          (∃ i, i < d.size1
            ∧ (x = probit_access.cache i d.size1
              ∨ x = probit_access.matrix i 0 d.size1 d.size2))
          ∨ ∃ j, j < beta.size
            ∧ ((∃ i, i < d.size1
                ∧ (x = probit_access.matrix i (j + 1) d.size1 d.size2
                  ∨ x = probit_access.cache i d.size1
                  ∨ x = probit_access.matrix i 0 d.size1 d.size2))
              ∨ x = probit_access.gradient j df.size) := by
  obtain ⟨l1, h1, hmem1⟩ := probit_log_likelihood_traced_eq_some log cdf beta d s h
  obtain ⟨l2, h2, hmem2⟩ := probit_dlog_likelihood_traced_current pdf cdf beta d df
    (dot_result beta d (dot_buffer d s)) (dot_result_predictor beta d s)
  have hsize : (dot_result beta d (dot_buffer d s)).size = d.size1 := dot_buffer_size d s
  rw [hsize] at hmem2
  refine ⟨l1 ++ l2, ?_, fun x => ?_⟩
  · unfold probit_fdf_traced
    rw [h1]
    simp only [Option.bind_eq_bind, Option.some_bind, Option.pure_def]
    rw [h2]
    rfl
  · rw [List.mem_append, hmem1, hmem2]

theorem probit_fdf_traced_eq_none {α : Type} [Field α] [DecidableEq α] (log : α → α)
    (pdf cdf : α → α → α) (beta : gsl_vector α) (d : gsl_matrix α) (df : gsl_vector α)
    (s : probit_cache α) (h : ¬ shapes_conform beta d) :
    probit_fdf_traced log pdf cdf beta d df s = none := by
  unfold probit_fdf_traced
  rw [probit_log_likelihood_traced_eq_none log cdf beta d s h]
  rfl

theorem access_in_bounds_cache (i n : Nat) (h : i < n) :
    access_in_bounds (probit_access.cache i n) = true := by
  simp [access_in_bounds, h]

theorem access_in_bounds_matrix (i j n1 n2 : Nat) (h1 : i < n1) (h2 : j < n2) :
    access_in_bounds (probit_access.matrix i j n1 n2) = true := by
  simp [access_in_bounds, h1, h2]

theorem access_in_bounds_gradient (j n : Nat) (h : j < n) :
    access_in_bounds (probit_access.gradient j n) = true := by
  simp [access_in_bounds, h]

theorem probit_log_likelihood_accesses_in_bounds {α : Type} (d : gsl_matrix α) (x : probit_access)
    (hcol : 1 ≤ d.size2)
    (h : ∃ i, i < d.size1
      ∧ (x = probit_access.cache i d.size1 ∨ x = probit_access.matrix i 0 d.size1 d.size2)) :
    access_in_bounds x = true := by
  obtain ⟨i, hi, h | h⟩ := h
  · rw [h]
    exact access_in_bounds_cache i _ hi
  · rw [h]
    exact access_in_bounds_matrix i 0 _ _ hi (by omega)

theorem probit_dlog_likelihood_accesses_in_bounds {α : Type} (d : gsl_matrix α) (n g : Nat)
    (x : probit_access) (hlen : n + 1 = d.size2) (hgrad : n ≤ g)
    (h : ∃ j, j < n
      ∧ ((∃ i, i < d.size1
          ∧ (x = probit_access.matrix i (j + 1) d.size1 d.size2
            ∨ x = probit_access.cache i d.size1
            ∨ x = probit_access.matrix i 0 d.size1 d.size2))
        ∨ x = probit_access.gradient j g)) :
    access_in_bounds x = true := by
  obtain ⟨j, hj, ⟨i, hi, h | h | h⟩ | h⟩ := h
  · rw [h]
    exact access_in_bounds_matrix i (j + 1) _ _ hi (by omega)
  · rw [h]
    exact access_in_bounds_cache i _ hi
  · rw [h]
    exact access_in_bounds_matrix i 0 _ _ hi (by omega)
  · rw [h]
    exact access_in_bounds_gradient j g (by omega)

/-! ## Column sums, scaling and the divisions of the gradient -/

theorem foldl_pair_trace {α β : Type} (g : α → Nat → α) (f : Nat → β) (n : Nat) (a : α)
    (l : List β) :
    (List.range n).foldl (fun (acc : α × List β) k => (g acc.1 k, acc.2 ++ [f k])) (a, l)
      = ((List.range n).foldl g a, l ++ (List.range n).map f) := by
  induction n with
  | zero => simp
  | succ n ih =>
    rw [List.range_succ, List.foldl_append, ih]
    simp [List.foldl_append, List.map_append, List.append_assoc]

theorem rank_exponential_dlog_likelihood_traced_eq {α : Type} [Field α] (log : α → α)
    (beta : gsl_vector α) (d : gsl_matrix α) (gradient : gsl_vector α) :
    rank_exponential_dlog_likelihood_traced log beta d gradient
      = (rank_exponential_dlog_likelihood log beta d gradient,
          (1, log (gsl_vector_get beta 0))
            :: (List.range d.size2).map fun k : Nat =>
              (1 / log (gsl_vector_get beta 0) - ((k + 1 : Nat) : α),
                gsl_vector_get beta 0)) := by
  unfold rank_exponential_dlog_likelihood_traced rank_exponential_dlog_likelihood
  simp only []
  rw [foldl_pair_trace
    (fun (acc : α) (k : Nat) =>
      (List.range d.size1).foldl
        (fun d_likelihood i => d_likelihood + gsl_matrix_get d i k
          * ((1 / log (gsl_vector_get beta 0) - ((k + 1 : Nat) : α)) / gsl_vector_get beta 0))
        acc)
    (fun k : Nat =>
      (1 / log (gsl_vector_get beta 0) - ((k + 1 : Nat) : α), gsl_vector_get beta 0))]
  rfl

theorem grand_total_congr {α : Type} [Field α] (d1 d2 : gsl_matrix α)
    (hcols : d1.size2 = d2.size2)
    (hsums : ∀ k, k < d1.size2 →
      ∑ i in Finset.range d1.size1, d1.data i k = ∑ i in Finset.range d2.size1, d2.data i k) :
    grand_total d1 = grand_total d2 := by
  unfold grand_total
  rw [← hcols]
  exact Finset.sum_congr rfl fun k hk => hsums k (Finset.mem_range.mp hk)

theorem rank_total_congr {α : Type} [Field α] (d1 d2 : gsl_matrix α)
    (hcols : d1.size2 = d2.size2)
    (hsums : ∀ k, k < d1.size2 →
      ∑ i in Finset.range d1.size1, d1.data i k = ∑ i in Finset.range d2.size1, d2.data i k) :
    rank_total d1 = rank_total d2 := by
  unfold rank_total
  rw [← hcols]
  refine Finset.sum_congr rfl fun k hk => ?_
  rw [hsums k (Finset.mem_range.mp hk)]

theorem grand_total_scale {α : Type} [Field α] (c : α) (d : gsl_matrix α) :
    grand_total (scale_matrix c d) = c * grand_total d := by
  simp only [grand_total, scale_matrix, Finset.mul_sum]

theorem rank_total_scale {α : Type} [Field α] (c : α) (d : gsl_matrix α) :
    rank_total (scale_matrix c d) = c * rank_total d := by
  simp only [rank_total, scale_matrix, Finset.mul_sum]
  refine Finset.sum_congr rfl fun k _ => Finset.sum_congr rfl fun i _ => ?_
  ring

/-! ## Symmetry and sign of the probit log-likelihood -/

theorem linear_predictor_neg_flip {α : Type} [Field α] (beta : gsl_vector α)
    (d : gsl_matrix α) (i : Nat) :
    linear_predictor (gsl_vector_neg beta) (flip_outcomes d) i = -linear_predictor beta d i := by
  simp only [linear_predictor, flip_outcomes, gsl_vector_neg, Nat.succ_ne_zero, if_false,
    mul_neg, Finset.sum_neg_distrib]

theorem probit_row_term_flip {α : Type} [Field α] [DecidableEq α] (log : α → α)
    (cdf : α → α → α) (d : gsl_matrix α) (eta : α) (i : Nat)
    (hsym : ∀ x, cdf (-x) 1 = 1 - cdf x 1) (h01 : d.data i 0 = 0 ∨ d.data i 0 = 1) :
    probit_row_term log cdf (flip_outcomes d) (-eta) i = probit_row_term log cdf d eta i := by
  unfold probit_row_term
  rcases h01 with h | h
  · have hflip : (flip_outcomes d).data i 0 ≠ 0 := by
      simp [flip_outcomes, h]
    rw [if_neg hflip, if_pos h, hsym, sub_sub_cancel]
  · have hflip : (flip_outcomes d).data i 0 = 0 := by
      simp [flip_outcomes, h]
    have hne : d.data i 0 ≠ 0 := by
      rw [h]
      exact one_ne_zero
    rw [if_pos hflip, if_neg hne, hsym]

theorem probit_row_term_neg (cdf : ℝ → ℝ → ℝ) (d : gsl_matrix ℝ) (eta : ℝ) (i : Nat)
    (hpos : ∀ x, 0 < cdf x 1) (hlt : ∀ x, cdf x 1 < 1) :
    probit_row_term Real.log cdf d eta i < 0 := by
  unfold probit_row_term
  split
  · exact Real.log_neg (hpos eta) (hlt eta)
  · exact Real.log_neg (by linarith [hlt eta]) (by linarith [hpos eta])

/-! ## The arithmetic of doubles -/

theorem floor_log2_fuel_spec (fuel n : Nat) (h : n ≤ fuel) (hn : 1 ≤ n) :
    2 ^ floor_log2_fuel fuel n ≤ n ∧ n < 2 ^ (floor_log2_fuel fuel n + 1) := by
  induction fuel generalizing n with
  | zero => omega
  | succ fuel ih =>
    unfold floor_log2_fuel
    by_cases h2 : n < 2
    · have h1 : n = 1 := by omega
      simp [h1]
    · rw [if_neg h2]
      obtain ⟨hlo, hhi⟩ := ih (n / 2) (by omega) (by omega)
      rw [pow_succ] at hhi ⊢
      rw [pow_succ]
      constructor <;> omega

theorem floor_log2_spec (n : Nat) (hn : 1 ≤ n) :
    2 ^ floor_log2 n ≤ n ∧ n < 2 ^ (floor_log2 n + 1) :=
  floor_log2_fuel_spec n n (le_refl n) hn

theorem round_half_even_exact (n q : Nat) (hq : 0 < q) : round_half_even (n * q) q = n := by
  unfold round_half_even
  simp [Nat.mul_div_cancel _ hq, hq]

theorem round_half_even_near (p q : Nat) (hq : 0 < q) :
    2 * (round_half_even p q * q) ≤ 2 * p + q ∧ 2 * p ≤ 2 * (round_half_even p q * q) + q := by
  have hdiv : p = p / q * q + p % q := by
    rw [Nat.mul_comm]
    exact (Nat.div_add_mod p q).symm
  have hmod := Nat.mod_lt p hq
  unfold round_half_even
  simp only []
  generalize p / q = n at hdiv ⊢
  generalize p % q = r at hdiv hmod ⊢
  subst hdiv
  split_ifs <;> constructor <;> linarith

theorem double_tenth :
    double.of_quotient 1 10 = double.finite false (3602879701896397 * 2 ^ 1019) := by
  decide!

theorem double_tenth_plus_fifth :
    double.of_quotient 1 10 + double.of_quotient 2 10
      = double.finite false (5404319552844596 * 2 ^ 1020) := by
  decide!

theorem double_third :
    (1 : double) / ((3 : Nat) : double) = double.finite false (6004799503160661 * 2 ^ 1020) := by
  decide!

theorem double_overflow :
    double.finite false ((2 ^ 53 - 1) * 2 ^ 2045) + double.finite false (2 ^ 2044)
      = double.infinity false := by
  decide!

theorem double_largest :
    double.finite false ((2 ^ 53 - 1) * 2 ^ 2045) + double.finite false (2 ^ 2043)
      = double.finite false ((2 ^ 53 - 1) * 2 ^ 2045) := by
  decide!

theorem double_underflow :
    double.finite false 1 / ((2 : Nat) : double) = double.finite false 0
      ∧ double.finite false 3 / ((2 : Nat) : double) = double.finite false 2 := by
  decide!

/-! ## The claims -/

/-- C1: for every data matrix whose grand total is non-zero, the parameter
that `exponential_rank_estimate` produces is the sum over the columns `k`
(from zero) of `k` times the sum of column `k`, divided by the sum of all
cells. -/
theorem C1_exponential_rank_estimate_weighted_mean_rank {α κ π : Type} [Field α]
    (log : α → α) (var_covar : gsl_vector α → gsl_matrix α → κ) (data : gsl_matrix α)
    (uses : apop_inventory) (parameters : π)
    (_h : ∑ k in Finset.range data.size2, ∑ i in Finset.range data.size1,
      gsl_matrix_get data i k ≠ 0) :
    gsl_vector_get (exponential_rank_estimate log var_covar data uses parameters).1.parameters 0
      = (∑ k in Finset.range data.size2,
          (k : α) * ∑ i in Finset.range data.size1, gsl_matrix_get data i k)
        / (∑ k in Finset.range data.size2, ∑ i in Finset.range data.size1,
          gsl_matrix_get data i k) := by
  rw [exponential_rank_estimate_parameter, exponential_rank_estimate_loop_eq]
  rfl

/-- C1 at the spec's example: column sums 10, 5, 2 give 9/17. -/
theorem C1_exponential_rank_estimate_weighted_mean_rank_witness :
    (∑ k in Finset.range (rank_data_10_5_2 ℚ).size2,
        ∑ i in Finset.range (rank_data_10_5_2 ℚ).size1,
          gsl_matrix_get (rank_data_10_5_2 ℚ) i k) = 17
    ∧ gsl_vector_get (exponential_rank_estimate (fun x : ℚ => x) (fun _ _ => ())
        (rank_data_10_5_2 ℚ) inventory_all ()).1.parameters 0 = 9 / 17 := by
  have hT : (∑ k in Finset.range (rank_data_10_5_2 ℚ).size2,
      ∑ i in Finset.range (rank_data_10_5_2 ℚ).size1,
        gsl_matrix_get (rank_data_10_5_2 ℚ) i k) = 17 := by
    simp [rank_data_10_5_2, matrix_of_rows, gsl_matrix_get, Finset.sum_range_succ]
    norm_num
  refine ⟨hT, ?_⟩
  rw [C1_exponential_rank_estimate_weighted_mean_rank (fun x : ℚ => x) (fun _ _ => ())
    (rank_data_10_5_2 ℚ) inventory_all () (by rw [hT]; norm_num), hT]
  simp [rank_data_10_5_2, matrix_of_rows, gsl_matrix_get, Finset.sum_range_succ]
  norm_num

/-- C2: the closed-form estimate is the most likely parameter.  For every data
matrix with non-negative cells, positive grand total and positive
weighted-mean rank, the log-likelihood at the parameter returned by
`exponential_rank_estimate` is at least the log-likelihood at every
`mu > 0`, over the reals. -/
theorem C2_exponential_rank_estimate_maximises_log_likelihood {κ π : Type}
    (var_covar : gsl_vector ℝ → gsl_matrix ℝ → κ) (data : gsl_matrix ℝ)
    (uses : apop_inventory) (parameters : π) (beta : gsl_vector ℝ)
    (_hcells : ∀ i, i < data.size1 → ∀ k, k < data.size2 → 0 ≤ gsl_matrix_get data i k)
    (htotal : 0 < ∑ k in Finset.range data.size2, ∑ i in Finset.range data.size1,
      gsl_matrix_get data i k)
    (hrank : 0 < (∑ k in Finset.range data.size2,
        (k : ℝ) * ∑ i in Finset.range data.size1, gsl_matrix_get data i k)
      / (∑ k in Finset.range data.size2, ∑ i in Finset.range data.size1,
        gsl_matrix_get data i k))
    (hmu : 0 < gsl_vector_get beta 0) :
    rank_exponential_log_likelihood Real.log beta data
      ≤ rank_exponential_log_likelihood Real.log
          (exponential_rank_estimate Real.log var_covar data uses parameters).1.parameters
          data := by
  have hT : 0 < grand_total data := htotal
  have hm : 0 < rank_total data / grand_total data := hrank
  have hb : 0 < beta.data 0 := hmu
  rw [rank_exponential_log_likelihood_closed, rank_exponential_log_likelihood_closed,
    exponential_rank_estimate_parameter_closed]
  set T := grand_total data with hTdef
  set m := rank_total data / T with hmdef
  have hN : rank_total data = m * T := by
    rw [hmdef]; field_simp
  rw [hN]
  have hlog : Real.log (m / beta.data 0) ≤ m / beta.data 0 - 1 :=
    Real.log_le_sub_one_of_pos (div_pos hm hb)
  rw [Real.log_div (ne_of_gt hm) (ne_of_gt hb)] at hlog
  have h1 : m * T / m = T := by field_simp
  have h2 : m * T / beta.data 0 = T * (m / beta.data 0) := by ring
  rw [h1, h2]
  nlinarith [mul_le_mul_of_nonneg_left hlog hT.le]

/-- C2 on the data with column sums 10, 5, 2: the log-likelihood at the
estimate is at least the log-likelihood at `mu = 1`. -/
theorem C2_exponential_rank_estimate_maximises_log_likelihood_witness :
    rank_exponential_log_likelihood Real.log (vector_of_list [1]) (rank_data_10_5_2 ℝ)
      ≤ rank_exponential_log_likelihood Real.log
          (exponential_rank_estimate Real.log (fun _ _ => ()) (rank_data_10_5_2 ℝ)
            inventory_all ()).1.parameters
          (rank_data_10_5_2 ℝ) := by
  have hT : (∑ k in Finset.range (rank_data_10_5_2 ℝ).size2,
      ∑ i in Finset.range (rank_data_10_5_2 ℝ).size1,
        gsl_matrix_get (rank_data_10_5_2 ℝ) i k) = 17 := by
    simp [rank_data_10_5_2, matrix_of_rows, gsl_matrix_get, Finset.sum_range_succ]
    norm_num
  have hN : (∑ k in Finset.range (rank_data_10_5_2 ℝ).size2,
      (k : ℝ) * ∑ i in Finset.range (rank_data_10_5_2 ℝ).size1,
        gsl_matrix_get (rank_data_10_5_2 ℝ) i k) = 9 := by
    simp [rank_data_10_5_2, matrix_of_rows, gsl_matrix_get, Finset.sum_range_succ]
    norm_num
  refine C2_exponential_rank_estimate_maximises_log_likelihood (fun _ _ => ())
    (rank_data_10_5_2 ℝ) inventory_all () (vector_of_list [1]) ?_ ?_ ?_ ?_
  · intro i hi k hk
    have hi2 : i < 2 := hi
    have hk3 : k < 3 := hk
    interval_cases i <;> interval_cases k <;>
      simp [rank_data_10_5_2, matrix_of_rows, gsl_matrix_get]
  · rw [hT]; norm_num
  · rw [hT, hN]; norm_num
  · simp [gsl_vector_get, vector_of_list]

/-- C3: for every data matrix and every `mu > 0`,
`rank_exponential_log_likelihood` returns the sum over the columns `k` (from
zero) and the rows `i` of `data[i,k] * (-ln mu - k / mu)`, over the reals. -/
theorem C3_rank_exponential_log_likelihood_formula (beta : gsl_vector ℝ)
    (data : gsl_matrix ℝ) (_hmu : 0 < gsl_vector_get beta 0) :
    rank_exponential_log_likelihood Real.log beta data
      = ∑ k in Finset.range data.size2, ∑ i in Finset.range data.size1,
          gsl_matrix_get data i k
            * (-Real.log (gsl_vector_get beta 0) - (k : ℝ) / gsl_vector_get beta 0) :=
  rank_exponential_log_likelihood_eq Real.log beta data

/-- C3 at `mu = 1` on the data with column sums 10, 5, 2: the log-likelihood
is `-(0 * 10 + 1 * 5 + 2 * 2) = -9`. -/
theorem C3_rank_exponential_log_likelihood_formula_witness :
    0 < gsl_vector_get (vector_of_list [(1 : ℝ)]) 0
    ∧ rank_exponential_log_likelihood Real.log (vector_of_list [1]) (rank_data_10_5_2 ℝ)
        = -9 := by
  have h1 : 0 < gsl_vector_get (vector_of_list [(1 : ℝ)]) 0 := by
    simp [gsl_vector_get, vector_of_list]
  refine ⟨h1, ?_⟩
  rw [C3_rank_exponential_log_likelihood_formula (vector_of_list [1]) (rank_data_10_5_2 ℝ) h1]
  simp [rank_data_10_5_2, matrix_of_rows, vector_of_list, gsl_matrix_get, gsl_vector_get,
    Finset.sum_range_succ]
  norm_num

/-- C4, at the parameter `mu = 2` and the one-cell data `[[1]]`: the
log-likelihood has derivative `-1/2` there, which is also the value of the
claimed sum `data[i,k] * (-1/mu + k/mu^2)`, while the gradient component
written by `rank_exponential_dlog_likelihood` is `(1 / ln 2 - 1) / 2`, a
strictly positive number. -/
theorem C4_rank_exponential_dlog_likelihood_is_not_the_derivative :
    HasDerivAt
        (fun mu : ℝ => rank_exponential_log_likelihood Real.log (vector_of_list [mu])
          (rank_data_single ℝ))
        (-1 / 2) 2
    ∧ (∑ k in Finset.range (rank_data_single ℝ).size2,
        ∑ i in Finset.range (rank_data_single ℝ).size1,
          gsl_matrix_get (rank_data_single ℝ) i k * (-1 / 2 + (k : ℝ) / 2 ^ 2)) = -1 / 2
    ∧ gsl_vector_get
        (rank_exponential_dlog_likelihood Real.log (vector_of_list [2]) (rank_data_single ℝ)
          (vector_of_list [0])) 0 = (1 / Real.log 2 - 1) / 2
    ∧ 0 < gsl_vector_get
        (rank_exponential_dlog_likelihood Real.log (vector_of_list [2]) (rank_data_single ℝ)
          (vector_of_list [0])) 0 := by
  have hgrad : gsl_vector_get
      (rank_exponential_dlog_likelihood Real.log (vector_of_list [2]) (rank_data_single ℝ)
        (vector_of_list [0])) 0 = (1 / Real.log 2 - 1) / 2 := by
    unfold gsl_vector_get
    rw [rank_exponential_dlog_likelihood_eq]
    simp [rank_data_single, matrix_of_rows, vector_of_list]
  refine ⟨?_, ?_, hgrad, ?_⟩
  · have hfun : (fun mu : ℝ => rank_exponential_log_likelihood Real.log (vector_of_list [mu])
        (rank_data_single ℝ)) = fun mu : ℝ => -Real.log mu := by
      funext mu
      rw [rank_exponential_log_likelihood_eq]
      simp [rank_data_single, matrix_of_rows, vector_of_list]
    rw [hfun]
    have h := (Real.hasDerivAt_log (two_ne_zero : (2 : ℝ) ≠ 0)).neg
    convert h using 1
    norm_num
  · simp [rank_data_single, matrix_of_rows, gsl_matrix_get]
  · rw [hgrad]
    have hlog_pos : 0 < Real.log 2 := Real.log_pos (by norm_num)
    have hlog_lt : Real.log 2 < 1 := by
      have := Real.log_two_lt_d9
      linarith
    have : 1 < 1 / Real.log 2 := by
      rw [lt_div_iff₀ hlog_pos]
      linarith
    linarith

/-- C5, as stated, fails on the data `[[0]]` of one column with the `beta` of
length zero: `dot` asks `gsl_matrix_submatrix` for the view that starts at
column 1, the GSL rejects the column index, and `probit_log_likelihood`
returns no value, so not the sum over the rows (which is `log (Phi 0)`). -/
theorem C5_probit_log_likelihood_one_column_aborts :
    1 ≤ (probit_data_one_column ℚ).size2
      ∧ (probit_beta_empty ℚ).size = (probit_data_one_column ℚ).size2 - 1
      ∧ probit_log_likelihood (fun x : ℚ => x) (fun x _ => x / 10) (probit_beta_empty ℚ)
          (probit_data_one_column ℚ) (probit_cache_empty ℚ) = none
      ∧ Option.map Prod.fst
          (probit_log_likelihood (fun x : ℚ => x) (fun x _ => x / 10) (probit_beta_empty ℚ)
            (probit_data_one_column ℚ) (probit_cache_empty ℚ))
        ≠ some (∑ i in Finset.range (probit_data_one_column ℚ).size1,
            if gsl_matrix_get (probit_data_one_column ℚ) i 0 = 0 then
              (fun x : ℚ => x) ((fun (x : ℚ) (_ : ℚ) => x / 10)
                (linear_predictor (probit_beta_empty ℚ) (probit_data_one_column ℚ) i) 1)
            else
              (fun x : ℚ => x) (1 - (fun (x : ℚ) (_ : ℚ) => x / 10)
                (linear_predictor (probit_beta_empty ℚ) (probit_data_one_column ℚ) i) 1)) := by
  have hnone : probit_log_likelihood (fun x : ℚ => x) (fun x _ => x / 10) (probit_beta_empty ℚ)
      (probit_data_one_column ℚ) (probit_cache_empty ℚ) = none :=
    probit_log_likelihood_eq_none _ _ _ _ _ (by
      simp [shapes_conform, probit_beta_empty, vector_of_list])
  refine ⟨by decide, by decide, hnone, ?_⟩
  rw [hnone]
  simp

/-- C5, amended: for every data matrix with at least one row and at least two
columns and every `beta` of length columns minus one, from every cache state,
`probit_log_likelihood` returns the sum over the rows `i` of `log (Phi eta_i)`
when `data[i,0] == 0` and of `log (1 - Phi eta_i)` otherwise, where `Phi x` is
`gsl_cdf_gaussian_P(x, 1)` and `eta_i` the linear predictor of row `i`. -/
theorem C5_probit_log_likelihood_formula {α : Type} [Field α] [DecidableEq α]
    (log : α → α) (gsl_cdf_gaussian_P : α → α → α) (beta : gsl_vector α)
    (data : gsl_matrix α) (s : probit_cache α)
    (hrows : 1 ≤ data.size1) (hcol : 2 ≤ data.size2) (hlen : beta.size = data.size2 - 1) :
    Option.map Prod.fst (probit_log_likelihood log gsl_cdf_gaussian_P beta data s)
      = some (∑ i in Finset.range data.size1,
          if gsl_matrix_get data i 0 = 0 then
            log (gsl_cdf_gaussian_P (linear_predictor beta data i) 1)
          else
            log (1 - gsl_cdf_gaussian_P (linear_predictor beta data i) 1)) := by
  rw [probit_log_likelihood_eq_some log gsl_cdf_gaussian_P beta data s
    ⟨by omega, by omega, by omega⟩]
  rfl

/-- C5, amended, on `probit_data` with `beta = (1, 1)`, the identity standing
for `log` and `x / 10` for the normal CDF: the predictors are 3 and 7 and the
value is `3/10 + (1 - 7/10)`. -/
theorem C5_probit_log_likelihood_formula_witness :
    Option.map Prod.fst
        (probit_log_likelihood (fun x : ℚ => x) (fun x _ => x / 10) (probit_beta ℚ)
          (probit_data ℚ) (probit_cache_stale ℚ))
      = some (3 / 5) := by
  rw [C5_probit_log_likelihood_formula (fun x : ℚ => x) (fun x _ => x / 10) (probit_beta ℚ)
    (probit_data ℚ) (probit_cache_stale ℚ) (by decide) (by decide) (by decide)]
  simp [probit_data, probit_beta, matrix_of_rows, vector_of_list, gsl_matrix_get,
    linear_predictor, Finset.sum_range_succ]
  norm_num

/-- C6: for every data matrix of at least one row and every `beta` of length
columns minus one (the shapes on which the GSL calls of `dot` return), from
every cache state with `beta_dot_x_is_current = 0`, component `j` of the
gradient written by `probit_dlog_likelihood` is the sum over the rows `i` of
`data[i,j+1] * phi eta_i / Phi eta_i` when `data[i,0] == 0` and of
`data[i,j+1] * phi eta_i / (Phi eta_i - 1)` otherwise, where `phi x` is
`gsl_ran_gaussian_pdf(x, 1)`, `Phi x` is `gsl_cdf_gaussian_P(x, 1)` and
`eta_i` the linear predictor of row `i`. -/
theorem C6_probit_dlog_likelihood_formula {α : Type} [Field α] [DecidableEq α]
    (gsl_ran_gaussian_pdf gsl_cdf_gaussian_P : α → α → α) (beta : gsl_vector α)
    (data : gsl_matrix α) (gradient : gsl_vector α) (s : probit_cache α) (j : Nat)
    (hrows : 1 ≤ data.size1) (hlen : beta.size + 1 = data.size2)
    (hflag : s.beta_dot_x_is_current = false) (hj : j < beta.size) :
    Option.map (fun r => gsl_vector_get r.1 j)
        (probit_dlog_likelihood gsl_ran_gaussian_pdf gsl_cdf_gaussian_P beta data gradient s)
      = some (∑ i in Finset.range data.size1,
          if gsl_matrix_get data i 0 = 0 then
            gsl_matrix_get data i (j + 1)
              * gsl_ran_gaussian_pdf (linear_predictor beta data i) 1
              / gsl_cdf_gaussian_P (linear_predictor beta data i) 1
          else
            gsl_matrix_get data i (j + 1)
              * gsl_ran_gaussian_pdf (linear_predictor beta data i) 1
              / (gsl_cdf_gaussian_P (linear_predictor beta data i) 1 - 1)) := by
  rw [probit_dlog_likelihood_eq_some gsl_ran_gaussian_pdf gsl_cdf_gaussian_P beta data
    gradient s ⟨hrows, by omega, hlen⟩ hflag]
  simp only [Option.map_some', probit_gradient, gsl_vector_get, if_pos hj]
  rfl

/-- C6 on `probit_data` with `beta = (1, 1)`, `x` standing for the normal
density and `x / 10` for the normal CDF: component 0 of the gradient is
`1 * 3 / (3/10) + 3 * 7 / (7/10 - 1) = -60`. -/
theorem C6_probit_dlog_likelihood_formula_witness :
    Option.map (fun r => gsl_vector_get r.1 0)
        (probit_dlog_likelihood (fun x _ => x) (fun x _ => x / 10) (probit_beta ℚ)
          (probit_data ℚ) (vector_of_list [0, 0]) (probit_cache_stale ℚ))
      = some (-60) := by
  rw [C6_probit_dlog_likelihood_formula (fun x _ => x) (fun x _ => x / 10) (probit_beta ℚ)
    (probit_data ℚ) (vector_of_list [0, 0]) (probit_cache_stale ℚ) 0 (by decide) (by decide)
    rfl (by decide)]
  simp [probit_data, probit_beta, matrix_of_rows, vector_of_list, gsl_matrix_get,
    linear_predictor, Finset.sum_range_succ]
  norm_num

/-- C7: the probit gradient is the derivative of the probit log-likelihood.
For every data matrix of at least one row and every `beta` of length columns
minus one (the shapes on which the GSL calls of `dot` return), with
`Phi x = gsl_cdf_gaussian_P(x, 1)` differentiable with derivative
`phi x = gsl_ran_gaussian_pdf(x, 1)` and `0 < Phi < 1`, the value of
`probit_log_likelihood` as a function `f` of the `j`-th parameter has at
`beta_j` the derivative that `probit_dlog_likelihood` writes in component `j`
of the gradient. -/
theorem C7_probit_gradient_is_the_derivative
    (gsl_ran_gaussian_pdf gsl_cdf_gaussian_P : ℝ → ℝ → ℝ) (beta : gsl_vector ℝ)
    (data : gsl_matrix ℝ) (gradient : gsl_vector ℝ) (s s1 : probit_cache ℝ) (j : Nat)
    (hrows : 1 ≤ data.size1) (hlen : beta.size + 1 = data.size2)
    (hflag : s.beta_dot_x_is_current = false) (hj : j < beta.size)
    (hderiv : ∀ x, HasDerivAt (fun x => gsl_cdf_gaussian_P x 1) (gsl_ran_gaussian_pdf x 1) x)
    (hpos : ∀ x, 0 < gsl_cdf_gaussian_P x 1) (hlt : ∀ x, gsl_cdf_gaussian_P x 1 < 1) :
    ∃ (f : ℝ → ℝ) (g : gsl_vector ℝ),
      (∀ t, Option.map Prod.fst
          (probit_log_likelihood Real.log gsl_cdf_gaussian_P (gsl_vector_set beta j t) data s1)
        = some (f t))
      ∧ Option.map Prod.fst
          (probit_dlog_likelihood gsl_ran_gaussian_pdf gsl_cdf_gaussian_P beta data gradient s)
        = some g
      ∧ HasDerivAt f (gsl_vector_get g j) (gsl_vector_get beta j) := by
  refine ⟨fun t => ∑ i in Finset.range data.size1,
      probit_row_term Real.log gsl_cdf_gaussian_P data
        (linear_predictor (gsl_vector_set beta j t) data i) i,
    probit_gradient gsl_ran_gaussian_pdf gsl_cdf_gaussian_P beta data gradient, ?_, ?_, ?_⟩
  · intro t
    rw [probit_log_likelihood_eq_some Real.log gsl_cdf_gaussian_P (gsl_vector_set beta j t)
      data s1 ⟨hrows, by simp only [gsl_vector_set]; omega, hlen⟩]
    rfl
  · rw [probit_dlog_likelihood_eq_some gsl_ran_gaussian_pdf gsl_cdf_gaussian_P beta data
      gradient s ⟨hrows, by omega, hlen⟩ hflag]
    rfl
  · have hj2 : j < data.size2 - 1 := by omega
    have hsum := HasDerivAt.sum (u := Finset.range data.size1) fun i _ =>
      probit_row_term_hasDerivAt gsl_ran_gaussian_pdf gsl_cdf_gaussian_P beta data j i hj2
        hderiv hpos hlt
    simpa [probit_gradient, gsl_vector_get, hj] using hsum

/-- C7 on `probit_data` with `beta = (1, 1)` and component 0, the logistic
function `1 / (1 + exp (-x))` standing for the normal CDF and its derivative
for the normal density. -/
theorem C7_probit_gradient_is_the_derivative_witness :
    ∃ (f : ℝ → ℝ) (g : gsl_vector ℝ),
      (∀ t, Option.map Prod.fst
          (probit_log_likelihood Real.log (fun x _ => 1 / (1 + Real.exp (-x)))
            (gsl_vector_set (probit_beta ℝ) 0 t) (probit_data ℝ) (probit_cache_empty ℝ))
        = some (f t))
      ∧ Option.map Prod.fst
          (probit_dlog_likelihood (fun x _ => Real.exp (-x) / (1 + Real.exp (-x)) ^ 2)
            (fun x _ => 1 / (1 + Real.exp (-x))) (probit_beta ℝ) (probit_data ℝ)
            (vector_of_list [0, 0]) (probit_cache_stale ℝ))
        = some g
      ∧ HasDerivAt f (gsl_vector_get g 0) (gsl_vector_get (probit_beta ℝ) 0) :=
  C7_probit_gradient_is_the_derivative (fun x _ => Real.exp (-x) / (1 + Real.exp (-x)) ^ 2)
    (fun x _ => 1 / (1 + Real.exp (-x))) (probit_beta ℝ) (probit_data ℝ)
    (vector_of_list [0, 0]) (probit_cache_stale ℝ) (probit_cache_empty ℝ) 0
    (by simp [probit_data, matrix_of_rows])
    (by simp [probit_beta, probit_data, vector_of_list, matrix_of_rows]) rfl
    (by simp [probit_beta, vector_of_list])
    logistic_hasDerivAt logistic_pos logistic_lt_one

/-- C8: for every data matrix and `beta`, from every cache state with
`beta_dot_x_is_current = 0`, `probit_fdf` yields exactly the pair of the
independent calls: its `f` is the value of `probit_log_likelihood` and its
`df` the gradient written by `probit_dlog_likelihood` (each started from any
cache state with the flag down), and it aborts exactly when they do; when the
shapes conform (at least one row, and `beta` of at least one cell and of
columns minus one cells) it does return the pair. -/
theorem C8_probit_fdf_is_the_pair_of_independent_calls {α : Type} [Field α]
    [DecidableEq α] (log : α → α) (gsl_ran_gaussian_pdf gsl_cdf_gaussian_P : α → α → α)
    (beta : gsl_vector α) (data : gsl_matrix α) (df : gsl_vector α)
    (s s1 s2 : probit_cache α) (_hs : s.beta_dot_x_is_current = false)
    (_hs1 : s1.beta_dot_x_is_current = false) (hs2 : s2.beta_dot_x_is_current = false) :
    Option.map (fun r => (r.1, r.2.1))
        (probit_fdf log gsl_ran_gaussian_pdf gsl_cdf_gaussian_P beta data df s)
      = (probit_log_likelihood log gsl_cdf_gaussian_P beta data s1).bind
          (fun r1 =>
            (probit_dlog_likelihood gsl_ran_gaussian_pdf gsl_cdf_gaussian_P beta data df
              s2).map (fun r2 => (r1.1, r2.1)))
    ∧ (shapes_conform beta data →
        (probit_fdf log gsl_ran_gaussian_pdf gsl_cdf_gaussian_P beta data df s).isSome
          = true) := by
  by_cases h : shapes_conform beta data
  · rw [probit_fdf_eq_some log _ _ beta data df s h,
      probit_log_likelihood_eq_some log _ beta data s1 h,
      probit_dlog_likelihood_eq_some _ _ beta data df s2 h hs2]
    exact ⟨rfl, fun _ => rfl⟩
  · rw [probit_fdf_eq_none log _ _ beta data df s h,
      probit_log_likelihood_eq_none log _ beta data s1 h]
    exact ⟨rfl, fun h2 => absurd h2 h⟩

/-- C8 on `probit_data` with `beta = (1, 1)`: `probit_fdf` started from a
stale cache returns a pair, the one of the two calls started from the empty
cache. -/
theorem C8_probit_fdf_is_the_pair_of_independent_calls_witness :
    Option.map (fun r => (r.1, r.2.1))
        (probit_fdf (fun x : ℚ => x) (fun x _ => x) (fun x _ => x / 10) (probit_beta ℚ)
          (probit_data ℚ) (vector_of_list [0, 0]) (probit_cache_stale ℚ))
      = (probit_log_likelihood (fun x : ℚ => x) (fun x _ => x / 10) (probit_beta ℚ)
          (probit_data ℚ) (probit_cache_empty ℚ)).bind
          (fun r1 =>
            (probit_dlog_likelihood (fun x _ => x) (fun x _ => x / 10) (probit_beta ℚ)
              (probit_data ℚ) (vector_of_list [0, 0]) (probit_cache_empty ℚ)).map
              (fun r2 => (r1.1, r2.1)))
    ∧ (probit_fdf (fun x : ℚ => x) (fun x _ => x) (fun x _ => x / 10) (probit_beta ℚ)
          (probit_data ℚ) (vector_of_list [0, 0]) (probit_cache_stale ℚ)).isSome = true :=
  ⟨(C8_probit_fdf_is_the_pair_of_independent_calls (fun x : ℚ => x) (fun x _ => x)
      (fun x _ => x / 10) (probit_beta ℚ) (probit_data ℚ) (vector_of_list [0, 0])
      (probit_cache_stale ℚ) (probit_cache_empty ℚ) (probit_cache_empty ℚ) rfl rfl rfl).1,
    (C8_probit_fdf_is_the_pair_of_independent_calls (fun x : ℚ => x) (fun x _ => x)
      (fun x _ => x / 10) (probit_beta ℚ) (probit_data ℚ) (vector_of_list [0, 0])
      (probit_cache_stale ℚ) (probit_cache_empty ℚ) (probit_cache_empty ℚ) rfl rfl rfl).2
      ⟨by decide, by decide, by decide⟩⟩

/-- C9: for every feasible parameter (`mu > 0`),
`beta_greater_than_x_constraint` returns exactly zero penalty and leaves both
`beta` and `returned_beta` as they were. -/
theorem C9_constraint_feasible_zero_penalty_unchanged {α : Type} [LinearOrderedField α]
    (beta returned_beta : gsl_vector α) (hmu : 0 < gsl_vector_get beta 0) :
    (beta_greater_than_x_constraint beta returned_beta).penalty = 0
    ∧ (beta_greater_than_x_constraint beta returned_beta).beta = beta
    ∧ (beta_greater_than_x_constraint beta returned_beta).returned_beta = returned_beta := by
  unfold beta_greater_than_x_constraint
  simp only [gt_iff_lt, if_pos hmu, and_self]

/-- C9 at `mu = 3`, with `returned_beta` holding 7. -/
theorem C9_constraint_feasible_zero_penalty_unchanged_witness :
    (beta_greater_than_x_constraint (vector_of_list [(3 : ℚ)]) (vector_of_list [7])).penalty = 0
    ∧ (beta_greater_than_x_constraint (vector_of_list [(3 : ℚ)]) (vector_of_list [7])).beta
        = vector_of_list [3]
    ∧ (beta_greater_than_x_constraint (vector_of_list [(3 : ℚ)])
        (vector_of_list [7])).returned_beta = vector_of_list [7] :=
  C9_constraint_feasible_zero_penalty_unchanged (vector_of_list [(3 : ℚ)]) (vector_of_list [7])
    (by simp [gsl_vector_get, vector_of_list])

/-- C10, as stated, fails at `mu = 0`: the parameter is infeasible and the
penalty that `beta_greater_than_x_constraint` returns is zero, not strictly
positive. -/
theorem C10_constraint_zero_penalty_at_zero :
    gsl_vector_get (vector_of_list [(0 : ℚ)]) 0 ≤ 0
    ∧ ¬ 0 < (beta_greater_than_x_constraint (vector_of_list [(0 : ℚ)])
        (vector_of_list [7])).penalty := by
  simp [beta_greater_than_x_constraint, gsl_vector_get, vector_of_list]

/-- C10, amended: for every strictly negative `mu`,
`beta_greater_than_x_constraint` returns a strictly positive penalty, and at
`mu = 0` it returns zero; so a zero penalty is returned exactly when `mu` is
non-negative. -/
theorem C10_constraint_penalty_positive_below_zero {α : Type} [LinearOrderedField α]
    (beta returned_beta : gsl_vector α) :
    (gsl_vector_get beta 0 < 0 →
      0 < (beta_greater_than_x_constraint beta returned_beta).penalty)
    ∧ ((beta_greater_than_x_constraint beta returned_beta).penalty = 0
        ↔ 0 ≤ gsl_vector_get beta 0) := by
  by_cases hmu : 0 < gsl_vector_get beta 0
  · have hpen : (beta_greater_than_x_constraint beta returned_beta).penalty = 0 := by
      unfold beta_greater_than_x_constraint
      simp only [gt_iff_lt, if_pos hmu]
    rw [hpen]
    exact ⟨fun h => absurd h (not_lt.mpr hmu.le), fun _ => hmu.le, fun _ => rfl⟩
  · have hpen : (beta_greater_than_x_constraint beta returned_beta).penalty
        = -gsl_vector_get beta 0 := by
      unfold beta_greater_than_x_constraint
      simp only [gt_iff_lt, if_neg hmu, zero_sub]
    rw [hpen]
    have hle : gsl_vector_get beta 0 ≤ 0 := not_lt.mp hmu
    exact ⟨fun h => neg_pos.mpr h, fun h => (neg_eq_zero.mp h).ge,
      fun h => neg_eq_zero.mpr (le_antisymm hle h)⟩

/-- C10, amended, at `mu = -2`: the penalty is 2. -/
theorem C10_constraint_penalty_positive_below_zero_witness :
    gsl_vector_get (vector_of_list [(-2 : ℚ)]) 0 < 0
    ∧ 0 < (beta_greater_than_x_constraint (vector_of_list [(-2 : ℚ)])
        (vector_of_list [7])).penalty := by
  have h : gsl_vector_get (vector_of_list [(-2 : ℚ)]) 0 < 0 := by
    simp [gsl_vector_get, vector_of_list]
  exact ⟨h, (C10_constraint_penalty_positive_below_zero (vector_of_list [(-2 : ℚ)])
    (vector_of_list [7])).1 h⟩

/-- C11: for every `mu <= 0`, the substitute that
`beta_greater_than_x_constraint` writes to `returned_beta` is feasible: cell 0
of `returned_beta` after the call is `0 + 1e10 * GSL_DBL_EPSILON`, which is
strictly positive (the model's constraint `mu > 0`), and
`beta_greater_than_x_constraint` applied to the substitute returns zero
penalty and writes no further substitute. -/
theorem C11_constraint_substitute_is_feasible {α : Type} [LinearOrderedField α]
    (beta returned_beta returned_beta2 : gsl_vector α) (hmu : gsl_vector_get beta 0 ≤ 0) :
    gsl_vector_get (beta_greater_than_x_constraint beta returned_beta).returned_beta 0
        = 0 + 10 ^ 10 * GSL_DBL_EPSILON
      ∧ 0 < gsl_vector_get (beta_greater_than_x_constraint beta returned_beta).returned_beta 0
      ∧ (beta_greater_than_x_constraint
          (beta_greater_than_x_constraint beta returned_beta).returned_beta
          returned_beta2).penalty = 0
      ∧ (beta_greater_than_x_constraint
          (beta_greater_than_x_constraint beta returned_beta).returned_beta
          returned_beta2).returned_beta = returned_beta2 := by
  rw [beta_greater_than_x_constraint_infeasible beta returned_beta hmu]
  have hpos : 0 < gsl_vector_get
      (gsl_vector_set returned_beta 0 ((0 : α) + 10 ^ 10 * GSL_DBL_EPSILON)) 0 := by
    rw [gsl_vector_get_set_same, zero_add]
    exact tolerance_pos
  refine ⟨gsl_vector_get_set_same _ _ _, hpos, ?_, ?_⟩
  · rw [beta_greater_than_x_constraint_feasible _ _ hpos]
  · rw [beta_greater_than_x_constraint_feasible _ _ hpos]

/-- C11 at `mu = -2`, with `returned_beta` holding 7 before the call: the
substitute is `22204460492503131 / 10^22`, about `2.2e-6`, and the constraint
applied to it returns the penalty 0 and leaves the 7 of its own
`returned_beta`. -/
theorem C11_constraint_substitute_is_feasible_witness :
    gsl_vector_get (beta_greater_than_x_constraint (vector_of_list [(-2 : ℚ)])
        (vector_of_list [7])).returned_beta 0 = 22204460492503131 / 10 ^ 22
      ∧ (beta_greater_than_x_constraint
          (beta_greater_than_x_constraint (vector_of_list [(-2 : ℚ)])
            (vector_of_list [7])).returned_beta
          (vector_of_list [7])).penalty = 0
      ∧ gsl_vector_get (beta_greater_than_x_constraint
          (beta_greater_than_x_constraint (vector_of_list [(-2 : ℚ)])
            (vector_of_list [7])).returned_beta
          (vector_of_list [7])).returned_beta 0 = 7 := by
  have h := C11_constraint_substitute_is_feasible (vector_of_list [(-2 : ℚ)])
    (vector_of_list [7]) (vector_of_list [7]) (by simp [gsl_vector_get, vector_of_list])
  refine ⟨?_, h.2.2.1, ?_⟩
  · rw [h.1]
    norm_num [GSL_DBL_EPSILON]
  · rw [h.2.2.2]
    simp [gsl_vector_get, vector_of_list]

/-- C12: for every `mu`, the penalty that `beta_greater_than_x_constraint`
returns is `max(0, 0 - mu)`; and for every `mu <= 0` the substitute written to
`returned_beta[0]` is the tolerance `0 + 1e10 * GSL_DBL_EPSILON`, whatever
`mu` is. -/
theorem C12_constraint_penalty_and_substitute {α : Type} [LinearOrderedField α]
    (beta returned_beta : gsl_vector α) :
    (beta_greater_than_x_constraint beta returned_beta).penalty
        = max 0 (0 - gsl_vector_get beta 0)
    ∧ (gsl_vector_get beta 0 ≤ 0 →
        gsl_vector_get (beta_greater_than_x_constraint beta returned_beta).returned_beta 0
          = 0 + 10 ^ 10 * GSL_DBL_EPSILON) := by
  constructor
  · by_cases h : 0 < gsl_vector_get beta 0
    · rw [beta_greater_than_x_constraint_feasible beta returned_beta h]
      have : 0 - gsl_vector_get beta 0 ≤ 0 := by linarith
      exact (max_eq_left this).symm
    · have hle : gsl_vector_get beta 0 ≤ 0 := not_lt.mp h
      rw [beta_greater_than_x_constraint_infeasible beta returned_beta hle]
      have : 0 ≤ 0 - gsl_vector_get beta 0 := by linarith
      exact (max_eq_right this).symm
  · intro hle
    rw [beta_greater_than_x_constraint_infeasible beta returned_beta hle]
    exact gsl_vector_get_set_same _ _ _

/-- C12 at `mu = -2`: the penalty is 2 and the substitute is
`1e10 * 2.2204460492503131e-16`. -/
theorem C12_constraint_penalty_and_substitute_witness :
    (beta_greater_than_x_constraint (vector_of_list [(-2 : ℚ)])
        (vector_of_list [7])).penalty = 2
    ∧ gsl_vector_get (beta_greater_than_x_constraint (vector_of_list [(-2 : ℚ)])
        (vector_of_list [7])).returned_beta 0 = 22204460492503131 / 10 ^ 22 := by
  have h := C12_constraint_penalty_and_substitute (vector_of_list [(-2 : ℚ)])
    (vector_of_list [7])
  have hmu : gsl_vector_get (vector_of_list [(-2 : ℚ)]) 0 = -2 := by
    simp [gsl_vector_get, vector_of_list]
  rw [hmu] at h
  refine ⟨?_, ?_⟩
  · rw [h.1]
    norm_num
  · rw [h.2 (by norm_num)]
    unfold GSL_DBL_EPSILON
    norm_num

/-- C13: the penalty of `beta_greater_than_x_constraint` grows with the
distance from the feasible region: for all `mu1 < mu2 <= 0` the penalty at
`mu1` is strictly greater than the penalty at `mu2`; and the penalty is
non-negative for every `mu`. -/
theorem C13_constraint_penalty_grows {α : Type} [LinearOrderedField α]
    (beta1 beta2 returned_beta1 returned_beta2 : gsl_vector α)
    (h12 : gsl_vector_get beta1 0 < gsl_vector_get beta2 0)
    (h2 : gsl_vector_get beta2 0 ≤ 0) :
    (beta_greater_than_x_constraint beta2 returned_beta2).penalty
        < (beta_greater_than_x_constraint beta1 returned_beta1).penalty
    ∧ ∀ beta returned_beta : gsl_vector α,
        0 ≤ (beta_greater_than_x_constraint beta returned_beta).penalty := by
  constructor
  · rw [beta_greater_than_x_constraint_infeasible beta2 returned_beta2 h2,
      beta_greater_than_x_constraint_infeasible beta1 returned_beta1 (by linarith)]
    show 0 - gsl_vector_get beta2 0 < 0 - gsl_vector_get beta1 0
    linarith
  · intro beta returned_beta
    by_cases h : 0 < gsl_vector_get beta 0
    · rw [beta_greater_than_x_constraint_feasible beta returned_beta h]
    · have hle : gsl_vector_get beta 0 ≤ 0 := not_lt.mp h
      rw [beta_greater_than_x_constraint_infeasible beta returned_beta hle]
      show 0 ≤ 0 - gsl_vector_get beta 0
      linarith

/-- C13 at `mu1 = -3` and `mu2 = -2`: the penalties are 3 and 2. -/
theorem C13_constraint_penalty_grows_witness :
    (beta_greater_than_x_constraint (vector_of_list [(-2 : ℚ)]) (vector_of_list [7])).penalty
      < (beta_greater_than_x_constraint (vector_of_list [(-3 : ℚ)])
          (vector_of_list [7])).penalty :=
  (C13_constraint_penalty_grows (vector_of_list [(-3 : ℚ)]) (vector_of_list [(-2 : ℚ)])
    (vector_of_list [7]) (vector_of_list [7])
    (by simp [gsl_vector_get, vector_of_list]; norm_num)
    (by simp [gsl_vector_get, vector_of_list])).1

/-- C14: the raw log-likelihood can be safely evaluated at every point that
the constraint accepts as feasible or produces.  For every `mu > 0`, and for
the substitute that `beta_greater_than_x_constraint` writes for any
`mu <= 0`, `rank_exponential_log_likelihood` hands `log` a strictly positive
number and divides by non-zero values only: the evaluation with these domains
checked goes through and gives the value of the function. -/
theorem C14_rank_exponential_log_likelihood_safe_where_feasible {α : Type}
    [LinearOrderedField α] (log : α → α) (data : gsl_matrix α) :
    (∀ beta : gsl_vector α, 0 < gsl_vector_get beta 0 →
      rank_exponential_log_likelihood_checked log beta data
        = some (rank_exponential_log_likelihood log beta data))
    ∧ (∀ beta returned_beta : gsl_vector α, gsl_vector_get beta 0 ≤ 0 →
      rank_exponential_log_likelihood_checked log
          (beta_greater_than_x_constraint beta returned_beta).returned_beta data
        = some (rank_exponential_log_likelihood log
            (beta_greater_than_x_constraint beta returned_beta).returned_beta data)) := by
  refine ⟨fun beta h => rank_exponential_log_likelihood_checked_eq log beta data h, ?_⟩
  intro beta returned_beta hle
  apply rank_exponential_log_likelihood_checked_eq
  rw [beta_greater_than_x_constraint_infeasible beta returned_beta hle]
  rw [gsl_vector_get_set_same, zero_add]
  exact tolerance_pos

/-- C14 on the data with column sums 10, 5, 2, with the identity standing for
`log`: the checked evaluation goes through at `mu = 3` and at the substitute
written for `mu = -2`. -/
theorem C14_rank_exponential_log_likelihood_safe_where_feasible_witness :
    rank_exponential_log_likelihood_checked (fun x : ℚ => x) (vector_of_list [3])
        (rank_data_10_5_2 ℚ)
      = some (rank_exponential_log_likelihood (fun x : ℚ => x) (vector_of_list [3])
          (rank_data_10_5_2 ℚ))
    ∧ rank_exponential_log_likelihood_checked (fun x : ℚ => x)
        (beta_greater_than_x_constraint (vector_of_list [(-2 : ℚ)])
          (vector_of_list [7])).returned_beta (rank_data_10_5_2 ℚ)
      = some (rank_exponential_log_likelihood (fun x : ℚ => x)
          (beta_greater_than_x_constraint (vector_of_list [(-2 : ℚ)])
            (vector_of_list [7])).returned_beta (rank_data_10_5_2 ℚ)) :=
  ⟨(C14_rank_exponential_log_likelihood_safe_where_feasible (fun x : ℚ => x)
      (rank_data_10_5_2 ℚ)).1 (vector_of_list [3])
      (by simp [gsl_vector_get, vector_of_list]),
    (C14_rank_exponential_log_likelihood_safe_where_feasible (fun x : ℚ => x)
      (rank_data_10_5_2 ℚ)).2 (vector_of_list [(-2 : ℚ)]) (vector_of_list [7])
      (by simp [gsl_vector_get, vector_of_list])⟩

/-- C15, at the caller inventory that requests every output: the inventory
stored in the estimate that `exponential_rank_estimate` returns is the
caller's request as it was before the filter ran, so it marks `predicted`,
`residuals` and `names`, which the field-wise AND with
`apop_exponential_rank.inventory_filter` clears; the filtered inventory is
only what the call leaves in the caller's `uses`. -/
theorem C15_exponential_rank_estimate_stores_unfiltered_inventory :
    (exponential_rank_estimate (fun x : ℚ => x) (fun _ _ => ()) (rank_data_10_5_2 ℚ)
        inventory_all ()).1.uses = inventory_all
    ∧ (exponential_rank_estimate (fun x : ℚ => x) (fun _ _ => ()) (rank_data_10_5_2 ℚ)
        inventory_all ()).1.uses.predicted = true
    ∧ (apop_inventory_filter inventory_all apop_exponential_rank.inventory_filter).predicted
        = false
    ∧ (exponential_rank_estimate (fun x : ℚ => x) (fun _ _ => ()) (rank_data_10_5_2 ℚ)
        inventory_all ()).1.uses
      ≠ apop_inventory_filter inventory_all apop_exponential_rank.inventory_filter
    ∧ (exponential_rank_estimate (fun x : ℚ => x) (fun _ _ => ()) (rank_data_10_5_2 ℚ)
        inventory_all ()).2
      = apop_inventory_filter inventory_all apop_exponential_rank.inventory_filter := by
  have h := exponential_rank_estimate_uses (fun x : ℚ => x) (fun _ _ => ())
    (rank_data_10_5_2 ℚ) inventory_all ()
  rw [h.1, h.2]
  refine ⟨rfl, rfl, rfl, by decide, rfl⟩

/-- C16: the probit log-likelihood is invariant to the order of the rows.  For
every data matrix, every permutation of its rows and every `beta`,
`probit_log_likelihood` returns on the permuted matrix the value it returns on
the original (from any cache states), and it returns a value on both when the
shapes conform (at least one row, and `beta` of at least one cell and of
columns minus one cells). -/
theorem C16_probit_log_likelihood_row_order {α : Type} [Field α] [DecidableEq α]
    (log : α → α) (gsl_cdf_gaussian_P : α → α → α) (beta : gsl_vector α)
    (data : gsl_matrix α) (σ : Equiv.Perm (Fin data.size1)) (s s1 : probit_cache α) :
    Option.map Prod.fst
        (probit_log_likelihood log gsl_cdf_gaussian_P beta (permute_rows data σ) s1)
      = Option.map Prod.fst (probit_log_likelihood log gsl_cdf_gaussian_P beta data s)
    ∧ (shapes_conform beta data →
        (probit_log_likelihood log gsl_cdf_gaussian_P beta (permute_rows data σ) s1).isSome
          = true) := by
  by_cases h : shapes_conform beta data
  · have hp : shapes_conform beta (permute_rows data σ) := h
    rw [probit_log_likelihood_eq_some log _ beta (permute_rows data σ) s1 hp,
      probit_log_likelihood_eq_some log _ beta data s h]
    refine ⟨?_, fun _ => rfl⟩
    simp only [Option.map_some']
    rw [probit_log_likelihood_sum_permute_rows]
  · have hp : ¬ shapes_conform beta (permute_rows data σ) := h
    rw [probit_log_likelihood_eq_none log _ beta (permute_rows data σ) s1 hp,
      probit_log_likelihood_eq_none log _ beta data s h]
    exact ⟨rfl, fun h2 => absurd h2 h⟩

/-- C16 on `probit_data` with its two rows swapped, with `beta = (1, 1)`, the
identity standing for `log` and `x / 10` for the normal CDF. -/
theorem C16_probit_log_likelihood_row_order_witness :
    Option.map Prod.fst
        (probit_log_likelihood (fun x : ℚ => x) (fun x _ => x / 10) (probit_beta ℚ)
          (permute_rows (probit_data ℚ) (probit_data_swap ℚ)) (probit_cache_empty ℚ))
      = Option.map Prod.fst
          (probit_log_likelihood (fun x : ℚ => x) (fun x _ => x / 10) (probit_beta ℚ)
            (probit_data ℚ) (probit_cache_stale ℚ))
    ∧ (probit_log_likelihood (fun x : ℚ => x) (fun x _ => x / 10) (probit_beta ℚ)
          (permute_rows (probit_data ℚ) (probit_data_swap ℚ))
          (probit_cache_empty ℚ)).isSome = true :=
  ⟨(C16_probit_log_likelihood_row_order (fun x : ℚ => x) (fun x _ => x / 10) (probit_beta ℚ)
      (probit_data ℚ) (probit_data_swap ℚ) (probit_cache_stale ℚ)
      (probit_cache_empty ℚ)).1,
    (C16_probit_log_likelihood_row_order (fun x : ℚ => x) (fun x _ => x / 10) (probit_beta ℚ)
      (probit_data ℚ) (probit_data_swap ℚ) (probit_cache_stale ℚ)
      (probit_cache_empty ℚ)).2 ⟨by decide, by decide, by decide⟩⟩

/-- C17: the probit evaluation does not depend on the leftover cache.  For
every data matrix and `beta` and any two cache states with
`beta_dot_x_is_current = 0` (the vector absent, or present with any length and
contents), `probit_log_likelihood`, `probit_dlog_likelihood` and `probit_fdf`
each produce the same outputs from both states, and they do produce outputs
when the shapes conform (at least one row, and `beta` of at least one cell and
of columns minus one cells). -/
theorem C17_probit_outputs_independent_of_cache {α : Type} [Field α] [DecidableEq α]
    (log : α → α) (gsl_ran_gaussian_pdf gsl_cdf_gaussian_P : α → α → α)
    (beta : gsl_vector α) (data : gsl_matrix α) (gradient : gsl_vector α)
    (s1 s2 : probit_cache α) (h1 : s1.beta_dot_x_is_current = false)
    (h2 : s2.beta_dot_x_is_current = false) :
    (Option.map Prod.fst (probit_log_likelihood log gsl_cdf_gaussian_P beta data s1)
      = Option.map Prod.fst (probit_log_likelihood log gsl_cdf_gaussian_P beta data s2))
    ∧ (Option.map Prod.fst
          (probit_dlog_likelihood gsl_ran_gaussian_pdf gsl_cdf_gaussian_P beta data gradient s1)
      = Option.map Prod.fst
          (probit_dlog_likelihood gsl_ran_gaussian_pdf gsl_cdf_gaussian_P beta data gradient
            s2))
    ∧ (Option.map (fun r => (r.1, r.2.1))
          (probit_fdf log gsl_ran_gaussian_pdf gsl_cdf_gaussian_P beta data gradient s1)
      = Option.map (fun r => (r.1, r.2.1))
          (probit_fdf log gsl_ran_gaussian_pdf gsl_cdf_gaussian_P beta data gradient s2))
    ∧ (shapes_conform beta data →
        (probit_log_likelihood log gsl_cdf_gaussian_P beta data s1).isSome = true
        ∧ (probit_dlog_likelihood gsl_ran_gaussian_pdf gsl_cdf_gaussian_P beta data gradient
            s1).isSome = true
        ∧ (probit_fdf log gsl_ran_gaussian_pdf gsl_cdf_gaussian_P beta data gradient
            s1).isSome = true) := by
  by_cases h : shapes_conform beta data
  · rw [probit_log_likelihood_eq_some log _ beta data s1 h,
      probit_log_likelihood_eq_some log _ beta data s2 h,
      probit_dlog_likelihood_eq_some _ _ beta data gradient s1 h h1,
      probit_dlog_likelihood_eq_some _ _ beta data gradient s2 h h2,
      probit_fdf_eq_some log _ _ beta data gradient s1 h,
      probit_fdf_eq_some log _ _ beta data gradient s2 h]
    exact ⟨rfl, rfl, rfl, fun _ => ⟨rfl, rfl, rfl⟩⟩
  · rw [probit_log_likelihood_eq_none log _ beta data s1 h,
      probit_log_likelihood_eq_none log _ beta data s2 h,
      probit_dlog_likelihood_eq_none _ _ beta data gradient s1 h h1,
      probit_dlog_likelihood_eq_none _ _ beta data gradient s2 h h2,
      probit_fdf_eq_none log _ _ beta data gradient s1 h,
      probit_fdf_eq_none log _ _ beta data gradient s2 h]
    exact ⟨rfl, rfl, rfl, fun h3 => absurd h3 h⟩

/-- C17 on `probit_data` with `beta = (1, 1)`: the log-likelihood started from
the empty cache and from a stale cache of three cells is the same value. -/
theorem C17_probit_outputs_independent_of_cache_witness :
    Option.map Prod.fst
        (probit_log_likelihood (fun x : ℚ => x) (fun x _ => x / 10) (probit_beta ℚ)
          (probit_data ℚ) (probit_cache_empty ℚ))
      = Option.map Prod.fst
          (probit_log_likelihood (fun x : ℚ => x) (fun x _ => x / 10) (probit_beta ℚ)
            (probit_data ℚ) (probit_cache_stale ℚ))
    ∧ (probit_log_likelihood (fun x : ℚ => x) (fun x _ => x / 10) (probit_beta ℚ)
          (probit_data ℚ) (probit_cache_empty ℚ)).isSome = true :=
  ⟨(C17_probit_outputs_independent_of_cache (fun x : ℚ => x) (fun x _ => x)
      (fun x _ => x / 10) (probit_beta ℚ) (probit_data ℚ) (vector_of_list [0, 0])
      (probit_cache_empty ℚ) (probit_cache_stale ℚ) rfl rfl).1,
    ((C17_probit_outputs_independent_of_cache (fun x : ℚ => x) (fun x _ => x)
      (fun x _ => x / 10) (probit_beta ℚ) (probit_data ℚ) (vector_of_list [0, 0])
      (probit_cache_empty ℚ) (probit_cache_stale ℚ) rfl rfl).2.2.2
      ⟨by decide, by decide, by decide⟩).1⟩

/-- C18: the probit scratch buffer matches the shape of the current data.  For
every prior cache state (the vector absent, or present with any length), after
`dot`, and so after `probit_log_likelihood`, has run on a data matrix of `n`
rows the cached vector is present with exactly `n` cells; and `dot` allocates
it anew exactly when it was absent or its previous length differed from `n`
(once then, not at all otherwise).  The calls run to their end on the shapes
that the GSL accepts: at least one row, and `beta` of at least one cell and of
columns minus one cells. -/
theorem C18_probit_cache_matches_rows {α : Type} [Field α] [DecidableEq α]
    (log : α → α) (gsl_cdf_gaussian_P : α → α → α) (beta : gsl_vector α)
    (data : gsl_matrix α) (s : probit_cache α) (hrows : 1 ≤ data.size1)
    (hbeta : 1 ≤ beta.size) (hlen : beta.size + 1 = data.size2) :
    ∃ (c : probit_cache α) (y : gsl_vector α) (frees allocs : Nat),
      dot_counted beta data s = some (c, frees, allocs)
      ∧ dot beta data s = some c
      ∧ Option.map Prod.snd (probit_log_likelihood log gsl_cdf_gaussian_P beta data s)
          = some c
      ∧ c.beta_dot_x = some y
      ∧ y.size = data.size1
      ∧ (allocs = 1 ↔
          (s.beta_dot_x = none ∨ ∃ b, s.beta_dot_x = some b ∧ b.size ≠ data.size1))
      ∧ (allocs = 0 ∨ allocs = 1) := by
  have hshape : shapes_conform beta data := ⟨hrows, hbeta, hlen⟩
  refine ⟨⟨some (dot_result beta data (dot_buffer data s)), s.beta_dot_x_is_current⟩,
    dot_result beta data (dot_buffer data s), (if cache_stale data s then 1 else 0),
    (if cache_fits data s then 0 else 1), dot_counted_eq_some beta data s hshape,
    dot_eq_some beta data s hshape, ?_, rfl, dot_buffer_size data s, ?_, ?_⟩
  · rw [probit_log_likelihood_eq_some log _ beta data s hshape]
    rfl
  · rw [← cache_fits_eq_false_iff]
    cases cache_fits data s <;> simp
  · cases cache_fits data s <;> simp

/-- C18 on `probit_data` (two rows) from a stale cache of three cells: `dot`
allocates the vector once and it has two cells afterwards. -/
theorem C18_probit_cache_matches_rows_witness :
    ∃ (c : probit_cache ℚ) (y : gsl_vector ℚ) (frees allocs : Nat),
      dot_counted (probit_beta ℚ) (probit_data ℚ) (probit_cache_stale ℚ)
        = some (c, frees, allocs)
      ∧ c.beta_dot_x = some y ∧ y.size = 2 ∧ allocs = 1 := by
  obtain ⟨c, y, frees, allocs, h1, _, _, h4, h5, h6, _⟩ :=
    C18_probit_cache_matches_rows (fun x : ℚ => x) (fun x _ => x / 10) (probit_beta ℚ)
      (probit_data ℚ) (probit_cache_stale ℚ) (by decide) (by decide) (by decide)
  exact ⟨c, y, frees, allocs, h1, h4, h5,
    h6.mpr (Or.inr ⟨vector_of_list [5, 5, 5], rfl, by decide⟩)⟩

/-- C19, as stated, fails on the data `[[0]]` of `c = 1` column with the
`beta` of length `c - 1 = 0`: `dot` asks `gsl_matrix_submatrix` for the view
that starts at column 1, the GSL rejects the column index, and `dot` does not
return, so there is no cached vector after it. -/
theorem C19_dot_one_column_aborts :
    1 ≤ (probit_data_one_column ℚ).size2
      ∧ (probit_beta_empty ℚ).size = (probit_data_one_column ℚ).size2 - 1
      ∧ dot (probit_beta_empty ℚ) (probit_data_one_column ℚ) (probit_cache_empty ℚ) = none
      ∧ ¬ ∃ y : gsl_vector ℚ,
          Option.map probit_cache.beta_dot_x
            (dot (probit_beta_empty ℚ) (probit_data_one_column ℚ) (probit_cache_empty ℚ))
          = some (some y) := by
  have hnone : dot (probit_beta_empty ℚ) (probit_data_one_column ℚ) (probit_cache_empty ℚ)
      = none :=
    dot_eq_none _ _ _ (by simp [shapes_conform, probit_beta_empty, vector_of_list])
  refine ⟨by decide, by decide, hnone, ?_⟩
  rw [hnone]
  simp

/-- C19, amended: the probit linear predictor uses the covariate columns only.
For every data matrix of at least one row and `c >= 2` columns and every
`beta` of length `c - 1`, from every cache state, after `dot` the cached vector
has one cell per row and cell `i` is the sum over `j` in `0 .. c-2` of
`data[i, j+1] * beta[j]`: column 0 does not occur in it, and nothing of the
previous cache does. -/
theorem C19_dot_is_the_covariate_product {α : Type} [Field α] (beta : gsl_vector α)
    (data : gsl_matrix α) (s : probit_cache α) (hrows : 1 ≤ data.size1)
    (hcol : 2 ≤ data.size2) (hlen : beta.size = data.size2 - 1) :
    ∃ y : gsl_vector α,
      Option.map probit_cache.beta_dot_x (dot beta data s) = some (some y)
      ∧ y.size = data.size1
      ∧ ∀ i, i < data.size1 →
          gsl_vector_get y i
            = ∑ j in Finset.range (data.size2 - 1),
                gsl_matrix_get data i (j + 1) * gsl_vector_get beta j := by
  refine ⟨dot_result beta data (dot_buffer data s), ?_, dot_buffer_size data s, ?_⟩
  · rw [dot_eq_some beta data s ⟨by omega, by omega, by omega⟩]
    rfl
  · intro i hi
    exact dot_result_predictor beta data s i hi

/-- C19, amended, on `probit_data` with `beta = (1, 1)` from a stale cache: the cells of
the cached vector are `1 + 2 = 3` and `3 + 4 = 7`. -/
theorem C19_dot_is_the_covariate_product_witness :
    Option.map (fun c => c.beta_dot_x.map fun y => (y.size, gsl_vector_get y 0,
        gsl_vector_get y 1))
        (dot (probit_beta ℚ) (probit_data ℚ) (probit_cache_stale ℚ))
      = some (some (2, 3, 7)) := by
  obtain ⟨y, h1, h2, h3⟩ := C19_dot_is_the_covariate_product (probit_beta ℚ) (probit_data ℚ)
    (probit_cache_stale ℚ) (by decide) (by decide) (by decide)
  have h0 := h3 0 (by decide)
  have h1' := h3 1 (by decide)
  cases hd : dot (probit_beta ℚ) (probit_data ℚ) (probit_cache_stale ℚ) with
  | none => rw [hd] at h1; simp at h1
  | some c =>
    rw [hd] at h1
    simp only [Option.map_some', Option.some.injEq] at h1
    simp only [Option.map_some', h1, h0, h1', h2]
    simp [probit_data, probit_beta, matrix_of_rows, vector_of_list, gsl_matrix_get,
      gsl_vector_get, Finset.sum_range_succ]
    norm_num

/-- C20: `probit_estimate` forwards to the maximum-likelihood driver.  For
every data, inventory and estimation parameters its result is that of
`apop_maximum_likelihood` on the same data, the caller's inventory filtered by
`apop_probit.inventory_filter` (which clears `predicted` and `residuals` and
keeps the other flags), the `apop_probit` descriptor and the caller's
estimation parameters as they are. -/
theorem C20_probit_estimate_forwards {α ρ π : Type}
    (apop_maximum_likelihood :
      gsl_matrix α → apop_inventory → apop_model → π → ρ × apop_inventory)
    (data : gsl_matrix α) (uses : apop_inventory) (parameters : π) :
    probit_estimate apop_maximum_likelihood data uses parameters
      = apop_maximum_likelihood data
          (apop_inventory_filter uses apop_probit.inventory_filter) apop_probit parameters
    ∧ apop_inventory_filter uses apop_probit.inventory_filter
      = { parameters := uses.parameters
          covariance := uses.covariance
          confidence := uses.confidence
          predicted := false
          residuals := false
          log_likelihood := uses.log_likelihood
          names := uses.names } := by
  refine ⟨rfl, ?_⟩
  simp [apop_inventory_filter, apop_probit]

/-- C21: the rank-exponential estimate does not depend on the estimation
parameters.  For every data matrix and inventory, `exponential_rank_estimate`
returns the same parameter value, and the same estimate altogether, for any
two values of its `parameters` argument. -/
theorem C21_exponential_rank_estimate_ignores_parameters {α κ π₁ π₂ : Type} [Field α]
    (log : α → α) (var_covar : gsl_vector α → gsl_matrix α → κ) (data : gsl_matrix α)
    (uses : apop_inventory) (parameters1 : π₁) (parameters2 : π₂) :
    gsl_vector_get (exponential_rank_estimate log var_covar data uses parameters1).1.parameters 0
      = gsl_vector_get
          (exponential_rank_estimate log var_covar data uses parameters2).1.parameters 0
    ∧ exponential_rank_estimate log var_covar data uses parameters1
      = exponential_rank_estimate log var_covar data uses parameters2 :=
  ⟨rfl, rfl⟩

/-- C23: the `apop_probit` descriptor declares the parameter count `-1` (the
sentinel for columns minus one), an empty constraint set (`constraint.count`
is 0 and no entry is set), no random-number generator, and supplies
`log_likelihood`, `dlog_likelihood` and `fdf`. -/
theorem C23_apop_probit_descriptor :
    apop_probit.parameter_ct = -1
    ∧ apop_probit.constraint.count = 0
    ∧ (∀ e ∈ apop_probit.constraint.constraint, e = none)
    ∧ apop_probit.rng = none
    ∧ apop_probit.log_likelihood = some model_function.probit_log_likelihood
    ∧ apop_probit.dlog_likelihood = some model_function.probit_dlog_likelihood
    ∧ apop_probit.fdf = some model_function.probit_fdf := by
  refine ⟨rfl, rfl, ?_, rfl, rfl, rfl, rfl⟩
  intro e he
  exact List.eq_of_mem_replicate he

/-- C24: the `apop_exponential_rank` descriptor declares exactly one parameter
and a constraint set of exactly one entry, `beta_greater_than_x_constraint`
(the count is 1, within the bound of the 100 entries of the array, and the
other 99 entries are not set), supplies `log_likelihood`, `dlog_likelihood`
and an `rng`, and declares `fdf` absent. -/
theorem C24_apop_exponential_rank_descriptor :
    apop_exponential_rank.parameter_ct = 1
    ∧ apop_exponential_rank.constraint.count = 1
    ∧ apop_exponential_rank.constraint.constraint.length = 100
    ∧ apop_exponential_rank.constraint.constraint.head?
        = some (some model_function.beta_greater_than_x_constraint)
    ∧ (∀ e ∈ apop_exponential_rank.constraint.constraint.tail, e = none)
    ∧ apop_exponential_rank.log_likelihood
        = some model_function.rank_exponential_log_likelihood
    ∧ apop_exponential_rank.dlog_likelihood
        = some model_function.rank_exponential_dlog_likelihood
    ∧ apop_exponential_rank.rng = some model_function.rank_exponential_rng
    ∧ apop_exponential_rank.fdf = none := by
  refine ⟨rfl, rfl, ?_, rfl, ?_, rfl, rfl, rfl, rfl⟩
  · simp [apop_exponential_rank]
  · intro e he
    exact List.eq_of_mem_replicate he

/-- C27: when the inventory stored in the estimate that
`exponential_rank_estimate` returns requests `log_likelihood`, the
`log_likelihood` field of the estimate is `rank_exponential_log_likelihood` at
the returned parameter on the same data, with no penalty term; when it does
not, the field is not set. -/
theorem C27_exponential_rank_estimate_log_likelihood {α κ π : Type} [Field α]
    (log : α → α) (var_covar : gsl_vector α → gsl_matrix α → κ) (data : gsl_matrix α)
    (uses : apop_inventory) (parameters : π) :
    ((exponential_rank_estimate log var_covar data uses parameters).1.uses.log_likelihood
        = true →
      (exponential_rank_estimate log var_covar data uses parameters).1.log_likelihood
        = some (rank_exponential_log_likelihood log
            (exponential_rank_estimate log var_covar data uses parameters).1.parameters data))
    ∧ ((exponential_rank_estimate log var_covar data uses parameters).1.uses.log_likelihood
        = false →
      (exponential_rank_estimate log var_covar data uses parameters).1.log_likelihood
        = none) := by
  rw [exponential_rank_estimate_log_likelihood_field,
    (exponential_rank_estimate_uses log var_covar data uses parameters).1]
  constructor
  · intro h
    rw [if_pos h]
  · intro h
    rw [h]
    rfl

/-- C27 on the data with column sums 10, 5, 2, the identity standing for
`log`: with every output requested the field holds the log-likelihood at the
estimate `9/17`, which is `-(9/17) * 17 - 9 / (9/17) = -26`. -/
theorem C27_exponential_rank_estimate_log_likelihood_witness :
    (exponential_rank_estimate (fun x : ℚ => x) (fun _ _ => ()) (rank_data_10_5_2 ℚ)
        inventory_all ()).1.log_likelihood = some (-26) := by
  rw [(C27_exponential_rank_estimate_log_likelihood (fun x : ℚ => x) (fun _ _ => ())
    (rank_data_10_5_2 ℚ) inventory_all ()).1
      (by rw [(exponential_rank_estimate_uses _ _ _ _ _).1]; rfl)]
  rw [rank_exponential_log_likelihood_closed, exponential_rank_estimate_parameter_closed]
  have hT : grand_total (rank_data_10_5_2 ℚ) = 17 := by
    simp [grand_total, rank_data_10_5_2, matrix_of_rows, Finset.sum_range_succ]
    norm_num
  have hN : rank_total (rank_data_10_5_2 ℚ) = 9 := by
    simp [rank_total, rank_data_10_5_2, matrix_of_rows, Finset.sum_range_succ]
    norm_num
  rw [hT, hN]
  norm_num

/-- C28, as stated, fails in C's `double` arithmetic on the one-row data
`[[0, 0, 0, 0.1]]` (`c = 4` columns, non-negative cells, grand total `0.1`):
the numerator is `0.1 * 3 = 0.30000000000000004` and the estimate
`0.30000000000000004 / 0.1 = 3.0000000000000004`, which is
`6755399441055745 * 2^-51` and exceeds `c - 1 = 3`. -/
theorem C28_estimate_exceeds_rank_range_in_doubles :
    (∀ i, i < rank_data_tenth_last.size1 → ∀ k, k < rank_data_tenth_last.size2 →
        double.lt (gsl_matrix_get rank_data_tenth_last i k) 0 = false)
      ∧ 1 ≤ rank_data_tenth_last.size2
      ∧ double.lt 0 (exponential_rank_estimate_loop rank_data_tenth_last).2 = true
      ∧ gsl_vector_get
          (exponential_rank_estimate double.log (fun _ _ => ()) rank_data_tenth_last
            inventory_parameters ()).1.parameters 0
        = double.finite false (6755399441055745 * 2 ^ 1023)
      ∧ double.lt ((rank_data_tenth_last.size2 - 1 : Nat) : double)
          (gsl_vector_get
            (exponential_rank_estimate double.log (fun _ _ => ()) rank_data_tenth_last
              inventory_parameters ()).1.parameters 0)
        = true := by
  refine ⟨by decide!, by decide, by decide!, by decide!, by decide!⟩

/-- C28, amended: in exact arithmetic (the cells in a linearly ordered field,
such as the reals), for every data matrix with non-negative cells, `c >= 1`
columns and positive grand total, the estimate of `exponential_rank_estimate`
is a weighted mean of the ranks and lies in the closed interval
`[0, c - 1]`. -/
theorem C28_exponential_rank_estimate_in_rank_range {α κ π : Type} [LinearOrderedField α]
    (log : α → α) (var_covar : gsl_vector α → gsl_matrix α → κ) (data : gsl_matrix α)
    (uses : apop_inventory) (parameters : π)
    (hcells : ∀ i, i < data.size1 → ∀ k, k < data.size2 → 0 ≤ gsl_matrix_get data i k)
    (_hcol : 1 ≤ data.size2)
    (htotal : 0 < ∑ k in Finset.range data.size2, ∑ i in Finset.range data.size1,
      gsl_matrix_get data i k) :
    0 ≤ gsl_vector_get
        (exponential_rank_estimate log var_covar data uses parameters).1.parameters 0
    ∧ gsl_vector_get
        (exponential_rank_estimate log var_covar data uses parameters).1.parameters 0
      ≤ ((data.size2 - 1 : Nat) : α) := by
  have hT : 0 < grand_total data := htotal
  have hest := exponential_rank_estimate_parameter_closed log var_covar data uses parameters
  unfold gsl_vector_get
  rw [hest]
  constructor
  · exact div_nonneg (rank_total_nonneg data hcells) hT.le
  · rw [div_le_iff₀ hT]
    exact rank_total_le data hcells

/-- C28, amended, on the data with column sums 10, 5, 2 (three columns) over
the rationals: the estimate lies between 0 and 2. -/
theorem C28_exponential_rank_estimate_in_rank_range_witness :
    0 ≤ gsl_vector_get (exponential_rank_estimate (fun x : ℚ => x) (fun _ _ => ())
        (rank_data_10_5_2 ℚ) inventory_all ()).1.parameters 0
    ∧ gsl_vector_get (exponential_rank_estimate (fun x : ℚ => x) (fun _ _ => ())
        (rank_data_10_5_2 ℚ) inventory_all ()).1.parameters 0 ≤ 2 := by
  have h := C28_exponential_rank_estimate_in_rank_range (fun x : ℚ => x) (fun _ _ => ())
    (rank_data_10_5_2 ℚ) inventory_all ()
    (by
      intro i hi k hk
      have hi2 : i < 2 := hi
      have hk3 : k < 3 := hk
      interval_cases i <;> interval_cases k <;>
        simp [rank_data_10_5_2, matrix_of_rows, gsl_matrix_get])
    (by decide)
    (by
      simp [rank_data_10_5_2, matrix_of_rows, gsl_matrix_get, Finset.sum_range_succ]
      norm_num)
  refine ⟨h.1, ?_⟩
  have h2 := h.2
  have hc : (((rank_data_10_5_2 ℚ).size2 - 1 : Nat) : ℚ) = 2 := by
    simp [rank_data_10_5_2, matrix_of_rows]
  rw [hc] at h2
  exact h2

/-- C29, as stated, fails in C's `double` arithmetic on the one-row data
`[[2^1023, 2^1023]]` (non-negative cells, positive grand total, column 1 of
positive sum `2^1023`): the grand total `2^1023 + 2^1023` overflows to
`+infinity`, and the estimate `2^1023 / infinity` is `0`, which is not
strictly positive. -/
theorem C29_estimate_zero_in_doubles :
    (∀ i, i < rank_data_huge.size1 → ∀ k, k < rank_data_huge.size2 →
        double.lt (gsl_matrix_get rank_data_huge i k) 0 = false)
      ∧ (exponential_rank_estimate_loop rank_data_huge).2 = double.infinity false
      ∧ double.lt 0 (exponential_rank_estimate_loop rank_data_huge).2 = true
      ∧ double.lt 0 (apop_sum (gsl_matrix_column rank_data_huge 1)) = true
      ∧ gsl_vector_get
          (exponential_rank_estimate double.log (fun _ _ => ()) rank_data_huge
            inventory_parameters ()).1.parameters 0
        = double.finite false 0
      ∧ double.lt 0
          (gsl_vector_get
            (exponential_rank_estimate double.log (fun _ _ => ()) rank_data_huge
              inventory_parameters ()).1.parameters 0)
        = false := by
  refine ⟨by decide!, by decide!, by decide!, by decide!, by decide!, by decide!⟩

/-- C29, amended: in exact arithmetic (the cells in a linearly ordered field,
such as the reals), for every data matrix with non-negative cells and
positive grand total, the estimate of `exponential_rank_estimate` is strictly
positive (it meets the constraint `mu > 0` of the model) if and only if some
column of index `k >= 1` has a positive column sum; and when all the weight
sits in column 0 the estimate is exactly 0. -/
theorem C29_exponential_rank_estimate_positive_iff {α κ π : Type} [LinearOrderedField α]
    (log : α → α) (var_covar : gsl_vector α → gsl_matrix α → κ) (data : gsl_matrix α)
    (uses : apop_inventory) (parameters : π)
    (hcells : ∀ i, i < data.size1 → ∀ k, k < data.size2 → 0 ≤ gsl_matrix_get data i k)
    (htotal : 0 < ∑ k in Finset.range data.size2, ∑ i in Finset.range data.size1,
      gsl_matrix_get data i k) :
    (0 < gsl_vector_get
          (exponential_rank_estimate log var_covar data uses parameters).1.parameters 0
      ↔ ∃ k, 1 ≤ k ∧ k < data.size2
          ∧ 0 < ∑ i in Finset.range data.size1, gsl_matrix_get data i k)
    ∧ ((∀ k, 1 ≤ k → k < data.size2 →
          ∑ i in Finset.range data.size1, gsl_matrix_get data i k = 0) →
        gsl_vector_get
          (exponential_rank_estimate log var_covar data uses parameters).1.parameters 0
          = 0) := by
  have hT : 0 < grand_total data := htotal
  have hest := exponential_rank_estimate_parameter_closed log var_covar data uses parameters
  have hiff := rank_total_pos_iff data hcells
  unfold gsl_vector_get
  rw [hest]
  constructor
  · refine Iff.trans ?_ hiff
    constructor
    · intro h
      by_contra hN
      have hN0 : rank_total data = 0 :=
        le_antisymm (not_lt.mp hN) (rank_total_nonneg data hcells)
      rw [hN0, zero_div] at h
      exact lt_irrefl 0 h
    · intro h
      exact div_pos h hT
  · intro hall
    have hN0 : rank_total data = 0 := by
      by_contra hne
      have hpos : 0 < rank_total data :=
        lt_of_le_of_ne (rank_total_nonneg data hcells) (Ne.symm hne)
      obtain ⟨k, hk1, hk2, hk⟩ := hiff.mp hpos
      have hz : ∑ i in Finset.range data.size1, data.data i k = 0 := hall k hk1 hk2
      rw [hz] at hk
      exact lt_irrefl 0 hk
    rw [hN0, zero_div]

/-- C29, amended, on two data sets over the rationals: with column sums 10,
5, 2 the estimate is strictly positive, and with all the weight in column 0
(column sums 5, 0) it is 0. -/
theorem C29_exponential_rank_estimate_positive_iff_witness :
    0 < gsl_vector_get (exponential_rank_estimate (fun x : ℚ => x) (fun _ _ => ())
        (rank_data_10_5_2 ℚ) inventory_all ()).1.parameters 0
    ∧ gsl_vector_get (exponential_rank_estimate (fun x : ℚ => x) (fun _ _ => ())
        (rank_data_first_only ℚ) inventory_all ()).1.parameters 0 = 0 := by
  constructor
  · refine (C29_exponential_rank_estimate_positive_iff (fun x : ℚ => x) (fun _ _ => ())
      (rank_data_10_5_2 ℚ) inventory_all () ?_ ?_).1.mpr ⟨1, le_refl 1, by decide, ?_⟩
    · intro i hi k hk
      have hi2 : i < 2 := hi
      have hk3 : k < 3 := hk
      interval_cases i <;> interval_cases k <;>
        simp [rank_data_10_5_2, matrix_of_rows, gsl_matrix_get]
    · simp [rank_data_10_5_2, matrix_of_rows, gsl_matrix_get, Finset.sum_range_succ]
      norm_num
    · simp [rank_data_10_5_2, matrix_of_rows, gsl_matrix_get, Finset.sum_range_succ]
  · refine (C29_exponential_rank_estimate_positive_iff (fun x : ℚ => x) (fun _ _ => ())
      (rank_data_first_only ℚ) inventory_all () ?_ ?_).2 ?_
    · intro i hi k hk
      have hi2 : i < 2 := hi
      have hk2 : k < 2 := hk
      interval_cases i <;> interval_cases k <;>
        simp [rank_data_first_only, matrix_of_rows, gsl_matrix_get]
    · simp [rank_data_first_only, matrix_of_rows, gsl_matrix_get, Finset.sum_range_succ]
      norm_num
    · intro k hk1 hk2
      have hk3 : k < 2 := hk2
      interval_cases k
      simp [rank_data_first_only, matrix_of_rows, gsl_matrix_get, Finset.sum_range_succ]

/-- C22, as stated, fails on the one-cell data `[[0]]`, whose grand total is
zero: `exponential_rank_estimate` returns an estimate as on any other data,
and the division it performs to fill the parameter has the divisor 0. -/
theorem C22_exponential_rank_estimate_divides_by_zero_total :
    (∑ k in Finset.range (rank_data_zero ℚ).size2,
        ∑ i in Finset.range (rank_data_zero ℚ).size1,
          gsl_matrix_get (rank_data_zero ℚ) i k) = 0
    ∧ (exponential_rank_estimate_traced (fun x : ℚ => x) (fun _ _ => ()) (rank_data_zero ℚ)
        inventory_all ()).1
      = exponential_rank_estimate (fun x : ℚ => x) (fun _ _ => ()) (rank_data_zero ℚ)
          inventory_all ()
    ∧ (exponential_rank_estimate_traced (fun x : ℚ => x) (fun _ _ => ()) (rank_data_zero ℚ)
        inventory_all ()).2 = [(0, 0)] := by
  refine ⟨?_, rfl, ?_⟩
  · simp [rank_data_zero, matrix_of_rows, gsl_matrix_get]
  · simp only [exponential_rank_estimate_traced, exponential_rank_estimate_loop_eq]
    simp [rank_data_zero, matrix_of_rows]

/-- C22, amended: for every data matrix, also an empty one or one whose grand
total is zero, `exponential_rank_estimate` reports no error and returns an
estimate; the one division it performs, to fill the parameter, divides the
rank-weighted total by the grand total whatever the grand total is. -/
theorem C22_exponential_rank_estimate_always_divides {α κ π : Type} [Field α]
    (log : α → α) (var_covar : gsl_vector α → gsl_matrix α → κ) (data : gsl_matrix α)
    (uses : apop_inventory) (parameters : π) :
    (exponential_rank_estimate_traced log var_covar data uses parameters).1
      = exponential_rank_estimate log var_covar data uses parameters
    ∧ (exponential_rank_estimate_traced log var_covar data uses parameters).2
      = [(∑ k in Finset.range data.size2,
            (k : α) * ∑ i in Finset.range data.size1, gsl_matrix_get data i k,
          ∑ k in Finset.range data.size2, ∑ i in Finset.range data.size1,
            gsl_matrix_get data i k)] := by
  refine ⟨rfl, ?_⟩
  simp only [exponential_rank_estimate_traced, exponential_rank_estimate_loop_eq]
  rfl

/-- C30, at the one-row data `[[1, 1]]`: the estimate is `1/2`, the
log-likelihood has derivative 0 there (the first-order condition holds for
the true derivative), and the gradient that
`rank_exponential_dlog_likelihood` writes at the estimate is
`2 * (1 / ln (1/2) - 1) + 2 * (1 / ln (1/2) - 2)`, a strictly negative
number, not zero. -/
theorem C30_rank_exponential_gradient_not_zero_at_estimate :
    gsl_vector_get (exponential_rank_estimate Real.log (fun _ _ => ()) (rank_data_1_1 ℝ)
        inventory_all ()).1.parameters 0 = 1 / 2
    ∧ HasDerivAt
        (fun mu : ℝ => rank_exponential_log_likelihood Real.log (vector_of_list [mu])
          (rank_data_1_1 ℝ))
        0 (1 / 2)
    ∧ gsl_vector_get
        (rank_exponential_dlog_likelihood Real.log
          (exponential_rank_estimate Real.log (fun _ _ => ()) (rank_data_1_1 ℝ)
            inventory_all ()).1.parameters
          (rank_data_1_1 ℝ) (vector_of_list [0])) 0
      = 2 * (1 / Real.log (1 / 2) - 1) + 2 * (1 / Real.log (1 / 2) - 2)
    ∧ gsl_vector_get
        (rank_exponential_dlog_likelihood Real.log
          (exponential_rank_estimate Real.log (fun _ _ => ()) (rank_data_1_1 ℝ)
            inventory_all ()).1.parameters
          (rank_data_1_1 ℝ) (vector_of_list [0])) 0 < 0 := by
  have hest : (exponential_rank_estimate Real.log (fun _ _ => ()) (rank_data_1_1 ℝ)
      inventory_all ()).1.parameters.data 0 = 1 / 2 := by
    rw [exponential_rank_estimate_parameter_closed]
    simp [rank_total, grand_total, rank_data_1_1, matrix_of_rows, Finset.sum_range_succ]
    norm_num
  have hgrad : gsl_vector_get
      (rank_exponential_dlog_likelihood Real.log
        (exponential_rank_estimate Real.log (fun _ _ => ()) (rank_data_1_1 ℝ)
          inventory_all ()).1.parameters
        (rank_data_1_1 ℝ) (vector_of_list [0])) 0
      = 2 * (1 / Real.log (1 / 2) - 1) + 2 * (1 / Real.log (1 / 2) - 2) := by
    unfold gsl_vector_get
    rw [rank_exponential_dlog_likelihood_eq, hest]
    simp [rank_data_1_1, matrix_of_rows, Finset.sum_range_succ]
    ring
  refine ⟨hest, ?_, hgrad, ?_⟩
  · have hfun : (fun mu : ℝ => rank_exponential_log_likelihood Real.log (vector_of_list [mu])
        (rank_data_1_1 ℝ)) = fun mu : ℝ => -2 * Real.log mu - mu⁻¹ := by
      funext mu
      rw [rank_exponential_log_likelihood_eq]
      simp [rank_data_1_1, matrix_of_rows, vector_of_list, Finset.sum_range_succ]
      ring
    rw [hfun]
    have hne : (1 / 2 : ℝ) ≠ 0 := by norm_num
    have h := ((Real.hasDerivAt_log hne).const_mul (-2)).sub (hasDerivAt_inv hne)
    convert h using 1
    norm_num
  · rw [hgrad]
    have hlog : Real.log (1 / 2) < 0 := Real.log_neg (by norm_num) (by norm_num)
    have hinv : 1 / Real.log (1 / 2) < 0 := one_div_neg.mpr hlog
    linarith

/-- C25: the cache protocol.  From every cache state with
`beta_dot_x_is_current = 0`: after every call of `probit_dlog_likelihood` or
`probit_fdf` the cached vector is released and the flag is 0 (and the calls
do return when the shapes conform: at least one row, and `beta` of at least
one cell and of columns minus one cells); so the flag is 0 after
any sequence of calls of the three functions; a call of
`probit_dlog_likelihood` on its own calls `dot` once; and inside `probit_fdf`
the gradient makes no call of `dot` and reads the vector that
`probit_log_likelihood` has just computed for the same `beta` and data. -/
theorem C25_probit_cache_protocol {α : Type} [Field α] [DecidableEq α] (log : α → α)
    (gsl_ran_gaussian_pdf gsl_cdf_gaussian_P : α → α → α) (s : probit_cache α)
    (hflag : s.beta_dot_x_is_current = false) :
    (∀ (beta : gsl_vector α) (d : gsl_matrix α) (gradient : gsl_vector α)
        (r : gsl_vector α × probit_cache α),
        probit_dlog_likelihood gsl_ran_gaussian_pdf gsl_cdf_gaussian_P beta d gradient s
          = some r → r.2 = ⟨none, false⟩)
    ∧ (∀ (beta : gsl_vector α) (d : gsl_matrix α) (df : gsl_vector α)
        (r : α × gsl_vector α × probit_cache α),
        probit_fdf log gsl_ran_gaussian_pdf gsl_cdf_gaussian_P beta d df s = some r →
          r.2.2 = ⟨none, false⟩)
    ∧ (∀ (beta : gsl_vector α) (d : gsl_matrix α) (gradient : gsl_vector α),
        shapes_conform beta d →
          (probit_dlog_likelihood gsl_ran_gaussian_pdf gsl_cdf_gaussian_P beta d gradient
            s).isSome = true
          ∧ (probit_fdf log gsl_ran_gaussian_pdf gsl_cdf_gaussian_P beta d gradient
            s).isSome = true)
    ∧ (∀ (calls : List (probit_call α)) (t : probit_cache α),
        run_probit_calls log gsl_ran_gaussian_pdf gsl_cdf_gaussian_P calls s = some t →
          t.beta_dot_x_is_current = false)
    ∧ (∀ (beta : gsl_vector α) (d : gsl_matrix α) (gradient : gsl_vector α)
        (r : gsl_vector α × probit_cache α × Nat),
        probit_dlog_likelihood_counted gsl_ran_gaussian_pdf gsl_cdf_gaussian_P beta d gradient
          s = some r →
          r.2.2 = 1
          ∧ probit_dlog_likelihood gsl_ran_gaussian_pdf gsl_cdf_gaussian_P beta d gradient s
            = some (r.1, r.2.1))
    ∧ (∀ (beta : gsl_vector α) (d : gsl_matrix α) (df : gsl_vector α),
        shapes_conform beta d →
          ∃ (f : α) (y : gsl_vector α),
            probit_log_likelihood log gsl_cdf_gaussian_P beta d s
              = some (f, ⟨some y, false⟩)
            ∧ (∀ i, i < d.size1 → gsl_vector_get y i = linear_predictor beta d i)
            ∧ probit_dlog_likelihood_counted gsl_ran_gaussian_pdf gsl_cdf_gaussian_P beta d df
                ⟨some y, true⟩
              = some (probit_gradient gsl_ran_gaussian_pdf gsl_cdf_gaussian_P beta d df,
                  ⟨none, true⟩, 0)
            ∧ probit_fdf_counted log gsl_ran_gaussian_pdf gsl_cdf_gaussian_P beta d df s
              = some (f, probit_gradient gsl_ran_gaussian_pdf gsl_cdf_gaussian_P beta d df,
                  ⟨none, false⟩, 0)
            ∧ probit_fdf log gsl_ran_gaussian_pdf gsl_cdf_gaussian_P beta d df s
              = some (f, probit_gradient gsl_ran_gaussian_pdf gsl_cdf_gaussian_P beta d df,
                  ⟨none, false⟩)) := by
  refine ⟨?_, ?_, ?_, ?_, ?_, ?_⟩
  · intro beta d gradient r hr
    exact probit_dlog_likelihood_cache _ _ beta d gradient s hflag r hr
  · intro beta d df r hr
    exact probit_fdf_cache log _ _ beta d df s r hr
  · intro beta d gradient hshape
    rw [probit_dlog_likelihood_eq_some _ _ beta d gradient s hshape hflag,
      probit_fdf_eq_some log _ _ beta d gradient s hshape]
    exact ⟨rfl, rfl⟩
  · intro calls t ht
    exact run_probit_calls_flag log _ _ calls s t hflag ht
  · intro beta d gradient r hr
    by_cases hshape : shapes_conform beta d
    · rw [probit_dlog_likelihood_counted_eq_some _ _ beta d gradient s hshape hflag] at hr
      rw [← Option.some.inj hr,
        probit_dlog_likelihood_eq_some _ _ beta d gradient s hshape hflag]
      exact ⟨rfl, rfl⟩
    · rw [probit_dlog_likelihood_counted_eq_none _ _ beta d gradient s hshape hflag] at hr
      exact absurd hr (by simp)
  · intro beta d df hshape
    refine ⟨∑ i in Finset.range d.size1,
        probit_row_term log gsl_cdf_gaussian_P d (linear_predictor beta d i) i,
      dot_result beta d (dot_buffer d s), ?_, ?_, ?_, ?_, ?_⟩
    · rw [probit_log_likelihood_eq_some log _ beta d s hshape, hflag]
    · intro i hi
      exact dot_result_predictor beta d s i hi
    · exact probit_dlog_likelihood_counted_current _ _ beta d df _
        (dot_result_predictor beta d s)
    · exact probit_fdf_counted_eq_some log _ _ beta d df s hshape
    · exact probit_fdf_eq_some log _ _ beta d df s hshape

/-- C25 on `probit_data` with `beta = (1, 1)` from a stale cache, the flag
down: `probit_fdf`, then `probit_log_likelihood`, then
`probit_dlog_likelihood` run through and leave the flag down, and
`probit_dlog_likelihood` alone leaves no cached vector. -/
theorem C25_probit_cache_protocol_witness :
    (∃ t, run_probit_calls (fun x : ℚ => x) (fun x _ => x) (fun x _ => x / 10)
        [probit_call.fdf (probit_beta ℚ) (probit_data ℚ) (vector_of_list [0, 0]),
          probit_call.log_likelihood (probit_beta ℚ) (probit_data ℚ),
          probit_call.dlog_likelihood (probit_beta ℚ) (probit_data ℚ) (vector_of_list [0, 0])]
        (probit_cache_stale ℚ) = some t ∧ t.beta_dot_x_is_current = false)
    ∧ Option.map Prod.snd
        (probit_dlog_likelihood (fun x _ => x) (fun x _ => x / 10) (probit_beta ℚ)
          (probit_data ℚ) (vector_of_list [0, 0]) (probit_cache_stale ℚ))
      = some ⟨none, false⟩ := by
  have h := C25_probit_cache_protocol (fun x : ℚ => x) (fun x _ => x) (fun x _ => x / 10)
    (probit_cache_stale ℚ) rfl
  have hshape : shapes_conform (probit_beta ℚ) (probit_data ℚ) :=
    ⟨by decide, by decide, by decide⟩
  constructor
  · have hrun : (run_probit_calls (fun x : ℚ => x) (fun x _ => x) (fun x _ => x / 10)
        [probit_call.fdf (probit_beta ℚ) (probit_data ℚ) (vector_of_list [0, 0]),
          probit_call.log_likelihood (probit_beta ℚ) (probit_data ℚ),
          probit_call.dlog_likelihood (probit_beta ℚ) (probit_data ℚ) (vector_of_list [0, 0])]
        (probit_cache_stale ℚ)).isSome = true := by
      simp only [run_probit_calls, run_probit_call]
      rw [probit_fdf_eq_some _ _ _ _ _ _ _ hshape]
      simp only [Option.map_some', Option.some_bind]
      rw [probit_log_likelihood_eq_some _ _ _ _ _ hshape]
      simp only [Option.map_some', Option.some_bind]
      rw [probit_dlog_likelihood_eq_some _ _ _ _ _ _ hshape rfl]
      rfl
    obtain ⟨t, ht⟩ := Option.isSome_iff_exists.mp hrun
    exact ⟨t, ht, h.2.2.2.1 _ t ht⟩
  · obtain ⟨r, hr⟩ := Option.isSome_iff_exists.mp
      (h.2.2.1 (probit_beta ℚ) (probit_data ℚ) (vector_of_list [0, 0]) hshape).1
    rw [hr, Option.map_some', h.1 _ _ _ r hr]

/-- C26, as stated, fails on `probit_data` (`c = 3` columns) with
`beta = (1, 1)` (length `c - 1`) and a gradient vector of one cell: the call
of `probit_dlog_likelihood` returns, and its write
`gsl_vector_set(gradient, 1, _)` is an access of cell 1 of a vector of one
cell, which is out of bounds. -/
theorem C26_probit_gradient_write_out_of_bounds :
    1 ≤ (probit_data ℚ).size2
      ∧ (probit_beta ℚ).size = (probit_data ℚ).size2 - 1
      ∧ ∃ l : List probit_access,
          Option.map Prod.snd
              (probit_dlog_likelihood_traced (fun x _ => x) (fun x _ => x / 10) (probit_beta ℚ)
                (probit_data ℚ) (vector_of_list [0]) (probit_cache_empty ℚ))
            = some l
          ∧ probit_access.gradient 1 1 ∈ l
          ∧ access_in_bounds (probit_access.gradient 1 1) = false := by
  obtain ⟨l, hl, hmem⟩ := probit_dlog_likelihood_traced_eq_some (fun x _ => x)
    (fun x _ => x / 10) (probit_beta ℚ) (probit_data ℚ) (vector_of_list [0])
    (probit_cache_empty ℚ) ⟨by decide, by decide, by decide⟩ rfl
  refine ⟨by decide, by decide, l, ?_, (hmem _).mpr ⟨1, by decide, Or.inr rfl⟩, rfl⟩
  rw [hl]
  rfl

/-- C26, amended: under the shape precondition (the data has `c >= 1` columns
and `beta` has exactly `c - 1` cells) and with a gradient vector of at least
`c - 1` cells, from every cache state with `beta_dot_x_is_current = 0`, every
access that `probit_log_likelihood`, `probit_dlog_likelihood` and `probit_fdf`
make themselves is in bounds: the reads of the data matrix (row index below
the rows, column index 0 or `j + 1` below `c`), the reads of the cached vector
(index below its length, the vector being present, as a read of an absent one
ends the call) and the writes of the gradient (index below its length).  The
recorded calls return what the functions return, each write of the gradient
is among the accesses of `probit_dlog_likelihood`, and the three calls do
return when the data has at least one row and at least two columns. -/
theorem C26_probit_accesses_in_bounds {α : Type} [Field α] [DecidableEq α] (log : α → α)
    (gsl_ran_gaussian_pdf gsl_cdf_gaussian_P : α → α → α) (beta : gsl_vector α)
    (data : gsl_matrix α) (gradient : gsl_vector α) (s : probit_cache α)
    (hcol : 1 ≤ data.size2) (hlen : beta.size = data.size2 - 1)
    (hgrad : beta.size ≤ gradient.size) (hflag : s.beta_dot_x_is_current = false) :
    (Option.map Prod.fst (probit_log_likelihood_traced log gsl_cdf_gaussian_P beta data s)
        = probit_log_likelihood log gsl_cdf_gaussian_P beta data s
      ∧ Option.map Prod.fst
          (probit_dlog_likelihood_traced gsl_ran_gaussian_pdf gsl_cdf_gaussian_P beta data
            gradient s)
        = probit_dlog_likelihood gsl_ran_gaussian_pdf gsl_cdf_gaussian_P beta data gradient s
      ∧ Option.map Prod.fst
          (probit_fdf_traced log gsl_ran_gaussian_pdf gsl_cdf_gaussian_P beta data gradient s)
        = probit_fdf log gsl_ran_gaussian_pdf gsl_cdf_gaussian_P beta data gradient s)
    ∧ (∀ (r : α × probit_cache α) (l : List probit_access),
        probit_log_likelihood_traced log gsl_cdf_gaussian_P beta data s = some (r, l) →
          ∀ x, x ∈ l → access_in_bounds x = true)
    ∧ (∀ (r : gsl_vector α × probit_cache α) (l : List probit_access),
        probit_dlog_likelihood_traced gsl_ran_gaussian_pdf gsl_cdf_gaussian_P beta data
          gradient s = some (r, l) →
          (∀ x, x ∈ l → access_in_bounds x = true)
          ∧ ∀ j, j < beta.size → probit_access.gradient j gradient.size ∈ l)
    ∧ (∀ (r : α × gsl_vector α × probit_cache α) (l : List probit_access),
        probit_fdf_traced log gsl_ran_gaussian_pdf gsl_cdf_gaussian_P beta data gradient s
          = some (r, l) →
          (∀ x, x ∈ l → access_in_bounds x = true)
          ∧ ∀ j, j < beta.size → probit_access.gradient j gradient.size ∈ l)
    ∧ (1 ≤ data.size1 → 2 ≤ data.size2 →
        (probit_log_likelihood_traced log gsl_cdf_gaussian_P beta data s).isSome = true
        ∧ (probit_dlog_likelihood_traced gsl_ran_gaussian_pdf gsl_cdf_gaussian_P beta data
            gradient s).isSome = true
        ∧ (probit_fdf_traced log gsl_ran_gaussian_pdf gsl_cdf_gaussian_P beta data gradient
            s).isSome = true) := by
  refine ⟨⟨probit_log_likelihood_traced_fst log _ beta data s,
    probit_dlog_likelihood_traced_fst _ _ beta data gradient s,
    probit_fdf_traced_fst log _ _ beta data gradient s⟩, ?_⟩
  by_cases h : shapes_conform beta data
  · have hlen2 : beta.size + 1 = data.size2 := h.2.2
    obtain ⟨l1, h1, hmem1⟩ := probit_log_likelihood_traced_eq_some log gsl_cdf_gaussian_P
      beta data s h
    obtain ⟨l2, h2, hmem2⟩ := probit_dlog_likelihood_traced_eq_some gsl_ran_gaussian_pdf
      gsl_cdf_gaussian_P beta data gradient s h hflag
    obtain ⟨l3, h3, hmem3⟩ := probit_fdf_traced_eq_some log gsl_ran_gaussian_pdf
      gsl_cdf_gaussian_P beta data gradient s h
    rw [h1, h2, h3]
    refine ⟨fun r l hl x hx => ?_, fun r l hl => ⟨fun x hx => ?_, fun j hj => ?_⟩,
      fun r l hl => ⟨fun x hx => ?_, fun j hj => ?_⟩, fun _ _ => ⟨rfl, rfl, rfl⟩⟩
    · rw [← (Prod.mk.inj (Option.some.inj hl)).2] at hx
      exact probit_log_likelihood_accesses_in_bounds data x hcol ((hmem1 x).mp hx)
    · rw [← (Prod.mk.inj (Option.some.inj hl)).2] at hx
      exact probit_dlog_likelihood_accesses_in_bounds data beta.size gradient.size x hlen2
        hgrad ((hmem2 x).mp hx)
    · rw [← (Prod.mk.inj (Option.some.inj hl)).2]
      exact (hmem2 _).mpr ⟨j, hj, Or.inr rfl⟩
    · rw [← (Prod.mk.inj (Option.some.inj hl)).2] at hx
      rcases (hmem3 x).mp hx with hx1 | hx2
      · exact probit_log_likelihood_accesses_in_bounds data x hcol hx1
      · exact probit_dlog_likelihood_accesses_in_bounds data beta.size gradient.size x hlen2
          hgrad hx2
    · rw [← (Prod.mk.inj (Option.some.inj hl)).2]
      exact (hmem3 _).mpr (Or.inr ⟨j, hj, Or.inr rfl⟩)
  · rw [probit_log_likelihood_traced_eq_none log _ beta data s h,
      probit_dlog_likelihood_traced_eq_none _ _ beta data gradient s h hflag,
      probit_fdf_traced_eq_none log _ _ beta data gradient s h]
    refine ⟨fun r l hl => absurd hl (by simp), fun r l hl => absurd hl (by simp),
      fun r l hl => absurd hl (by simp), fun hrows hcol2 => absurd ?_ h⟩
    exact ⟨by omega, by omega, by omega⟩

/-- C26, amended, on `probit_data` with `beta = (1, 1)`, a gradient vector of
two cells and a stale cache of three cells: `probit_fdf` returns, each of its
accesses is in bounds, and the write of cell 1 of the gradient is one of
them. -/
theorem C26_probit_accesses_in_bounds_witness :
    ∃ l : List probit_access,
      Option.map Prod.snd
          (probit_fdf_traced (fun x : ℚ => x) (fun x _ => x) (fun x _ => x / 10)
            (probit_beta ℚ) (probit_data ℚ) (vector_of_list [0, 0]) (probit_cache_stale ℚ))
        = some l
      ∧ (∀ x, x ∈ l → access_in_bounds x = true)
      ∧ probit_access.gradient 1 2 ∈ l := by
  have h := C26_probit_accesses_in_bounds (fun x : ℚ => x) (fun x _ => x) (fun x _ => x / 10)
    (probit_beta ℚ) (probit_data ℚ) (vector_of_list [0, 0]) (probit_cache_stale ℚ)
    (by decide) (by decide) (by decide) rfl
  obtain ⟨r, hr⟩ := Option.isSome_iff_exists.mp (h.2.2.2.2 (by decide) (by decide)).2.2
  obtain ⟨r1, l⟩ := r
  exact ⟨l, by rw [hr]; rfl, (h.2.2.2.1 r1 l hr).1, (h.2.2.2.1 r1 l hr).2 1 (by decide)⟩

/-- C31, at the feasible parameter `mu = 1` and the one-cell data `[[1]]`: the
first division that `rank_exponential_dlog_likelihood` performs, `1 / log mu`,
has the divisor `log 1 = 0`. -/
theorem C31_rank_exponential_dlog_likelihood_divides_by_log_one :
    0 < gsl_vector_get (vector_of_list [(1 : ℝ)]) 0
    ∧ (rank_exponential_dlog_likelihood_traced Real.log (vector_of_list [1])
        (rank_data_single ℝ) (vector_of_list [0])).1
      = rank_exponential_dlog_likelihood Real.log (vector_of_list [1]) (rank_data_single ℝ)
          (vector_of_list [0])
    ∧ (rank_exponential_dlog_likelihood_traced Real.log (vector_of_list [1])
        (rank_data_single ℝ) (vector_of_list [0])).2.head? = some (1, 0)
    ∧ ∃ division ∈ (rank_exponential_dlog_likelihood_traced Real.log (vector_of_list [1])
        (rank_data_single ℝ) (vector_of_list [0])).2, division.2 = 0 := by
  have hmu : gsl_vector_get (vector_of_list [(1 : ℝ)]) 0 = 1 := by
    simp [gsl_vector_get, vector_of_list]
  rw [rank_exponential_dlog_likelihood_traced_eq, hmu, Real.log_one]
  refine ⟨one_pos, rfl, rfl, (1, 0), ?_, rfl⟩
  exact List.mem_cons_self _ _

/-- C32, as stated, fails in C's `double` arithmetic on the data
`[[1, 0.1], [0, 0.2], [0, 0.3]]` and its rows in the reverse order, a row
permutation.  At `mu = 1` (where `log` is `+0`, so the weight `p` of column 0
is `-0` and that of column 1 is `-1`) the loop of
`rank_exponential_log_likelihood` adds `-0.1`, `-0.2`, `-0.3` in this order to
`-0.6000000000000001` (`-1351079888211149 * 2^-51`) and in the reverse order
to `-0.6` (`-5404319552844595 * 2^-53`). -/
theorem C32_row_order_changes_log_likelihood_in_doubles :
    rank_data_tenths.size2 = rank_data_tenths_reversed.size2
      ∧ (∀ i, i < 3 → ∀ k, k < 2 →
          gsl_matrix_get rank_data_tenths_reversed i k
            = gsl_matrix_get rank_data_tenths (2 - i) k)
      ∧ double.lt 0 (gsl_vector_get (vector_of_list [(1 : double)]) 0) = true
      ∧ rank_exponential_log_likelihood double.log (vector_of_list [1]) rank_data_tenths
        = double.finite true (1351079888211149 * 2 ^ 1023)
      ∧ rank_exponential_log_likelihood double.log (vector_of_list [1])
          rank_data_tenths_reversed
        = double.finite true (5404319552844595 * 2 ^ 1021)
      ∧ rank_exponential_log_likelihood double.log (vector_of_list [1]) rank_data_tenths
        ≠ rank_exponential_log_likelihood double.log (vector_of_list [1])
            rank_data_tenths_reversed := by
  refine ⟨by decide!, by decide!, by decide!, by decide!, by decide!, by decide!⟩

/-- C32, amended: in exact arithmetic (the cells in a linearly ordered field,
such as the reals) the rank-exponential model depends on the data through its
column sums only.  For any two data matrices with the same number of columns
and equal column sums, `exponential_rank_estimate` returns the same parameter
and `rank_exponential_log_likelihood` the same value for every `mu > 0`. -/
theorem C32_rank_exponential_depends_on_column_sums {α κ π : Type} [LinearOrderedField α]
    (log : α → α) (var_covar : gsl_vector α → gsl_matrix α → κ) (data1 data2 : gsl_matrix α)
    (uses : apop_inventory) (parameters : π)
    (hcols : data1.size2 = data2.size2)
    (hsums : ∀ k, k < data1.size2 →
      ∑ i in Finset.range data1.size1, gsl_matrix_get data1 i k
        = ∑ i in Finset.range data2.size1, gsl_matrix_get data2 i k) :
    gsl_vector_get (exponential_rank_estimate log var_covar data1 uses parameters).1.parameters 0
      = gsl_vector_get
          (exponential_rank_estimate log var_covar data2 uses parameters).1.parameters 0
    ∧ ∀ beta : gsl_vector α, 0 < gsl_vector_get beta 0 →
        rank_exponential_log_likelihood log beta data1
          = rank_exponential_log_likelihood log beta data2 := by
  have hT := grand_total_congr data1 data2 hcols hsums
  have hN := rank_total_congr data1 data2 hcols hsums
  constructor
  · unfold gsl_vector_get
    rw [exponential_rank_estimate_parameter_closed, exponential_rank_estimate_parameter_closed,
      hT, hN]
  · intro beta _
    rw [rank_exponential_log_likelihood_closed, rank_exponential_log_likelihood_closed, hT, hN]

/-- C32, amended, on the data with column sums 10, 5, 2 and on its two rows
merged by addition, over the rationals: the estimates agree, and so do the
log-likelihoods at `mu = 3` (with the identity standing for `log`). -/
theorem C32_rank_exponential_depends_on_column_sums_witness :
    gsl_vector_get (exponential_rank_estimate (fun x : ℚ => x) (fun _ _ => ())
        (rank_data_10_5_2 ℚ) inventory_all ()).1.parameters 0
      = gsl_vector_get (exponential_rank_estimate (fun x : ℚ => x) (fun _ _ => ())
          (rank_data_merged ℚ) inventory_all ()).1.parameters 0
    ∧ rank_exponential_log_likelihood (fun x : ℚ => x) (vector_of_list [3])
        (rank_data_10_5_2 ℚ)
      = rank_exponential_log_likelihood (fun x : ℚ => x) (vector_of_list [3])
          (rank_data_merged ℚ) := by
  have h := C32_rank_exponential_depends_on_column_sums (fun x : ℚ => x) (fun _ _ => ())
    (rank_data_10_5_2 ℚ) (rank_data_merged ℚ) inventory_all () rfl
    (by
      intro k hk
      have hk3 : k < 3 := hk
      interval_cases k <;>
        norm_num [rank_data_10_5_2, rank_data_merged, matrix_of_rows, gsl_matrix_get,
          Finset.sum_range_succ])
  exact ⟨h.1, h.2 (vector_of_list [3]) (by simp [gsl_vector_get, vector_of_list])⟩

/-- C33, as stated, fails in C's `double` arithmetic on the one-row data
`[[0, 1, 1]]` (grand total 2) with the scalar `c = 0.1`: on the data the
estimate is `(1 + 2) / 2 = 1.5`, and on the scaled data `[[0, 0.1, 0.1]]` the
numerator is `0.1 + 0.1 * 2 = 0.30000000000000004`, the grand total `0.2`
and the estimate `1.5000000000000002`. -/
theorem C33_scaling_changes_estimate_in_doubles :
    (exponential_rank_estimate_loop rank_data_0_1_1).2 = 2
      ∧ (exponential_rank_estimate_loop rank_data_0_1_1).2 ≠ 0
      ∧ double.of_quotient 1 10 ≠ 0
      ∧ gsl_vector_get
          (exponential_rank_estimate double.log (fun _ _ => ()) rank_data_0_1_1
            inventory_parameters ()).1.parameters 0
        = double.finite false (3 * 2 ^ 1073)
      ∧ gsl_vector_get
          (exponential_rank_estimate double.log (fun _ _ => ())
            (scale_matrix (double.of_quotient 1 10) rank_data_0_1_1)
            inventory_parameters ()).1.parameters 0
        = double.finite false (6755399441055745 * 2 ^ 1022)
      ∧ gsl_vector_get
          (exponential_rank_estimate double.log (fun _ _ => ())
            (scale_matrix (double.of_quotient 1 10) rank_data_0_1_1)
            inventory_parameters ()).1.parameters 0
        ≠ gsl_vector_get
            (exponential_rank_estimate double.log (fun _ _ => ()) rank_data_0_1_1
              inventory_parameters ()).1.parameters 0 := by
  refine ⟨by decide!, by decide!, by decide!, by decide!, by decide!, by decide!⟩

/-- C33, amended: in exact arithmetic (the cells in a field, such as the
reals) the rank-exponential estimate is scale invariant.  For every data
matrix with non-zero grand total and every scalar `c ≠ 0`,
`exponential_rank_estimate` returns on the data with every cell multiplied by
`c` the parameter it returns on the data, and
`rank_exponential_log_likelihood` on the scaled data is `c` times its value on
the data. -/
theorem C33_rank_exponential_scale_invariance {α κ π : Type} [Field α]
    (log : α → α) (var_covar : gsl_vector α → gsl_matrix α → κ) (data : gsl_matrix α)
    (uses : apop_inventory) (parameters : π) (c : α)
    (_htotal : ∑ k in Finset.range data.size2, ∑ i in Finset.range data.size1,
      gsl_matrix_get data i k ≠ 0)
    (hc : c ≠ 0) :
    gsl_vector_get
        (exponential_rank_estimate log var_covar (scale_matrix c data) uses
          parameters).1.parameters 0
      = gsl_vector_get
          (exponential_rank_estimate log var_covar data uses parameters).1.parameters 0
    ∧ ∀ beta : gsl_vector α,
        rank_exponential_log_likelihood log beta (scale_matrix c data)
          = c * rank_exponential_log_likelihood log beta data := by
  constructor
  · unfold gsl_vector_get
    rw [exponential_rank_estimate_parameter_closed, exponential_rank_estimate_parameter_closed,
      grand_total_scale, rank_total_scale, mul_div_mul_left _ _ hc]
  · intro beta
    rw [rank_exponential_log_likelihood_closed, rank_exponential_log_likelihood_closed,
      grand_total_scale, rank_total_scale]
    ring

/-- C33, amended, on the data with column sums 10, 5, 2 scaled by `1/17`
(counts turned into shares), over the rationals: the estimate is still
`9/17`, and the log-likelihood at `mu = 3` is `1/17` of its value on the
counts. -/
theorem C33_rank_exponential_scale_invariance_witness :
    gsl_vector_get
        (exponential_rank_estimate (fun x : ℚ => x) (fun _ _ => ())
          (scale_matrix (1 / 17) (rank_data_10_5_2 ℚ)) inventory_all ()).1.parameters 0
      = 9 / 17
    ∧ rank_exponential_log_likelihood (fun x : ℚ => x) (vector_of_list [3])
        (scale_matrix (1 / 17) (rank_data_10_5_2 ℚ))
      = 1 / 17 * rank_exponential_log_likelihood (fun x : ℚ => x) (vector_of_list [3])
          (rank_data_10_5_2 ℚ) := by
  have hT : (∑ k in Finset.range (rank_data_10_5_2 ℚ).size2,
      ∑ i in Finset.range (rank_data_10_5_2 ℚ).size1,
        gsl_matrix_get (rank_data_10_5_2 ℚ) i k) = 17 := by
    simp [rank_data_10_5_2, matrix_of_rows, gsl_matrix_get, Finset.sum_range_succ]
    norm_num
  have h := C33_rank_exponential_scale_invariance (fun x : ℚ => x) (fun _ _ => ())
    (rank_data_10_5_2 ℚ) inventory_all () (1 / 17) (by rw [hT]; norm_num) (by norm_num)
  refine ⟨?_, h.2 (vector_of_list [3])⟩
  rw [h.1]
  unfold gsl_vector_get
  rw [exponential_rank_estimate_parameter_closed]
  have hT2 : grand_total (rank_data_10_5_2 ℚ) = 17 := hT
  have hN : rank_total (rank_data_10_5_2 ℚ) = 9 := by
    simp [rank_total, rank_data_10_5_2, matrix_of_rows, Finset.sum_range_succ]
    norm_num
  rw [hT2, hN]

/-- C34: the outcome/sign symmetry of the probit log-likelihood.  With
`Phi (-x) = 1 - Phi x` for `Phi x = gsl_cdf_gaussian_P(x, 1)`, for every data
matrix whose outcomes are 0 or 1 and every `beta`, `probit_log_likelihood` at
`beta` on the data returns what it returns at `-beta` on the data with every
outcome of column 0 flipped and the covariates unchanged (and it returns a
value on both when the shapes conform: at least one row, and `beta` of at
least one cell and of columns minus one cells). -/
theorem C34_probit_outcome_sign_symmetry {α : Type} [Field α] [DecidableEq α]
    (log : α → α) (gsl_cdf_gaussian_P : α → α → α) (beta : gsl_vector α)
    (data : gsl_matrix α) (s s1 : probit_cache α)
    (hsym : ∀ x, gsl_cdf_gaussian_P (-x) 1 = 1 - gsl_cdf_gaussian_P x 1)
    (h01 : ∀ i, i < data.size1 → gsl_matrix_get data i 0 = 0 ∨ gsl_matrix_get data i 0 = 1) :
    Option.map Prod.fst (probit_log_likelihood log gsl_cdf_gaussian_P beta data s)
      = Option.map Prod.fst
          (probit_log_likelihood log gsl_cdf_gaussian_P (gsl_vector_neg beta)
            (flip_outcomes data) s1)
    ∧ (shapes_conform beta data →
        (probit_log_likelihood log gsl_cdf_gaussian_P beta data s).isSome = true
        ∧ (probit_log_likelihood log gsl_cdf_gaussian_P (gsl_vector_neg beta)
            (flip_outcomes data) s1).isSome = true) := by
  by_cases h : shapes_conform beta data
  · have hf : shapes_conform (gsl_vector_neg beta) (flip_outcomes data) := h
    rw [probit_log_likelihood_eq_some log _ beta data s h,
      probit_log_likelihood_eq_some log _ (gsl_vector_neg beta) (flip_outcomes data) s1 hf]
    refine ⟨?_, fun _ => ⟨rfl, rfl⟩⟩
    simp only [Option.map_some', Option.some.injEq]
    show _ = ∑ i in Finset.range data.size1, _
    refine Finset.sum_congr rfl fun i hi => ?_
    rw [linear_predictor_neg_flip,
      probit_row_term_flip log _ data _ i hsym (h01 i (Finset.mem_range.mp hi))]
  · have hf : ¬ shapes_conform (gsl_vector_neg beta) (flip_outcomes data) := h
    rw [probit_log_likelihood_eq_none log _ beta data s h,
      probit_log_likelihood_eq_none log _ (gsl_vector_neg beta) (flip_outcomes data) s1 hf]
    exact ⟨rfl, fun h2 => absurd h2 h⟩

/-- C34 on `probit_data` with `beta = (1, 1)`, the identity standing for `log`
and `1/2 + x/20` for the normal CDF. -/
theorem C34_probit_outcome_sign_symmetry_witness :
    Option.map Prod.fst
        (probit_log_likelihood (fun x : ℚ => x) (fun x _ => 1 / 2 + x / 20) (probit_beta ℚ)
          (probit_data ℚ) (probit_cache_empty ℚ))
      = Option.map Prod.fst
          (probit_log_likelihood (fun x : ℚ => x) (fun x _ => 1 / 2 + x / 20)
            (gsl_vector_neg (probit_beta ℚ)) (flip_outcomes (probit_data ℚ))
            (probit_cache_empty ℚ))
    ∧ (probit_log_likelihood (fun x : ℚ => x) (fun x _ => 1 / 2 + x / 20) (probit_beta ℚ)
          (probit_data ℚ) (probit_cache_empty ℚ)).isSome = true := by
  have h := C34_probit_outcome_sign_symmetry (fun x : ℚ => x) (fun x _ => 1 / 2 + x / 20)
    (probit_beta ℚ) (probit_data ℚ) (probit_cache_empty ℚ) (probit_cache_empty ℚ)
    (by intro x; ring)
    (by
      intro i hi
      have hi2 : i < 2 := hi
      interval_cases i <;> simp [probit_data, matrix_of_rows, gsl_matrix_get])
  exact ⟨h.1, (h.2 ⟨by decide, by decide, by decide⟩).1⟩

/-- C35, as stated, fails on the data of no row and two columns with a `beta`
of one cell and the constant `1/2` standing for the normal CDF (so that
`0 < Phi x < 1`): `dot` asks `gsl_matrix_submatrix` for a view of no row, the
GSL rejects it, and `probit_log_likelihood` returns no value; the data has no
rows and the value is not 0. -/
theorem C35_probit_log_likelihood_no_rows_aborts :
    (probit_data_no_rows ℝ).size1 = 0
      ∧ (probit_beta_one ℝ).size + 1 = (probit_data_no_rows ℝ).size2
      ∧ (∀ x : ℝ, 0 < (fun (_ _ : ℝ) => (1 / 2 : ℝ)) x 1
          ∧ (fun (_ _ : ℝ) => (1 / 2 : ℝ)) x 1 < 1)
      ∧ probit_log_likelihood Real.log (fun _ _ => 1 / 2) (probit_beta_one ℝ)
          (probit_data_no_rows ℝ) (probit_cache_empty ℝ) = none
      ∧ Option.map Prod.fst
          (probit_log_likelihood Real.log (fun _ _ => 1 / 2) (probit_beta_one ℝ)
            (probit_data_no_rows ℝ) (probit_cache_empty ℝ))
        ≠ some 0 := by
  have hnone : probit_log_likelihood Real.log (fun _ _ => 1 / 2) (probit_beta_one ℝ)
      (probit_data_no_rows ℝ) (probit_cache_empty ℝ) = none :=
    probit_log_likelihood_eq_none _ _ _ _ _ (by simp [shapes_conform, probit_data_no_rows])
  refine ⟨rfl, by simp [probit_beta_one, probit_data_no_rows, vector_of_list],
    fun x => ⟨by norm_num, by norm_num⟩, hnone, ?_⟩
  rw [hnone]
  simp

/-- C35, amended: in exact real arithmetic, with `0 < Phi x < 1` for all `x`,
where `Phi x` is `gsl_cdf_gaussian_P(x, 1)`, for every data matrix and every
`beta`, every value that `probit_log_likelihood` returns is strictly negative
(so non-positive, and never 0); it returns a value when the shapes conform (at
least one row, and `beta` of at least one cell and of columns minus one
cells), and it returns no value when the data has no rows. -/
theorem C35_probit_log_likelihood_negative (gsl_cdf_gaussian_P : ℝ → ℝ → ℝ)
    (beta : gsl_vector ℝ) (data : gsl_matrix ℝ) (s : probit_cache ℝ)
    (hpos : ∀ x, 0 < gsl_cdf_gaussian_P x 1) (hlt : ∀ x, gsl_cdf_gaussian_P x 1 < 1) :
    (∀ v : ℝ,
        Option.map Prod.fst (probit_log_likelihood Real.log gsl_cdf_gaussian_P beta data s)
          = some v → v < 0)
      ∧ (shapes_conform beta data →
          (probit_log_likelihood Real.log gsl_cdf_gaussian_P beta data s).isSome = true)
      ∧ (data.size1 = 0 →
          probit_log_likelihood Real.log gsl_cdf_gaussian_P beta data s = none) := by
  by_cases h : shapes_conform beta data
  · rw [probit_log_likelihood_eq_some Real.log _ beta data s h]
    refine ⟨?_, fun _ => rfl, fun h0 => absurd h.1 (by omega)⟩
    intro v hv
    simp only [Option.map_some', Option.some.injEq] at hv
    rw [← hv]
    have hnonempty : (Finset.range data.size1).Nonempty :=
      Finset.nonempty_range_iff.mpr (Nat.pos_iff_ne_zero.mp h.1)
    have hlt0 : ∑ i in Finset.range data.size1,
        probit_row_term Real.log gsl_cdf_gaussian_P data (linear_predictor beta data i) i
        < ∑ _i in Finset.range data.size1, (0 : ℝ) :=
      Finset.sum_lt_sum_of_nonempty hnonempty fun i _ =>
        probit_row_term_neg gsl_cdf_gaussian_P data _ i hpos hlt
    rw [Finset.sum_const_zero] at hlt0
    exact hlt0
  · rw [probit_log_likelihood_eq_none Real.log _ beta data s h]
    exact ⟨fun v hv => by simp at hv, fun h2 => absurd h2 h, fun _ => rfl⟩

/-- C35, amended, on `probit_data` (two rows) with `beta = (1, 1)` and the
logistic function `1 / (1 + exp (-x))` standing for the normal CDF: a value is
returned and it is strictly negative. -/
theorem C35_probit_log_likelihood_negative_witness :
    ∃ v : ℝ,
      Option.map Prod.fst
          (probit_log_likelihood Real.log (fun x _ => 1 / (1 + Real.exp (-x))) (probit_beta ℝ)
            (probit_data ℝ) (probit_cache_empty ℝ))
        = some v
      ∧ v < 0 := by
  obtain ⟨hneg, hsome, _⟩ := C35_probit_log_likelihood_negative
    (fun x _ => 1 / (1 + Real.exp (-x))) (probit_beta ℝ) (probit_data ℝ)
    (probit_cache_empty ℝ) logistic_pos logistic_lt_one
  have hshape : shapes_conform (probit_beta ℝ) (probit_data ℝ) := by
    simp [shapes_conform, probit_beta, probit_data, vector_of_list, matrix_of_rows]
  obtain ⟨r, hr⟩ := Option.isSome_iff_exists.mp (hsome hshape)
  refine ⟨r.1, by rw [hr]; rfl, hneg r.1 (by rw [hr]; rfl)⟩

end Apophenia
